import Mathlib

/-!
# Asteroids: simulation core, hit tests and the level state machine

A shallow embedding of `Asteroids.c`.  The C `double`s are read as elements of
an arbitrary linearly ordered field `K` (exact arithmetic); the three things the
program takes from `math.h` (`sin`, `cos`, `M_PI`) are passed in as a `Libm K`,
and `rand()` is a stream of non-negative integers carried in the game state.
The fixed-size pools are functions on `Fin n`; an `int` is an `Int`.  A write through
an index outside a pool (`asteroids[-1]`) has no meaning in C: functions that can
reach one return an `Option`, `none` standing for that case.
-/

set_option linter.unusedSectionVars false
set_option linter.unusedVariables false

namespace Asteroids

/-! ## Constants (the `#define`s) -/

abbrev SHIP_VERTICES : ℕ := 3
abbrev MAX_PHOTONS : ℕ := 8
abbrev MAX_LARGE_ASTEROIDS : ℕ := 8
abbrev MAX_ASTEROIDS : ℕ := 32
abbrev MAX_VERTICES : ℕ := 16
abbrev MAX_STARS : ℕ := 50
abbrev MAX_DUST : ℕ := 32
abbrev DUST_PARTICLES : ℕ := 15
def TIME_WAIT : Int := 50

/-- What the program uses from `math.h`: `sin`, `cos` and the constant `M_PI`. -/
structure Libm (K : Type) where
  sin : K → K
  cos : K → K
  pi : K

section Defs

variable {K : Type} [LinearOrderedField K]

/-- Constant `#define SHIP_VELOCITY_MAX 2.0` -/
def SHIP_VELOCITY_MAX : K := 2
/-- Constant `#define ACCELERATION_STEP_FORWARD 0.1` -/
def ACCELERATION_STEP_FORWARD : K := 1 / 10
/-- Constant `#define ACCELERATION_STEP_BACK -0.1` -/
def ACCELERATION_STEP_BACK : K := -(1 / 10)
/-- Constant `#define LARGE_SIZE 3.0` -/
def LARGE_SIZE : K := 3
/-- Constant `#define MEDIUM_SIZE 2.0` -/
def MEDIUM_SIZE : K := 2
/-- Constant `#define SMALL_SIZE 1.0` -/
def SMALL_SIZE : K := 1

/-- Expression `x*DEG2RAD` with `#define DEG2RAD M_PI/180.0`, which expands to `x*M_PI/180.0`. -/
def degToRad (m : Libm K) (x : K) : K := x * m.pi / 180

/-! ## Data model (the `typedef struct`s) -/

/-- Type `struct Coords` -/
structure Coords (K : Type) where
  x : K
  y : K

/-- Type `Ship` -/
structure Ship (K : Type) where
  engine : Int
  x : K
  y : K
  phi : K
  dx : K
  dy : K
  coords : Fin SHIP_VERTICES → Coords K

/-- Type `Photon` -/
structure Photon (K : Type) where
  active : Int
  x : K
  y : K
  dx : K
  dy : K

/-- Type `Asteroid`.  `nVertices` is an `int` that only ever holds `6 + rand() % 10`; the
vertex array `coords[MAX_VERTICES]` is read at computed indices `i % nVertices`, so it
is a function on `ℕ` whose first `MAX_VERTICES` entries are the array. -/
structure Asteroid (K : Type) where
  active : Int
  nVertices : ℕ
  x : K
  y : K
  phi : K
  dx : K
  dy : K
  dphi : K
  size : K
  coords : ℕ → Coords K

/-- Type `StartBox` -/
structure StartBox (K : Type) where
  coords : Fin 4 → Coords K

/-- Type `Stars` -/
structure Stars (K : Type) where
  x : K
  y : K

/-- Type `Dust` -/
structure Dust (K : Type) where
  coords : Fin DUST_PARTICLES → Coords K
  active : Int
  dustTimer : Int
  drawThisFrame : Int

/-- The timer callback registered with `glutTimerFunc`: which screen runs next tick. -/
inductive TimerFunc where
  | menuMyTimer
  | levelMyTimer
  | gameMyTimer
  | gameOverMyTimer
  deriving DecidableEq, Repr

/-- The display callback registered with `glutDisplayFunc`. -/
inductive DisplayFunc where
  | myMenuDisplay
  | myLevelDisplay
  | myGameDisplay
  | gameOverDisplay
  deriving DecidableEq, Repr

/-- The global variables of the program, the two registered GLUT callbacks, and the
sequence of values that the coming calls of `rand()` return. -/
structure Game (K : Type) where
  up : Int
  down : Int
  left : Int
  right : Int
  xMax : K
  yMax : K
  ship : Ship K
  photons : Fin MAX_PHOTONS → Photon K
  asteroids : Fin MAX_ASTEROIDS → Asteroid K
  startbox : StartBox K
  stars : Fin MAX_STARS → Stars K
  dust : Fin MAX_DUST → Dust K
  shipExplosion : Dust K
  lives : Int
  otherFrame : Int
  gameState : Int
  betweenLevelTimer : Int
  timerFunc : TimerFunc
  displayFunc : DisplayFunc
  randSeq : ℕ → ℕ

/-! ## Velocity update -/

/-- The local `acceleration` of `updateVelocity`: `ACCELERATION_STEP_BACK` when
`state` is non-zero, `ACCELERATION_STEP_FORWARD` otherwise. -/
def thrust (state : Int) : K :=
  if state ≠ 0 then ACCELERATION_STEP_BACK else ACCELERATION_STEP_FORWARD

/-- Function `updateVelocity(state)`: `state != 0` is reverse thrust. -/
def updateVelocity (m : Libm K) (state : Int) (ship : Ship K) : Ship K :=
  let acceleration : K := thrust state
  let s := m.sin (degToRad m ship.phi)
  let c := m.cos (degToRad m ship.phi)
  if (ship.dx - acceleration * s) ^ 2 + (ship.dy + acceleration * c) ^ 2 < SHIP_VELOCITY_MAX ^ 2 then
    { ship with dx := ship.dx - acceleration * s, dy := ship.dy + acceleration * c }
  else
    if (ship.dx - acceleration * s ≥ ship.dx ∧ ship.dy + acceleration * c ≥ ship.dy)
        ∨ (ship.dx - acceleration * s) ^ 2 + (ship.dy + acceleration * c) ^ 2 ≥ SHIP_VELOCITY_MAX ^ 2 then
      if state ≠ 0 then
        { ship with dx := SHIP_VELOCITY_MAX * s, dy := -SHIP_VELOCITY_MAX * c }
      else
        { ship with dx := -SHIP_VELOCITY_MAX * s, dy := SHIP_VELOCITY_MAX * c }
    else if ship.dx - acceleration * s ≥ ship.dx ∧ ship.dy + acceleration * c < ship.dy then
      { ship with dx := -SHIP_VELOCITY_MAX * s, dy := ship.dy + acceleration * c }
    else if ship.dx - acceleration * s < ship.dx ∧ ship.dy + acceleration * c ≥ ship.dy then
      { ship with dx := ship.dx - acceleration * s, dy := SHIP_VELOCITY_MAX * c }
    else
      { ship with dx := ship.dx - acceleration * s, dy := ship.dy + acceleration * c }

/-! ## Random numbers -/

/-- Function `rand()`: the head of the stream of coming values, and the stream after it. -/
def rand (s : ℕ → ℕ) : ℕ × (ℕ → ℕ) := (s 0, fun n => s (n + 1))

/-- Function `myRandom(min, max)`: `min+(max-min)*(rand()%0x7fff)/32767.0`. -/
def myRandom (min max : K) (s : ℕ → ℕ) : K × (ℕ → ℕ) :=
  (min + (max - min) * (((rand s).1 % 0x7fff : ℕ) : K) / 32767, (rand s).2)

/-- The value `myRandom(min, max)` computes from the `rand()` result `r`. -/
def myRandomOf (min max : K) (r : ℕ) : K := min + (max - min) * ((r % 0x7fff : ℕ) : K) / 32767

/-! ## Loops over a fixed-size array -/

/-- Loop `for (i = 0; i < n; i++) pool[i] = body(pool[i]);`: a loop whose iteration `i`
reads and writes slot `i` only. -/
def forSlots {n : ℕ} {α : Type} (body : α → α) (pool : Fin n → α) : Fin n → α :=
  (List.finRange n).foldl (fun q i => Function.update q i (body (q i))) pool

/-! ## Asteroid creation -/

/-- The angle of vertex `i` of `n` in `initAsteroid`: `theta = 2.0*M_PI*i/a->nVertices`. -/
def vertexAngle (m : Libm K) (i n : ℕ) : K := 2 * m.pi * (i : K) / (n : K)

/-- One iteration of the vertex loop of `initAsteroid`: draw the radius, write vertex `i`. -/
def initVertex (m : Libm K) (size : K) (acc : Asteroid K × (ℕ → ℕ)) (i : ℕ) :
    Asteroid K × (ℕ → ℕ) :=
  let theta := vertexAngle m i acc.1.nVertices
  let r := size * (myRandom 2 3 acc.2).1
  ({ acc.1 with coords := Function.update acc.1.coords i ⟨-r * m.sin theta, r * m.cos theta⟩ },
    (myRandom (2 : K) 3 acc.2).2)

/-- Function `initAsteroid(a, x, y, size)`, with the stream of `rand()` values threaded through. -/
def initAsteroid (m : Libm K) (a : Asteroid K) (x y size : K) (s : ℕ → ℕ) :
    Asteroid K × (ℕ → ℕ) :=
  let rdx := myRandom (-(4 / 5) : K) (4 / 5) s
  let rdy := myRandom (-(4 / 5) : K) (4 / 5) rdx.2
  let rdphi := myRandom (-(2 / 5) : K) (2 / 5) rdy.2
  let rn := rand rdphi.2
  let a1 : Asteroid K :=
    { a with x := x, y := y, dx := rdx.1, dy := rdy.1, dphi := rdphi.1, size := size,
             nVertices := 6 + rn.1 % (MAX_VERTICES - 6) }
  let r := (List.range a1.nVertices).foldl (initVertex m size) (a1, rn.2)
  ({ r.1 with active := 1 }, r.2)

/-- Function `findInactiveAsteroid()`: the first slot with `active == 0`, or `-1`. -/
def findInactiveAsteroid (asteroids : Fin MAX_ASTEROIDS → Asteroid K) : Int :=
  match (List.finRange MAX_ASTEROIDS).find? (fun i => decide ((asteroids i).active = 0)) with
  | some i => (i.val : Int)
  | none => -1

/-- Function `findInactivePhoton()`: the first slot with `active == 0`, or `-1`. -/
def findInactivePhoton (photons : Fin MAX_PHOTONS → Photon K) : Int :=
  match (List.finRange MAX_PHOTONS).find? (fun i => decide ((photons i).active = 0)) with
  | some i => (i.val : Int)
  | none => -1

/-- Function `initAsteroid(&asteroids[idx], x, y, size)`.  An index outside `0..MAX_ASTEROIDS-1`
addresses memory outside the array: the result is `none`. -/
def initAsteroidAt (m : Libm K) (idx : Int) (x y size : K) (g : Game K) : Option (Game K) :=
  if h : 0 ≤ idx ∧ idx < (MAX_ASTEROIDS : Int) then
    let k : Fin MAX_ASTEROIDS := ⟨idx.toNat, by unfold MAX_ASTEROIDS at *; omega⟩
    let r := initAsteroid m (g.asteroids k) x y size g.randSeq
    some { g with asteroids := Function.update g.asteroids k r.1, randSeq := r.2 }
  else none

/-! ## Debris -/

/-- One iteration of the particle loop of `activateDust` / `activateExplosion`. -/
def scatterParticle (x y : K) (acc : Dust K × (ℕ → ℕ)) (j : Fin DUST_PARTICLES) :
    Dust K × (ℕ → ℕ) :=
  let rx := myRandom (x - 15 / 2) (x + 15 / 2) acc.2
  let ry := myRandom (y - 15 / 2) (y + 15 / 2) rx.2
  ({ acc.1 with coords := Function.update acc.1.coords j ⟨rx.1, ry.1⟩ }, ry.2)

/-- The body run on the burst that `activateDust` / `activateExplosion` switches on. -/
def activateBurst (x y : K) (d : Dust K) (s : ℕ → ℕ) : Dust K × (ℕ → ℕ) :=
  let r := (List.finRange DUST_PARTICLES).foldl (scatterParticle x y)
    ({ d with active := 1, drawThisFrame := 1 }, s)
  ({ r.1 with dustTimer := 0 }, r.2)

/-- Function `activateDust(x, y)`: the first inactive burst is switched on; none free, nothing. -/
def activateDust (x y : K) (g : Game K) : Game K :=
  match (List.finRange MAX_DUST).find? (fun i => decide ((g.dust i).active = 0)) with
  | some i =>
    { g with dust := Function.update g.dust i (activateBurst x y (g.dust i) g.randSeq).1,
             randSeq := (activateBurst x y (g.dust i) g.randSeq).2 }
  | none => g

/-- Function `activateExplosion(x, y)`. -/
def activateExplosion (x y : K) (g : Game K) : Game K :=
  { g with shipExplosion := (activateBurst x y g.shipExplosion g.randSeq).1,
           randSeq := (activateBurst x y g.shipExplosion g.randSeq).2 }

/-! ## Hit tests -/

/-- One iteration of the edge loop of `PhotonCollision`: edge `i` of asteroid `a`
against the point `(px1, py1)`. -/
def photonEdge (px1 py1 : K) (a : Asteroid K) (number_intersections : Int) (i : ℕ) : Int :=
  let lines := a.nVertices
  let ax1 := a.x + (a.coords (i % lines)).x
  let ay1 := a.y + (a.coords (i % lines)).y
  let ax2 := a.x + (a.coords ((i + 1) % lines)).x
  let ay2 := a.y + (a.coords ((i + 1) % lines)).y
  if (py1 < ay1 ∧ py1 > ay2) ∨ (py1 > ay1 ∧ py1 < ay2) then
    let xIntersect := ((py1 - ay1) / (ay2 - ay1)) * ax2 + ((ay2 - py1) / (ay2 - ay1)) * ax1
    if xIntersect ≥ px1
        ∧ ((xIntersect < ax1 ∧ xIntersect > ax2) ∨ (xIntersect > ax1 ∧ xIntersect < ax2)) then
      number_intersections + 1
    else number_intersections
  else number_intersections

/-- Function `PhotonCollision(p, a)`: parity of the number of counted edges. -/
def PhotonCollision (p : Photon K) (a : Asteroid K) : Int :=
  ((List.range a.nVertices).foldl (photonEdge p.x p.y a) 0) % 2

/-- One iteration of the edge loop of `ShipCollision`.  The span test is inclusive, so
it also passes on an edge with `ay1 == ay2 == py1`; there both quotients are `0.0/0.0`,
a NaN, `x_intersect` is a NaN and every comparison with it is false: the edge is not
counted. -/
def shipEdge (px1 py1 : K) (a : Asteroid K) (number_intersections : Int) (i : ℕ) : Int :=
  let lines := a.nVertices
  let ax1 := a.x + (a.coords (i % lines)).x
  let ay1 := a.y + (a.coords (i % lines)).y
  let ax2 := a.x + (a.coords ((i + 1) % lines)).x
  let ay2 := a.y + (a.coords ((i + 1) % lines)).y
  if (py1 ≤ ay1 ∧ py1 ≥ ay2) ∨ (py1 ≥ ay1 ∧ py1 ≤ ay2) then
    if ay2 - ay1 = 0 then number_intersections
    else
      let x_intersect := ((py1 - ay1) / (ay2 - ay1)) * ax2 + ((ay2 - py1) / (ay2 - ay1)) * ax1
      if x_intersect ≥ px1
          ∧ ((x_intersect ≤ ax1 ∧ x_intersect ≥ ax2) ∨ (x_intersect ≥ ax1 ∧ x_intersect ≤ ax2)) then
        number_intersections + 1
      else number_intersections
  else number_intersections

/-- Function `ShipCollision(c, a)`; it reads the globals `ship.x`, `ship.y`. -/
def ShipCollision (ship : Ship K) (c : Coords K) (a : Asteroid K) : Int :=
  ((List.range a.nVertices).foldl (shipEdge (c.x + ship.x) (c.y + ship.y) a) 0) % 2

/-! ## The phases of a `gameMyTimer` tick -/

/-- The `if / else if` chain that wraps the ship at the playfield bounds. -/
def wrapShip (xMax yMax : K) (ship : Ship K) : Ship K :=
  if ship.x < 0 then { ship with x := xMax }
  else if ship.x > xMax then { ship with x := 0 }
  else if ship.y < 0 then { ship with y := yMax }
  else if ship.y > yMax then { ship with y := 0 }
  else ship

/-- The first block of `gameMyTimer`: the explosion timer, or the ship's controls,
wrap and move. -/
def shipPhase (m : Libm K) (g : Game K) : Game K :=
  if g.shipExplosion.active = 1 then
    { g with shipExplosion :=
        { g.shipExplosion with dustTimer := g.shipExplosion.dustTimer + 1 } }
  else
    let s1 : Ship K := if g.left = 1 then { g.ship with phi := g.ship.phi + 10 } else g.ship
    let s2 : Ship K := if g.right = 1 then { s1 with phi := s1.phi - 10 } else s1
    let s3 : Ship K :=
      if g.up = 1 then updateVelocity m 0 { s2 with engine := 1 }
      else if g.down = 1 then updateVelocity m 1 { s2 with engine := 1 }
      else { s2 with engine := 0 }
    let s4 := wrapShip g.xMax g.yMax s3
    { g with ship := { s4 with x := s4.x + s4.dx, y := s4.y + s4.dy } }

/-- The body of the dust loop of `gameMyTimer`. -/
def stepDust (d : Dust K) : Dust K :=
  if d.active ≠ 0 then
    let d1 : Dust K :=
      if d.drawThisFrame ≠ 0 then { d with drawThisFrame := 0, dustTimer := d.dustTimer + 1 }
      else { d with drawThisFrame := 1, dustTimer := d.dustTimer + 1 }
    if d1.dustTimer > 6 then { d1 with active := 0 } else d1
  else d

/-- The body of the photon-advance loop of `gameMyTimer`. -/
def advancePhoton (xMax yMax : K) (p : Photon K) : Photon K :=
  if p.active = 1 then
    let p1 : Photon K := { p with x := p.x + p.dx, y := p.y + p.dy }
    if p1.x > xMax ∨ p1.x < 0 ∨ p1.y < 0 ∨ p1.y > yMax then { p1 with active := 0 } else p1
  else p

/-- The body of the asteroid-advance loop, the same text in `gameMyTimer` and in
`menuMyTimer`: move, rotate, then one `if / else if` chain over the four bounds. -/
def advanceAsteroid (xMax yMax : K) (a : Asteroid K) : Asteroid K :=
  if a.active = 1 then
    let a1 : Asteroid K := { a with x := a.x + a.dx, y := a.y + a.dy, phi := a.phi + a.dphi }
    if a1.x < 0 then { a1 with x := xMax }
    else if a1.x > xMax then { a1 with x := 0 }
    else if a1.y < 0 then { a1 with y := yMax }
    else if a1.y > yMax then { a1 with y := 0 }
    else a1
  else a

/-- The asteroid-advance loop, `for (i = 0; i < MAX_ASTEROIDS; i++)`, of `gameMyTimer`
and of `menuMyTimer`. -/
def advanceAsteroids (g : Game K) : Game K :=
  { g with asteroids := forSlots (advanceAsteroid g.xMax g.yMax) g.asteroids }

/-- The asteroid pool after the statement `asteroids[j].active = 0`. -/
def deactivate (pool : Fin MAX_ASTEROIDS → Asteroid K) (j : Fin MAX_ASTEROIDS) :
    Fin MAX_ASTEROIDS → Asteroid K :=
  Function.update pool j { pool j with active := 0 }

/-- The statements run when photon `i` hits asteroid `j`: debris, both deactivated, and
the children for a large or medium asteroid. -/
def photonHit (m : Libm K) (i : Fin MAX_PHOTONS) (j : Fin MAX_ASTEROIDS) (g : Game K) :
    Option (Game K) :=
  let g1 := activateDust (g.asteroids j).x (g.asteroids j).y g
  let g2 : Game K :=
    { g1 with photons := Function.update g1.photons i { g1.photons i with active := 0 } }
  let g3 : Game K := { g2 with asteroids := deactivate g2.asteroids j }
  if (g3.asteroids j).size = LARGE_SIZE then
    (initAsteroidAt m (findInactiveAsteroid g3.asteroids)
        (g3.asteroids j).x (g3.asteroids j).y MEDIUM_SIZE g3).bind fun g4 =>
      initAsteroidAt m (findInactiveAsteroid g4.asteroids)
        (g4.asteroids j).x (g4.asteroids j).y MEDIUM_SIZE g4
  else if (g3.asteroids j).size = MEDIUM_SIZE then
    (initAsteroidAt m (findInactiveAsteroid g3.asteroids)
        (g3.asteroids j).x (g3.asteroids j).y SMALL_SIZE g3).bind fun g4 =>
      initAsteroidAt m (findInactiveAsteroid g4.asteroids)
        (g4.asteroids j).x (g4.asteroids j).y SMALL_SIZE g4
  else some g3

/-- The inner loop of the photon-vs-asteroid phase for photon `i`, over the asteroid
indices still to visit; a hit ends the loop (`break`). -/
def photonScan (m : Libm K) (i : Fin MAX_PHOTONS) :
    List (Fin MAX_ASTEROIDS) → Game K → Option (Game K)
  | [], g => some g
  | j :: js, g =>
    if (g.asteroids j).active = 1 then
      if PhotonCollision (g.photons i) (g.asteroids j) ≠ 0 then photonHit m i j g
      else photonScan m i js g
    else photonScan m i js g

/-- The body of the outer loop of the photon-vs-asteroid phase, for photon `i`. -/
def photonStep (m : Libm K) (g : Game K) (i : Fin MAX_PHOTONS) : Option (Game K) :=
  if (g.photons i).active = 1 then photonScan m i (List.finRange MAX_ASTEROIDS) g
  else some g

/-- The photon-vs-asteroid phase of `gameMyTimer`. -/
def photonPhase (m : Libm K) (g : Game K) : Option (Game K) :=
  (List.finRange MAX_PHOTONS).foldlM (photonStep m) g

/-- The two nested loops of the ship-vs-asteroid phase over the pairs (hull vertex,
asteroid) still to visit; a hit sets both counters past their bounds, which ends both
loops. -/
def shipScan : List (Fin SHIP_VERTICES × Fin MAX_ASTEROIDS) → Game K → Game K
  | [], g => g
  | (j, i) :: rest, g =>
    if (g.asteroids i).active = 1 ∧ g.shipExplosion.active = 0 then
      if ShipCollision g.ship (g.ship.coords j) (g.asteroids i) ≠ 0 then
        { activateExplosion 0 0 g with lives := g.lives - 1 }
      else shipScan rest g
    else shipScan rest g

/-- The ship-vs-asteroid phase of `gameMyTimer`: hull vertex outer, asteroid inner. -/
def shipCollisionPhase (g : Game K) : Game K :=
  shipScan ((List.finRange SHIP_VERTICES).flatMap fun j =>
    (List.finRange MAX_ASTEROIDS).map fun i => (j, i)) g

/-- Function `levelBeat()`: 1 when an asteroid with `active == 1` is left, else 0. -/
def levelBeat (g : Game K) : Int :=
  let numberLeft : Int := (List.finRange MAX_ASTEROIDS).foldl
    (fun n i => if (g.asteroids i).active = 1 then n + 1 else n) 0
  if numberLeft > 0 then 1 else 0

/-- The end of `gameMyTimer`: which callbacks run next. -/
def gameMyTimerEnd (g : Game K) : Game K :=
  if g.shipExplosion.dustTimer > TIME_WAIT then
    let g1 : Game K :=
      { g with shipExplosion := { g.shipExplosion with active := 0, dustTimer := 0 } }
    if g1.lives = 0 then
      { g1 with displayFunc := DisplayFunc.gameOverDisplay, timerFunc := TimerFunc.gameOverMyTimer }
    else
      { g1 with displayFunc := DisplayFunc.myLevelDisplay, timerFunc := TimerFunc.levelMyTimer }
  else if levelBeat g ≠ 0 then
    { g with timerFunc := TimerFunc.gameMyTimer }
  else
    { g with gameState := g.gameState + 1, displayFunc := DisplayFunc.myLevelDisplay,
             timerFunc := TimerFunc.levelMyTimer }

/-- Body of `gameMyTimer` up to the final choice of callbacks. -/
def gameMyTimerBody (m : Libm K) (g : Game K) : Option (Game K) :=
  let g1 := shipPhase m g
  let g2 : Game K := { g1 with dust := forSlots stepDust g1.dust }
  let g3 : Game K := { g2 with photons := forSlots (advancePhoton g2.xMax g2.yMax) g2.photons }
  let g4 := advanceAsteroids g3
  (photonPhase m g4).map shipCollisionPhase

/-- Function `gameMyTimer(value)`. -/
def gameMyTimer (m : Libm K) (g : Game K) : Option (Game K) :=
  (gameMyTimerBody m g).map gameMyTimerEnd

/-- Function `menuMyTimer(value)`. -/
def menuMyTimer (g : Game K) : Game K :=
  let g1 : Game K := { g with otherFrame := if g.otherFrame > 2 then 0 else g.otherFrame + 1 }
  let g2 := advanceAsteroids g1
  if g2.gameState = 0 then { g2 with timerFunc := TimerFunc.menuMyTimer }
  else
    { g2 with lives := 3, displayFunc := DisplayFunc.myLevelDisplay,
              timerFunc := TimerFunc.levelMyTimer }

/-! ## Level start -/

/-- The body of the seeding loop of `gameInit` (and of `menuInit`) for slot `i`. -/
def seedAsteroid (m : Libm K) (g : Game K) (i : ℕ) : Option (Game K) :=
  let r := myRandom (-1 : K) 1 g.randSeq
  if r.1 < 0 then
    let ry := myRandom 0 g.yMax r.2
    initAsteroidAt m (i : Int) 0 ry.1 LARGE_SIZE { g with randSeq := ry.2 }
  else
    let rx := myRandom 0 g.xMax r.2
    initAsteroidAt m (i : Int) rx.1 0 LARGE_SIZE { g with randSeq := rx.2 }

/-- Function `gameInit()`. -/
def gameInit (m : Libm K) (g : Game K) : Option (Game K) :=
  let scaleX : K := 2
  let scaleY : K := 7 / 2
  let ship : Ship K :=
    { engine := 0, x := 83, y := 50, phi := 0, dx := 0, dy := 0,
      coords := fun k =>
        if k.val = 0 then ⟨m.cos (m.pi / 180 * 90), m.sin (m.pi / 180 * 90) * scaleY⟩
        else if k.val = 1 then
          ⟨m.cos (m.pi / 180 * 225) * scaleX, m.sin (m.pi / 180 * 225) * scaleY⟩
        else ⟨m.cos (m.pi / 180 * 315) * scaleX, m.sin (m.pi / 180 * 315) * scaleY⟩ }
  let g1 : Game K :=
    { g with ship := ship,
             photons := forSlots (fun p : Photon K => { p with dx := 2, dy := 2 }) g.photons }
  (List.range g1.gameState.toNat).foldlM (seedAsteroid m) g1

/-- Function `levelMyTimer(value)`. -/
def levelMyTimer (m : Libm K) (g : Game K) : Option (Game K) :=
  if g.betweenLevelTimer < TIME_WAIT then
    some { g with betweenLevelTimer := g.betweenLevelTimer + 1,
                  timerFunc := TimerFunc.levelMyTimer }
  else
    let g1 : Game K :=
      { g with betweenLevelTimer := 0,
               asteroids := forSlots (fun a : Asteroid K => { a with active := 0 }) g.asteroids }
    if g1.gameState > 8 then
      some { g1 with timerFunc := TimerFunc.gameOverMyTimer,
                     displayFunc := DisplayFunc.gameOverDisplay }
    else
      gameInit m { g1 with timerFunc := TimerFunc.gameMyTimer,
                           displayFunc := DisplayFunc.myGameDisplay }

/-- The game after `n` consecutive invocations of a timer callback; `none` once one of
them has written outside an array. -/
def runTicks (tick : Game K → Option (Game K)) : ℕ → Game K → Option (Game K)
  | 0, g => some g
  | n + 1, g => (runTicks tick n g).bind tick

/-! ## Keyboard -/

/-- The loop of `case 32` of `myKey` over the photon slots still to visit: the first
inactive slot is fired from the ship, which ends the loop (`break`). -/
def firePhoton (m : Libm K) : List (Fin MAX_PHOTONS) → Game K → Game K
  | [], g => g
  | i :: rest, g =>
    if (g.photons i).active = 0 then
      let p : Photon K :=
        { g.photons i with
          active := 1,
          x := g.ship.x - 5 * m.sin (degToRad m g.ship.phi),
          y := g.ship.y + 5 * m.cos (degToRad m g.ship.phi),
          dx := -5 * m.sin (degToRad m g.ship.phi),
          dy := 5 * m.cos (degToRad m g.ship.phi) }
      { g with photons := Function.update g.photons i p }
    else firePhoton m rest g

/-- Function `myKey(key, x, y)`: only key 32 (space) has a case. -/
def myKey (m : Libm K) (key : ℕ) (g : Game K) : Game K :=
  if key = 32 then firePhoton m (List.finRange MAX_PHOTONS) g else g

/-! ## Example states -/

/-- An asteroid slot that is switched off, all fields zero. -/
def blankAsteroid : Asteroid ℚ :=
  { active := 0, nVertices := 0, x := 0, y := 0, phi := 0, dx := 0, dy := 0, dphi := 0,
    size := 0, coords := fun _ => ⟨0, 0⟩ }

/-- A burst that is switched off. -/
def blankDust : Dust ℚ :=
  { coords := fun _ => ⟨0, 0⟩, active := 0, dustTimer := 0, drawThisFrame := 0 }

/-- The state of the program's globals at start-up in a 1000 by 600 window
(`xMax = 100.0*1000/600`, `yMax = 100.0`), with `rand()` returning 0, 1, 2, ... -/
def blankGame : Game ℚ :=
  { up := 0, down := 0, left := 0, right := 0, xMax := 500 / 3, yMax := 100,
    ship := { engine := 0, x := 0, y := 0, phi := 0, dx := 0, dy := 0,
              coords := fun _ => ⟨0, 0⟩ },
    photons := fun _ => { active := 0, x := 0, y := 0, dx := 0, dy := 0 },
    asteroids := fun _ => blankAsteroid,
    startbox := { coords := fun _ => ⟨0, 0⟩ },
    stars := fun _ => ⟨0, 0⟩,
    dust := fun _ => blankDust,
    shipExplosion := blankDust,
    lives := 3, otherFrame := 0, gameState := 0, betweenLevelTimer := 0,
    timerFunc := TimerFunc.menuMyTimer, displayFunc := DisplayFunc.myMenuDisplay,
    randSeq := fun n => n }

/-- A table standing in for `math.h` over `ℚ`: the values of `sin` and `cos` at 0. -/
def headingUp : Libm ℚ := { sin := fun _ => 0, cos := fun _ => 1, pi := 0 }

/-- A game with all eight photons in flight. -/
def fullMagazine : Game ℚ :=
  { blankGame with photons := fun _ => { active := 1, x := 10, y := 10, dx := 0, dy := 5 } }

/-- A game entering the level screen for level 3. -/
def levelThree : Game ℚ :=
  { blankGame with gameState := 3, timerFunc := TimerFunc.levelMyTimer,
                   displayFunc := DisplayFunc.myLevelDisplay }

/-- A diamond-shaped rock: 4 vertices at distance 2 from the centre `(10, 10)`. -/
def diamond (size : ℚ) : Asteroid ℚ :=
  { active := 1, nVertices := 4, x := 10, y := 10, phi := 0, dx := 0, dy := 0, dphi := 0,
    size := size,
    coords := fun i =>
      if i = 0 then ⟨0, 2⟩ else if i = 1 then ⟨-2, 0⟩ else if i = 2 then ⟨0, -2⟩
      else if i = 3 then ⟨2, 0⟩ else ⟨0, 0⟩ }

/-- A game whose asteroid 0 is about to leave the playfield through the corner at the
origin: at `(1/4, 1/4)` with velocity `(-1/2, -1/2)`. -/
def cornerGame : Game ℚ :=
  { blankGame with
    asteroids := fun i =>
      if i.val = 0 then
        { blankAsteroid with active := 1, x := 1 / 4, y := 1 / 4, dx := -(1 / 2), dy := -(1 / 2) }
      else blankAsteroid }

/-! ## Level label, mouse, cursor keys, window size -/

/-- Function `getLevelNumber()`: the `switch` on `gameState` with cases 1 to 8. -/
def getLevelNumber (g : Game K) : String :=
  if g.gameState = 1 then "LEVEL 1"
  else if g.gameState = 2 then "LEVEL 2"
  else if g.gameState = 3 then "LEVEL 3"
  else if g.gameState = 4 then "LEVEL 4"
  else if g.gameState = 5 then "LEVEL 5"
  else if g.gameState = 6 then "LEVEL 6"
  else if g.gameState = 7 then "LEVEL 7"
  else if g.gameState = 8 then "LEVEL 8"
  else "ERROR"

/-- Function `withinBox(x, y, box)`: the pixel coordinates are divided by 6.0 first. -/
def withinBox (x y : K) (box : StartBox K) : Int :=
  let x := x / 6
  let y := y / 6
  if x ≥ (box.coords 0).x ∧ x ≤ (box.coords 1).x ∧ y ≥ (box.coords 1).y ∧ y ≤ (box.coords 2).y then 1
  else 0

/-- Function `mouseClick(button, state, x, y)`.  The constant `GLUT_DOWN` comes from the
GLUT header, which is not part of the program: it is a parameter. -/
def mouseClick (GLUT_DOWN : Int) (button state x y : Int) (g : Game K) : Game K :=
  if state = GLUT_DOWN then
    if g.gameState = 0 then
      if withinBox (x : K) (y : K) g.startbox ≠ 0 then { g with gameState := 1 } else g
    else g
  else g

/-- Function `keyPress(key, x, y)`: the cursor keys 100 to 103. -/
def keyPress (key : Int) (g : Game K) : Game K :=
  if key = 100 then { g with left := 1 }
  else if key = 101 then { g with up := 1 }
  else if key = 102 then { g with right := 1 }
  else if key = 103 then { g with down := 1 }
  else g

/-- Function `keyRelease(key, x, y)`. -/
def keyRelease (key : Int) (g : Game K) : Game K :=
  if key = 100 then { g with left := 0 }
  else if key = 101 then { g with up := 0 }
  else if key = 102 then { g with right := 0 }
  else if key = 103 then { g with down := 0 }
  else g

/-- Function `myReshape(w, h)`: `xMax = 100.0*w/h; yMax = 100.0`.  For `h = 0` the C
quotient is an infinity or a NaN, which `K` does not have; the quotient is 0 here. -/
def myReshape (w h : Int) (g : Game K) : Game K :=
  { g with xMax := 100 * (w : K) / (h : K), yMax := 100 }

/-! ## Menu and game over -/

/-- The start box that `menuInit` writes. -/
def startBox : StartBox K :=
  { coords := fun k =>
      if k.val = 0 then ⟨102, 48⟩ else if k.val = 1 then ⟨118, 48⟩
      else if k.val = 2 then ⟨118, 54⟩ else ⟨102, 54⟩ }

/-- One iteration of the star loop of `menuInit`. -/
def placeStar (acc : (Fin MAX_STARS → Stars K) × (ℕ → ℕ)) (i : Fin MAX_STARS) :
    (Fin MAX_STARS → Stars K) × (ℕ → ℕ) :=
  let rx := myRandom (0 : K) 160 acc.2
  let ry := myRandom (0 : K) 100 rx.2
  (Function.update acc.1 i ⟨rx.1, ry.1⟩, ry.2)

/-- Function `menuInit()`: start box, stars, and `MAX_LARGE_ASTEROIDS` seeded asteroids. -/
def menuInit (m : Libm K) (g : Game K) : Option (Game K) :=
  let st := (List.finRange MAX_STARS).foldl placeStar (g.stars, g.randSeq)
  let g1 : Game K := { g with startbox := startBox, stars := st.1, randSeq := st.2 }
  (List.range MAX_LARGE_ASTEROIDS).foldlM (seedAsteroid m) g1

/-- Function `gameOverMyTimer(value)`. -/
def gameOverMyTimer (m : Libm K) (g : Game K) : Option (Game K) :=
  if g.betweenLevelTimer < TIME_WAIT then
    some { g with betweenLevelTimer := g.betweenLevelTimer + 1,
                  timerFunc := TimerFunc.gameOverMyTimer }
  else
    let g1 : Game K :=
      { g with betweenLevelTimer := 0,
               asteroids := forSlots (fun a : Asteroid K => { a with active := 0 }) g.asteroids }
    (menuInit m g1).map fun g2 =>
      { g2 with timerFunc := TimerFunc.menuMyTimer, displayFunc := DisplayFunc.myMenuDisplay,
                gameState := 0 }

/-- A game on the game-over screen after the last life was lost on level 3. -/
def lostGame : Game ℚ :=
  { blankGame with lives := 0, gameState := 3, timerFunc := TimerFunc.gameOverMyTimer,
                   displayFunc := DisplayFunc.gameOverDisplay }

/-- The menu as `main` leaves it before the first event, in a 1000 by 600 window: the
start box is set. -/
def menuGame : Game ℚ := { blankGame with startbox := startBox }

/-! ## The division in the hit tests -/

/-- The divisor `ay2 - ay1` of edge `i` in `PhotonCollision` and `ShipCollision`. -/
def edgeDivisor (a : Asteroid K) (i : ℕ) : K :=
  (a.y + (a.coords ((i + 1) % a.nVertices)).y) - (a.y + (a.coords (i % a.nVertices)).y)

/-- The test of `PhotonCollision` that guards the division on edge `i`. -/
def photonSpan (py1 : K) (a : Asteroid K) (i : ℕ) : Prop :=
  (py1 < a.y + (a.coords (i % a.nVertices)).y ∧ py1 > a.y + (a.coords ((i + 1) % a.nVertices)).y)
  ∨ (py1 > a.y + (a.coords (i % a.nVertices)).y
      ∧ py1 < a.y + (a.coords ((i + 1) % a.nVertices)).y)

/-- The test of `ShipCollision` that guards the division on edge `i`. -/
def shipSpan (py1 : K) (a : Asteroid K) (i : ℕ) : Prop :=
  (py1 ≤ a.y + (a.coords (i % a.nVertices)).y ∧ py1 ≥ a.y + (a.coords ((i + 1) % a.nVertices)).y)
  ∨ (py1 ≥ a.y + (a.coords (i % a.nVertices)).y
      ∧ py1 ≤ a.y + (a.coords ((i + 1) % a.nVertices)).y)

instance (py1 : K) (a : Asteroid K) (i : ℕ) : Decidable (photonSpan py1 a i) := by
  unfold photonSpan; infer_instance

instance (py1 : K) (a : Asteroid K) (i : ℕ) : Decidable (shipSpan py1 a i) := by
  unfold shipSpan; infer_instance

/-- Function `drawDust(dust)`: three `myRandom` calls for the colour of each of the
`DUST_PARTICLES` points; only the `rand()` values consumed matter to the game state. -/
def drawDust (s : ℕ → ℕ) : ℕ → ℕ := fun n => s (n + 3 * DUST_PARTICLES)

/-- Function `myGameDisplay()`: it writes no global; it calls `drawDust` for the ship
explosion when that is active and for every active burst that is drawn this frame. -/
def myGameDisplay (g : Game K) : Game K :=
  let s1 := if g.shipExplosion.active = 1 then drawDust g.randSeq else g.randSeq
  let s2 := (List.finRange MAX_DUST).foldl
    (fun s i => if (g.dust i).active ≠ 0 then
        if (g.dust i).drawThisFrame ≠ 0 then drawDust s else s
      else s) s1
  { g with randSeq := s2 }

/-- The registered display callback runs; `myMenuDisplay`, `myLevelDisplay` and
`gameOverDisplay` write no global and draw no random number. -/
def displayCallback (g : Game K) : Game K :=
  match g.displayFunc with
  | DisplayFunc.myGameDisplay => myGameDisplay g
  | DisplayFunc.myMenuDisplay => g
  | DisplayFunc.myLevelDisplay => g
  | DisplayFunc.gameOverDisplay => g

/-- The registered timer callback runs. -/
def timerCallback (m : Libm K) (g : Game K) : Option (Game K) :=
  match g.timerFunc with
  | TimerFunc.menuMyTimer => some (menuMyTimer g)
  | TimerFunc.levelMyTimer => levelMyTimer m g
  | TimerFunc.gameMyTimer => gameMyTimer m g
  | TimerFunc.gameOverMyTimer => gameOverMyTimer m g

/-- What the GLUT main loop can deliver to the callbacks that `main` registers. -/
inductive Event where
  | timer
  | display
  | keyboard (key : ℕ)
  | special (key : Int)
  | specialUp (key : Int)
  | mouse (button state x y : Int)
  | reshape (w h : Int)

/-- One event delivered to its callback. -/
def handle (m : Libm K) (GLUT_DOWN : Int) (g : Game K) : Event → Option (Game K)
  | Event.timer => timerCallback m g
  | Event.display => some (displayCallback g)
  | Event.keyboard key => some (myKey m key g)
  | Event.special key => some (keyPress key g)
  | Event.specialUp key => some (keyRelease key g)
  | Event.mouse button state x y => some (mouseClick GLUT_DOWN button state x y g)
  | Event.reshape w h => some (myReshape w h g)

/-- The globals as their C initialisers leave them (`lives = 3`, everything else zero),
with the callbacks that `main` registers and the stream that `srand` selects. -/
def startGame (s : ℕ → ℕ) : Game K :=
  { up := 0, down := 0, left := 0, right := 0, xMax := 0, yMax := 0,
    ship := { engine := 0, x := 0, y := 0, phi := 0, dx := 0, dy := 0,
              coords := fun _ => ⟨0, 0⟩ },
    photons := fun _ => { active := 0, x := 0, y := 0, dx := 0, dy := 0 },
    asteroids := fun _ =>
      { active := 0, nVertices := 0, x := 0, y := 0, phi := 0, dx := 0, dy := 0, dphi := 0,
        size := 0, coords := fun _ => ⟨0, 0⟩ },
    startbox := { coords := fun _ => ⟨0, 0⟩ },
    stars := fun _ => ⟨0, 0⟩,
    dust := fun _ => { coords := fun _ => ⟨0, 0⟩, active := 0, dustTimer := 0,
                       drawThisFrame := 0 },
    shipExplosion := { coords := fun _ => ⟨0, 0⟩, active := 0, dustTimer := 0,
                       drawThisFrame := 0 },
    lives := 3, otherFrame := 0, gameState := 0, betweenLevelTimer := 0,
    timerFunc := TimerFunc.menuMyTimer, displayFunc := DisplayFunc.myMenuDisplay,
    randSeq := s }

/-- Function `main`: `menuInit()` on the initial globals, then the events of the main
loop in order.  The result is `none` when a callback writes outside a pool. -/
def program (m : Libm K) (GLUT_DOWN : Int) (s : ℕ → ℕ) (events : List Event) :
    Option (Game K) :=
  (menuInit m (startGame s)).bind fun g => events.foldlM (handle m GLUT_DOWN) g

/-! ## Asteroid bookkeeping -/

/-- The weight of a slot: 4 for an active large asteroid, 2 for a medium one, 1 for a
small one, 0 otherwise. -/
def slotWeight (a : Asteroid K) : ℕ :=
  if a.active = 1 then
    if a.size = LARGE_SIZE then 4 else if a.size = MEDIUM_SIZE then 2
    else if a.size = SMALL_SIZE then 1 else 0
  else 0

/-- The total weight of the pool. -/
def poolWeight (pool : Fin MAX_ASTEROIDS → Asteroid K) : ℕ :=
  ∑ i, slotWeight (pool i)

/-- The number of active asteroids of a given size. -/
def countSize (pool : Fin MAX_ASTEROIDS → Asteroid K) (size : K) : ℕ :=
  (Finset.univ.filter fun i => (pool i).active = 1 ∧ (pool i).size = size).card

/-- Every slot that is not inactive holds an active asteroid of one of the three sizes. -/
def wellSized (pool : Fin MAX_ASTEROIDS → Asteroid K) : Prop :=
  ∀ i, (pool i).active ≠ 0 → 1 ≤ slotWeight (pool i)

/-- The globals that the asteroid-advance and photon-vs-asteroid phases leave alone. -/
def SameScore (g g' : Game K) : Prop :=
  g'.lives = g.lives ∧ g'.shipExplosion = g.shipExplosion ∧ g'.gameState = g.gameState
  ∧ g'.timerFunc = g.timerFunc ∧ g'.displayFunc = g.displayFunc ∧ g'.ship = g.ship

/-- What holds of the globals between any two events of a run. -/
structure Inv (g : Game K) : Prop where
  lives_nonneg : 0 ≤ g.lives
  lives_le : g.lives ≤ 3
  exploding : g.timerFunc = TimerFunc.gameMyTimer ∨ g.timerFunc = TimerFunc.levelMyTimer →
    g.lives = 0 → g.shipExplosion.active = 1
  level_nonneg : 0 ≤ g.gameState
  playing : g.timerFunc = TimerFunc.gameMyTimer →
    g.gameState ≤ 8 ∧ wellSized g.asteroids ∧ (poolWeight g.asteroids : Int) ≤ 4 * g.gameState

/-- The state of a `gameMyTimer` tick when it reaches `test for and handle collisions`:
ship, dust, photons and asteroids have been advanced. -/
def beforeCollisions (m : Libm K) (g : Game K) : Game K :=
  advanceAsteroids
    { shipPhase m g with
      dust := forSlots stepDust (shipPhase m g).dust,
      photons := forSlots (advancePhoton (shipPhase m g).xMax (shipPhase m g).yMax)
        (shipPhase m g).photons }

/-- A game being played on level 1 with the ship's nose inside the single large
asteroid. -/
def rammedGame : Game ℚ :=
  { blankGame with
    gameState := 1, timerFunc := TimerFunc.gameMyTimer,
    displayFunc := DisplayFunc.myGameDisplay,
    ship := { engine := 0, x := 10, y := 7, phi := 0, dx := 0, dy := 0,
              coords := fun k => if k.val = 0 then ⟨0, 7 / 2⟩ else ⟨0, 0⟩ },
    asteroids := fun i => if i.val = 0 then diamond 3 else blankAsteroid }

/-- A run that starts a game: a click inside the start box (pixel `(660, 306)`), the
`menuMyTimer` tick that sees it, the 50 waiting ticks of the level screen and the tick
that calls `gameInit`. -/
def playEvents (GLUT_DOWN : Int) : List Event :=
  Event.mouse 0 GLUT_DOWN 660 306
    :: Event.timer :: (List.replicate 50 Event.timer ++ [Event.timer])

/-! ## The outer loop of the photon phase, taken apart at one photon -/

/-- The outer loop of the photon-vs-asteroid phase up to, not including, photon `i`: its
result is the state in which the loop body runs for photon `i`. -/
def photonsBefore (m : Libm K) (g : Game K) (i : Fin MAX_PHOTONS) : Option (Game K) :=
  ((List.finRange MAX_PHOTONS).take i.val).foldlM (photonStep m) g

/-- The rest of the outer loop of the photon-vs-asteroid phase, for the photons after
`i`. -/
def photonsAfter (m : Libm K) (g : Game K) (i : Fin MAX_PHOTONS) : Option (Game K) :=
  ((List.finRange MAX_PHOTONS).drop (i.val + 1)).foldlM (photonStep m) g

/-- A game on level 2 with two overlapping large asteroids, slot 0 centred at `(10, 10)`
and slot 1 at `(10, 11)`, and photon 0 at `(10, 11/2)` flying up at 5 per tick: the
advance takes it to `(10, 21/2)`, inside both. -/
def overlapGame : Game ℚ :=
  { blankGame with
    gameState := 2, timerFunc := TimerFunc.gameMyTimer,
    displayFunc := DisplayFunc.myGameDisplay,
    photons := fun i =>
      if i.val = 0 then { active := 1, x := 10, y := 11 / 2, dx := 0, dy := 5 }
      else { active := 0, x := 0, y := 0, dx := 0, dy := 0 },
    asteroids := fun i =>
      if i.val = 0 then diamond 3 else if i.val = 1 then { diamond 3 with y := 11 }
      else blankAsteroid }

/-- The state of the tick from `overlapGame` when it reaches the collision tests. -/
def overlapAdvanced : Game ℚ := beforeCollisions headingUp overlapGame

end Defs

section Theorems

variable {K : Type} [LinearOrderedField K]

/-! ## Loops over a pool -/

lemma foldl_update_apply {n : ℕ} {α : Type} (body : α → α) (l : List (Fin n)) (hl : l.Nodup)
    (q : Fin n → α) (i : Fin n) :
    (l.foldl (fun q i => Function.update q i (body (q i))) q) i
      = if i ∈ l then body (q i) else q i := by
  induction l generalizing q with
  | nil => simp
  | cons j l ih =>
    rw [List.foldl_cons, ih (List.nodup_cons.mp hl).2]
    by_cases hij : i = j
    · subst hij
      simp [(List.nodup_cons.mp hl).1]
    · simp [hij, Function.update_noteq hij]

/-- A `forSlots` loop applies its body to every slot. -/
lemma forSlots_apply {n : ℕ} {α : Type} (body : α → α) (pool : Fin n → α) (i : Fin n) :
    forSlots body pool i = body (pool i) := by
  unfold forSlots
  rw [foldl_update_apply body _ (List.nodup_finRange n)]
  simp

/-- Counting with an `int` counter in a loop is `List.countP`. -/
lemma foldl_count {α : Type} (p : α → Prop) [DecidablePred p] (l : List α) (n0 : Int) :
    l.foldl (fun n i => if p i then n + 1 else n) n0 = n0 + (l.countP fun i => decide (p i)) := by
  induction l generalizing n0 with
  | nil => simp
  | cons a l ih =>
    rw [List.foldl_cons, ih, List.countP_cons]
    by_cases h : p a <;> simp [h]
    ring

/-- Function `levelBeat()` is non-zero exactly when some asteroid has `active == 1`. -/
lemma levelBeat_ne_zero_iff (g : Game K) :
    levelBeat g ≠ 0 ↔ ∃ i, (g.asteroids i).active = 1 := by
  unfold levelBeat
  simp only []
  rw [foldl_count (fun i => (g.asteroids i).active = 1), zero_add]
  constructor
  · intro h
    have hpos : 0 < (List.finRange MAX_ASTEROIDS).countP
        (fun i => decide ((g.asteroids i).active = 1)) := by
      by_contra hc
      have h0 : (List.finRange MAX_ASTEROIDS).countP
          (fun i => decide ((g.asteroids i).active = 1)) = 0 := by omega
      simp [h0] at h
    obtain ⟨i, _, hi⟩ := List.countP_pos_iff.mp hpos
    exact ⟨i, by simpa using hi⟩
  · rintro ⟨i, hi⟩
    have hpos : 0 < (List.finRange MAX_ASTEROIDS).countP
        (fun i => decide ((g.asteroids i).active = 1)) :=
      List.countP_pos_iff.mpr ⟨i, List.mem_finRange i, by simpa using hi⟩
    have : (0 : Int) < ((List.finRange MAX_ASTEROIDS).countP
        (fun i => decide ((g.asteroids i).active = 1)) : ℕ) := by exact_mod_cast hpos
    simp [this]

/-- With no inactive slot among those still to visit, the fire loop changes nothing. -/
lemma firePhoton_full (m : Libm K) (l : List (Fin MAX_PHOTONS)) (g : Game K)
    (h : ∀ i ∈ l, (g.photons i).active ≠ 0) : firePhoton m l g = g := by
  induction l with
  | nil => rfl
  | cons i l ih =>
    rw [firePhoton, if_neg (h i (List.mem_cons_self i l))]
    exact ih fun k hk => h k (List.mem_cons_of_mem i hk)

/-! ## Random draws and asteroid creation -/

lemma myRandom_fst (min max : K) (s : ℕ → ℕ) : (myRandom min max s).1 = myRandomOf min max (s 0) :=
  rfl

lemma myRandom_snd (min max : K) (s : ℕ → ℕ) : (myRandom min max s).2 = fun n => s (n + 1) :=
  rfl

/-- Every value of `myRandom(min, max)` with `min < max` lies in `[min, max)`. -/
lemma myRandomOf_mem (min max : K) (h : min < max) (r : ℕ) :
    min ≤ myRandomOf min max r ∧ myRandomOf min max r < max := by
  unfold myRandomOf
  have h0 : (0 : K) ≤ ((r % 0x7fff : ℕ) : K) := Nat.cast_nonneg _
  have h1 : ((r % 0x7fff : ℕ) : K) < 32767 := by
    have : r % 0x7fff < 32767 := Nat.mod_lt _ (by norm_num)
    exact_mod_cast this
  have hd : (0 : K) < max - min := sub_pos.mpr h
  constructor
  · have : 0 ≤ (max - min) * ((r % 0x7fff : ℕ) : K) / 32767 := by positivity
    linarith
  · have : (max - min) * ((r % 0x7fff : ℕ) : K) / 32767 < max - min := by
      rw [div_lt_iff₀ (by norm_num)]
      exact mul_lt_mul_of_pos_left h1 hd
    linarith

/-- The vertex loop of `initAsteroid` run for `k` iterations: vertex `i < k` is written
with the radius taken from the `i`-th coming `rand()` value; nothing else changes. -/
lemma initVertex_foldl (m : Libm K) (size : K) (a1 : Asteroid K) (s : ℕ → ℕ) (k : ℕ) :
    (List.range k).foldl (initVertex m size) (a1, s)
      = ({ a1 with coords := fun i =>
            if i < k then
              ⟨-(size * myRandomOf 2 3 (s i)) * m.sin (vertexAngle m i a1.nVertices),
                size * myRandomOf 2 3 (s i) * m.cos (vertexAngle m i a1.nVertices)⟩
            else a1.coords i },
         fun n => s (n + k)) := by
  induction k with
  | zero => simp
  | succ k ih =>
    rw [List.range_succ, List.foldl_append, ih]
    simp only [List.foldl_cons, List.foldl_nil, initVertex, myRandom_fst, myRandom_snd, zero_add]
    refine Prod.ext ?_ ?_
    · simp only []
      congr 1
      funext i
      by_cases hi : i = k
      · subst hi; simp
      · rw [Function.update_noteq hi]
        by_cases hlt : i < k
        · simp [hlt, Nat.lt_succ_of_lt hlt]
        · have : ¬ i < k + 1 := by omega
          simp [hlt, this]
    · funext n
      simp only []
      congr 1
      omega

/-- The asteroid that `initAsteroid` writes, in closed form: `rand()` values 0, 1, 2
give `dx`, `dy`, `dphi`, value 3 the vertex count, value `4 + i` the radius of vertex
`i`. -/
lemma initAsteroid_eq (m : Libm K) (a : Asteroid K) (x y size : K) (s : ℕ → ℕ) :
    initAsteroid m a x y size s
      = ({ active := 1, nVertices := 6 + s 3 % 10, x := x, y := y, phi := a.phi,
           dx := myRandomOf (-(4 / 5)) (4 / 5) (s 0),
           dy := myRandomOf (-(4 / 5)) (4 / 5) (s 1),
           dphi := myRandomOf (-(2 / 5)) (2 / 5) (s 2),
           size := size,
           coords := fun i =>
             if i < 6 + s 3 % 10 then
               ⟨-(size * myRandomOf 2 3 (s (i + 4))) * m.sin (vertexAngle m i (6 + s 3 % 10)),
                 size * myRandomOf 2 3 (s (i + 4)) * m.cos (vertexAngle m i (6 + s 3 % 10))⟩
             else a.coords i },
         fun n => s (n + (6 + s 3 % 10) + 4)) := by
  unfold initAsteroid
  simp only [initVertex_foldl, myRandom_fst, myRandom_snd, rand, zero_add]
  rfl

/-! ## Level start -/

/-- Writing a new asteroid into a slot of the pool succeeds. -/
lemma initAsteroidAt_slot (m : Libm K) (k : Fin MAX_ASTEROIDS) (x y size : K) (g : Game K) :
    initAsteroidAt m (k.val : Int) x y size g
      = some { g with
          asteroids := Function.update g.asteroids k
            (initAsteroid m (g.asteroids k) x y size g.randSeq).1,
          randSeq := (initAsteroid m (g.asteroids k) x y size g.randSeq).2 } := by
  unfold initAsteroidAt
  have hk : 0 ≤ (k.val : Int) ∧ (k.val : Int) < (MAX_ASTEROIDS : Int) :=
    ⟨Int.natCast_nonneg _, by exact_mod_cast k.isLt⟩
  rw [dif_pos hk]
  have e : (⟨(k.val : Int).toNat, by have := k.isLt; omega⟩ : Fin MAX_ASTEROIDS) = k :=
    Fin.ext (Int.toNat_natCast k.val)
  simp only [e]

lemma initAsteroid_active (m : Libm K) (a : Asteroid K) (x y size : K) (s : ℕ → ℕ) :
    (initAsteroid m a x y size s).1.active = 1 := by rw [initAsteroid_eq]

lemma initAsteroid_size (m : Libm K) (a : Asteroid K) (x y size : K) (s : ℕ → ℕ) :
    (initAsteroid m a x y size s).1.size = size := by rw [initAsteroid_eq]

lemma initAsteroid_x (m : Libm K) (a : Asteroid K) (x y size : K) (s : ℕ → ℕ) :
    (initAsteroid m a x y size s).1.x = x := by rw [initAsteroid_eq]

lemma initAsteroid_y (m : Libm K) (a : Asteroid K) (x y size : K) (s : ℕ → ℕ) :
    (initAsteroid m a x y size s).1.y = y := by rw [initAsteroid_eq]

/-- Seeding slot `i` writes an active large asteroid there and draws random numbers;
nothing else changes. -/
lemma seedAsteroid_slot (m : Libm K) (g : Game K) (i : Fin MAX_ASTEROIDS) :
    ∃ (a : Asteroid K) (s : ℕ → ℕ), a.active = 1 ∧ a.size = LARGE_SIZE
      ∧ seedAsteroid m g i.val
        = some { g with asteroids := Function.update g.asteroids i a, randSeq := s } := by
  unfold seedAsteroid
  simp only []
  split_ifs
  · rw [initAsteroidAt_slot]
    exact ⟨_, _, initAsteroid_active _ _ _ _ _ _, initAsteroid_size _ _ _ _ _ _, rfl⟩
  · rw [initAsteroidAt_slot]
    exact ⟨_, _, initAsteroid_active _ _ _ _ _ _, initAsteroid_size _ _ _ _ _ _, rfl⟩

/-- The seeding loop for `n` asteroids, `n` at most the pool size: slots below `n` hold
active large asteroids, the other slots and all other globals are as before. -/
lemma seedAsteroid_foldlM (m : Libm K) (g : Game K) (n : ℕ) (hn : n ≤ MAX_ASTEROIDS) :
    ∃ (pool : Fin MAX_ASTEROIDS → Asteroid K) (s : ℕ → ℕ),
      (List.range n).foldlM (seedAsteroid m) g = some { g with asteroids := pool, randSeq := s }
      ∧ (∀ i : Fin MAX_ASTEROIDS, i.val < n → (pool i).active = 1 ∧ (pool i).size = LARGE_SIZE)
      ∧ (∀ i : Fin MAX_ASTEROIDS, n ≤ i.val → pool i = g.asteroids i) := by
  induction n with
  | zero => exact ⟨g.asteroids, g.randSeq, rfl, fun i hi => absurd hi (Nat.not_lt_zero _),
      fun _ _ => rfl⟩
  | succ n ih =>
    obtain ⟨pool, s, hf, hact, hrest⟩ := ih (Nat.le_of_succ_le hn)
    obtain ⟨a, s2, ha, hsz, hseed⟩ :=
      seedAsteroid_slot m { g with asteroids := pool, randSeq := s } ⟨n, hn⟩
    refine ⟨Function.update pool ⟨n, hn⟩ a, s2, ?_, ?_, ?_⟩
    · rw [List.range_succ, List.foldlM_append, hf]
      simp only [List.foldlM_cons, List.foldlM_nil, Option.bind_eq_bind, Option.some_bind,
        Option.pure_def, Option.bind_some]
      exact hseed
    · intro i hi
      by_cases hin : i = ⟨n, hn⟩
      · subst hin; rw [Function.update_same]; exact ⟨ha, hsz⟩
      · rw [Function.update_noteq hin]
        have : i.val ≠ n := fun h => hin (Fin.ext h)
        exact hact i (by omega)
    · intro i hi
      have hin : i ≠ ⟨n, hn⟩ := fun h => by rw [h] at hi; simp at hi
      rw [Function.update_noteq hin]
      exact hrest i (by omega)

/-- While the timer is below `TIME_WAIT`, `levelMyTimer` only counts. -/
lemma levelMyTimer_wait (m : Libm K) (g : Game K) (h : g.betweenLevelTimer < 50) :
    levelMyTimer m g = some { g with betweenLevelTimer := g.betweenLevelTimer + 1,
                                      timerFunc := TimerFunc.levelMyTimer } := by
  unfold levelMyTimer
  rw [if_pos (by simpa [TIME_WAIT] using h)]

/-- The first 50 invocations of `levelMyTimer` from a timer of 0. -/
lemma runTicks_levelMyTimer_wait (m : Libm K) (g : Game K) (h0 : g.betweenLevelTimer = 0)
    (k : ℕ) (hk : k ≤ 50) :
    runTicks (levelMyTimer m) (k + 1) g
      = (if k < 50 then
          some { g with betweenLevelTimer := (k : Int) + 1, timerFunc := TimerFunc.levelMyTimer }
        else levelMyTimer m { g with betweenLevelTimer := 50,
                                     timerFunc := TimerFunc.levelMyTimer }) := by
  induction k with
  | zero =>
    simp only [runTicks, Option.some_bind]
    rw [levelMyTimer_wait m g (by rw [h0]; norm_num), h0]
    simp
  | succ k ih =>
    rw [runTicks, ih (by omega), if_pos (by omega)]
    simp only [Option.some_bind]
    split_ifs with h
    · rw [levelMyTimer_wait m _ (by simp only []; omega)]
      simp only [Nat.cast_add, Nat.cast_one]
    · have : k + 1 = 50 := by omega
      have e : ((k : Int) + 1) = 50 := by omega
      rw [e]

/-- The slots of a pool of 32 with index below `n`, `n` at most 8, number `n`. -/
lemma card_slots_below (n : ℕ) (hn : n ≤ 8) :
    (Finset.univ.filter fun i : Fin MAX_ASTEROIDS => i.val < n).card = n := by
  have e : (Finset.univ.filter fun i : Fin MAX_ASTEROIDS => i.val < n)
      = Finset.Iio (⟨n, by simp only [MAX_ASTEROIDS]; omega⟩ : Fin MAX_ASTEROIDS) := by
    ext i
    simp [Finset.mem_Iio, Fin.lt_def]
  rw [e, Fin.card_Iio]

/-- The 51st invocation of `levelMyTimer` for a level index of at most 8: the pool is
cleared, then `gameInit` seeds slots `0 .. gameState - 1`. -/
lemma levelMyTimer_start (m : Libm K) (g : Game K) (h : g.betweenLevelTimer = 50)
    (hs : g.gameState ≤ 8) :
    ∃ g1 g2 : Game K,
      (∀ i, (g1.asteroids i).active = 0) ∧ g1.betweenLevelTimer = 0
      ∧ gameInit m g1 = some g2 ∧ levelMyTimer m g = some g2
      ∧ g2.timerFunc = TimerFunc.gameMyTimer ∧ g2.displayFunc = DisplayFunc.myGameDisplay
      ∧ g2.betweenLevelTimer = 0 ∧ g2.gameState = g.gameState ∧ g2.lives = g.lives
      ∧ (∀ i : Fin MAX_ASTEROIDS, i.val < g.gameState.toNat →
          (g2.asteroids i).active = 1 ∧ (g2.asteroids i).size = LARGE_SIZE)
      ∧ (∀ i : Fin MAX_ASTEROIDS, g.gameState.toNat ≤ i.val → (g2.asteroids i).active = 0) := by
  have hn : g.gameState.toNat ≤ MAX_ASTEROIDS := by simp only [MAX_ASTEROIDS]; omega
  obtain ⟨pool, s, hf, hact, hrest⟩ := seedAsteroid_foldlM m
    { g with
      betweenLevelTimer := 0,
      asteroids := forSlots (fun a : Asteroid K => { a with active := 0 }) g.asteroids,
      timerFunc := TimerFunc.gameMyTimer, displayFunc := DisplayFunc.myGameDisplay,
      ship :=
        { engine := 0, x := 83, y := 50, phi := 0, dx := 0, dy := 0,
          coords := fun k =>
            if k.val = 0 then ⟨m.cos (m.pi / 180 * 90), m.sin (m.pi / 180 * 90) * (7 / 2)⟩
            else if k.val = 1 then
              ⟨m.cos (m.pi / 180 * 225) * 2, m.sin (m.pi / 180 * 225) * (7 / 2)⟩
            else ⟨m.cos (m.pi / 180 * 315) * 2, m.sin (m.pi / 180 * 315) * (7 / 2)⟩ },
      photons := forSlots (fun p : Photon K => { p with dx := 2, dy := 2 }) g.photons }
    g.gameState.toNat hn
  refine ⟨{ g with
      betweenLevelTimer := 0,
      asteroids := forSlots (fun a : Asteroid K => { a with active := 0 }) g.asteroids,
      timerFunc := TimerFunc.gameMyTimer, displayFunc := DisplayFunc.myGameDisplay }, _,
    fun i => by simp only [forSlots_apply], rfl, hf, ?_, rfl, rfl, rfl, rfl, rfl, hact, ?_⟩
  · unfold levelMyTimer
    rw [if_neg (by rw [h]; simp [TIME_WAIT])]
    simp only []
    rw [if_neg (by omega)]
    exact hf
  · intro i hi
    simp only []
    rw [hrest i hi]
    simp only [forSlots_apply]

/-- The 51st invocation of `levelMyTimer` for a level index above 8. -/
lemma levelMyTimer_finished (m : Libm K) (g : Game K) (h : g.betweenLevelTimer = 50)
    (hs : g.gameState > 8) :
    levelMyTimer m g
      = some { g with betweenLevelTimer := 0,
                      asteroids := fun i => { g.asteroids i with active := 0 },
                      timerFunc := TimerFunc.gameOverMyTimer,
                      displayFunc := DisplayFunc.gameOverDisplay } := by
  unfold levelMyTimer
  rw [if_neg (by rw [h]; simp [TIME_WAIT])]
  simp only []
  rw [if_pos hs]
  congr 2
  funext i
  rw [forSlots_apply]

/-! ## Splitting an asteroid -/

/-- With an inactive slot in the pool, `findInactiveAsteroid` returns the index of one. -/
lemma findInactiveAsteroid_some (pool : Fin MAX_ASTEROIDS → Asteroid K)
    (h : ∃ k, (pool k).active = 0) :
    ∃ k : Fin MAX_ASTEROIDS, findInactiveAsteroid pool = (k.val : Int) ∧ (pool k).active = 0 := by
  unfold findInactiveAsteroid
  cases hf : (List.finRange MAX_ASTEROIDS).find? (fun i => decide ((pool i).active = 0)) with
  | none =>
    obtain ⟨k, hk⟩ := h
    have := List.find?_eq_none.mp hf k (List.mem_finRange k)
    simp [hk] at this
  | some k =>
    refine ⟨k, rfl, ?_⟩
    simpa using List.find?_some hf

/-- The function `activateDust` touches the dust pool and the random stream only. -/
lemma activateDust_asteroids (x y : K) (g : Game K) :
    (activateDust x y g).asteroids = g.asteroids ∧ (activateDust x y g).photons = g.photons := by
  unfold activateDust
  split <;> exact ⟨rfl, rfl⟩

/-- The two `initAsteroid` calls of a split, run on a pool with two inactive slots:
both find a slot; the two slots are different, were inactive, and now hold active
asteroids of the given size at the given asteroid's position; no other slot changes. -/
lemma spawnTwo (m : Libm K) (j : Fin MAX_ASTEROIDS) (sz : K) (g3 : Game K)
    (h2 : ∃ k1 k2 : Fin MAX_ASTEROIDS, k1 ≠ k2 ∧ (g3.asteroids k1).active = 0
      ∧ (g3.asteroids k2).active = 0) :
    ∃ (g5 : Game K) (k1 k2 : Fin MAX_ASTEROIDS),
      (initAsteroidAt m (findInactiveAsteroid g3.asteroids)
          (g3.asteroids j).x (g3.asteroids j).y sz g3).bind (fun g4 =>
        initAsteroidAt m (findInactiveAsteroid g4.asteroids)
          (g4.asteroids j).x (g4.asteroids j).y sz g4) = some g5
      ∧ k1 ≠ k2 ∧ (g3.asteroids k1).active = 0 ∧ (g3.asteroids k2).active = 0
      ∧ ((g5.asteroids k1).active = 1 ∧ (g5.asteroids k1).size = sz
          ∧ (g5.asteroids k1).x = (g3.asteroids j).x ∧ (g5.asteroids k1).y = (g3.asteroids j).y)
      ∧ ((g5.asteroids k2).active = 1 ∧ (g5.asteroids k2).size = sz
          ∧ (g5.asteroids k2).x = (g3.asteroids j).x ∧ (g5.asteroids k2).y = (g3.asteroids j).y)
      ∧ (∀ k, k ≠ k1 → k ≠ k2 → g5.asteroids k = g3.asteroids k)
      ∧ g5.photons = g3.photons ∧ g5.dust = g3.dust ∧ g5.lives = g3.lives := by
  obtain ⟨f1, f2, hne, hf1, hf2⟩ := h2
  obtain ⟨k1, hk1, hk1a⟩ := findInactiveAsteroid_some g3.asteroids ⟨f1, hf1⟩
  rw [hk1, initAsteroidAt_slot]
  simp only [Option.some_bind]
  set a1 := (initAsteroid m (g3.asteroids k1) (g3.asteroids j).x (g3.asteroids j).y sz
    g3.randSeq).1 with ha1
  have ha1act : a1.active = 1 := initAsteroid_active _ _ _ _ _ _
  have hx1 : (Function.update g3.asteroids k1 a1 j).x = (g3.asteroids j).x := by
    by_cases hjk : j = k1
    · subst hjk; rw [Function.update_same]; exact initAsteroid_x _ _ _ _ _ _
    · rw [Function.update_noteq hjk]
  have hy1 : (Function.update g3.asteroids k1 a1 j).y = (g3.asteroids j).y := by
    by_cases hjk : j = k1
    · subst hjk; rw [Function.update_same]; exact initAsteroid_y _ _ _ _ _ _
    · rw [Function.update_noteq hjk]
  have hfree : ∃ k, (Function.update g3.asteroids k1 a1 k).active = 0 := by
    by_cases h1 : f1 = k1
    · refine ⟨f2, ?_⟩
      rw [Function.update_noteq (fun h => hne (h1.trans h.symm)), hf2]
    · exact ⟨f1, by rw [Function.update_noteq h1, hf1]⟩
  obtain ⟨k2, hk2, hk2a⟩ := findInactiveAsteroid_some (Function.update g3.asteroids k1 a1) hfree
  have hk21 : k2 ≠ k1 := by
    intro h
    rw [h, Function.update_same, ha1act] at hk2a
    exact one_ne_zero hk2a
  rw [Function.update_noteq hk21] at hk2a
  rw [hk2, initAsteroidAt_slot]
  refine ⟨_, k1, k2, rfl, hk21.symm, hk1a, hk2a, ?_, ?_, ?_, rfl, rfl, rfl⟩
  · simp only []
    rw [Function.update_noteq hk21.symm, Function.update_same]
    exact ⟨ha1act, initAsteroid_size _ _ _ _ _ _, initAsteroid_x _ _ _ _ _ _,
      initAsteroid_y _ _ _ _ _ _⟩
  · simp only []
    rw [Function.update_same]
    refine ⟨initAsteroid_active _ _ _ _ _ _, initAsteroid_size _ _ _ _ _ _, ?_, ?_⟩
    · rw [initAsteroid_x]; exact hx1
    · rw [initAsteroid_y]; exact hy1
  · intro k hk1' hk2'
    simp only []
    rw [Function.update_noteq hk2', Function.update_noteq hk1']

/-- The inner loop of the photon-vs-asteroid phase runs the hit statements on the first
asteroid that is active and hit. -/
lemma photonScan_first_hit (m : Libm K) (i : Fin MAX_PHOTONS) (g : Game K)
    (l1 l2 : List (Fin MAX_ASTEROIDS)) (j : Fin MAX_ASTEROIDS)
    (hj : (g.asteroids j).active = 1)
    (hc : PhotonCollision (g.photons i) (g.asteroids j) ≠ 0)
    (hfirst : ∀ k ∈ l1, ¬ ((g.asteroids k).active = 1
      ∧ PhotonCollision (g.photons i) (g.asteroids k) ≠ 0)) :
    photonScan m i (l1 ++ j :: l2) g = photonHit m i j g := by
  induction l1 with
  | nil => simp [photonScan, hj, hc]
  | cons k l1 ih =>
    have hk := hfirst k (List.mem_cons_self k l1)
    have ih' := ih fun k' hk' => hfirst k' (List.mem_cons_of_mem k hk')
    rw [List.cons_append, photonScan]
    by_cases ha : (g.asteroids k).active = 1
    · rw [if_pos ha, if_neg (fun h => hk ⟨ha, h⟩)]
      exact ih'
    · rw [if_neg ha]
      exact ih'

/-- The inner loop over all 32 slots runs the hit statements on the first asteroid, in
index order, that is active and hit. -/
lemma photonScan_finRange (m : Libm K) (i : Fin MAX_PHOTONS) (g : Game K)
    (j : Fin MAX_ASTEROIDS) (hj : (g.asteroids j).active = 1)
    (hc : PhotonCollision (g.photons i) (g.asteroids j) ≠ 0)
    (hfirst : ∀ k, k < j → ¬ ((g.asteroids k).active = 1
      ∧ PhotonCollision (g.photons i) (g.asteroids k) ≠ 0)) :
    photonScan m i (List.finRange MAX_ASTEROIDS) g = photonHit m i j g := by
  obtain ⟨l1, l2, hl⟩ := List.append_of_mem (List.mem_finRange j)
  have hs : (l1 ++ j :: l2).Pairwise (· < ·) := by
    rw [← hl]; exact List.pairwise_lt_finRange _
  rw [hl]
  refine photonScan_first_hit m i g l1 l2 j hj hc fun k hk => hfirst k ?_
  exact (List.pairwise_append.mp hs).2.2 k hk j (List.mem_cons_self j l2)

/-- The hit statements, in terms of the pool with asteroid `j` deactivated. -/
lemma photonHit_spec (m : Libm K) (i : Fin MAX_PHOTONS) (j : Fin MAX_ASTEROIDS) (g : Game K)
    (h2 : ∃ k1 k2 : Fin MAX_ASTEROIDS, k1 ≠ k2 ∧ (deactivate g.asteroids j k1).active = 0
      ∧ (deactivate g.asteroids j k2).active = 0) :
    ∃ g' : Game K, photonHit m i j g = some g' ∧ (g'.photons i).active = 0
      ∧ (∀ sz : K, ((g.asteroids j).size = LARGE_SIZE ∧ sz = MEDIUM_SIZE)
            ∨ ((g.asteroids j).size = MEDIUM_SIZE ∧ sz = SMALL_SIZE) →
          ∃ k1 k2 : Fin MAX_ASTEROIDS, k1 ≠ k2
            ∧ (deactivate g.asteroids j k1).active = 0 ∧ (deactivate g.asteroids j k2).active = 0
            ∧ ((g'.asteroids k1).active = 1 ∧ (g'.asteroids k1).size = sz
              ∧ (g'.asteroids k1).x = (g.asteroids j).x ∧ (g'.asteroids k1).y = (g.asteroids j).y)
            ∧ ((g'.asteroids k2).active = 1 ∧ (g'.asteroids k2).size = sz
              ∧ (g'.asteroids k2).x = (g.asteroids j).x ∧ (g'.asteroids k2).y = (g.asteroids j).y)
            ∧ (∀ k, k ≠ k1 → k ≠ k2 → g'.asteroids k = deactivate g.asteroids j k))
      ∧ ((g.asteroids j).size ≠ LARGE_SIZE → (g.asteroids j).size ≠ MEDIUM_SIZE →
          g'.asteroids = deactivate g.asteroids j) := by
  have hsz : (deactivate g.asteroids j j).size = (g.asteroids j).size := by
    simp [deactivate]
  have hx : (deactivate g.asteroids j j).x = (g.asteroids j).x := by simp [deactivate]
  have hy : (deactivate g.asteroids j j).y = (g.asteroids j).y := by simp [deactivate]
  have hLM : (LARGE_SIZE : K) ≠ MEDIUM_SIZE := by norm_num [LARGE_SIZE, MEDIUM_SIZE]
  have had := (activateDust_asteroids (g.asteroids j).x (g.asteroids j).y g).1
  unfold photonHit
  simp only [had, hsz]
  by_cases hL : (g.asteroids j).size = LARGE_SIZE
  · rw [if_pos hL]
    obtain ⟨g5, k1, k2, hrun, hne, h1, h2', c1, c2, hrest, hph, _, _⟩ := spawnTwo m j MEDIUM_SIZE
      { activateDust (g.asteroids j).x (g.asteroids j).y g with
        photons := Function.update (activateDust (g.asteroids j).x (g.asteroids j).y g).photons i
          { (activateDust (g.asteroids j).x (g.asteroids j).y g).photons i with active := 0 },
        asteroids := deactivate g.asteroids j } h2
    simp only [hx, hy] at c1 c2
    refine ⟨g5, hrun, by rw [hph]; simp, ?_, fun h => absurd hL h⟩
    rintro sz (⟨_, rfl⟩ | ⟨hM, _⟩)
    · exact ⟨k1, k2, hne, h1, h2', c1, c2, hrest⟩
    · exact absurd (hL.symm.trans hM) hLM
  · rw [if_neg hL]
    by_cases hM : (g.asteroids j).size = MEDIUM_SIZE
    · rw [if_pos hM]
      obtain ⟨g5, k1, k2, hrun, hne, h1, h2', c1, c2, hrest, hph, _, _⟩ := spawnTwo m j SMALL_SIZE
        { activateDust (g.asteroids j).x (g.asteroids j).y g with
          photons := Function.update (activateDust (g.asteroids j).x (g.asteroids j).y g).photons i
            { (activateDust (g.asteroids j).x (g.asteroids j).y g).photons i with active := 0 },
          asteroids := deactivate g.asteroids j } h2
      simp only [hx, hy] at c1 c2
      refine ⟨g5, hrun, by rw [hph]; simp, ?_, fun _ h => absurd hM h⟩
      rintro sz (⟨hL', _⟩ | ⟨_, rfl⟩)
      · exact absurd hL' hL
      · exact ⟨k1, k2, hne, h1, h2', c1, c2, hrest⟩
    · rw [if_neg hM]
      refine ⟨_, rfl, by simp, ?_, fun _ _ => rfl⟩
      rintro sz (⟨hL', _⟩ | ⟨hM', _⟩)
      · exact absurd hL' hL
      · exact absurd hM' hM

/-- Two inactive slots turned active, the rest of the pool unchanged: two more active
asteroids. -/
lemma card_active_add_two (P Q : Fin MAX_ASTEROIDS → Asteroid K) (k1 k2 : Fin MAX_ASTEROIDS)
    (hne : k1 ≠ k2) (h1 : (P k1).active = 0) (h2 : (P k2).active = 0)
    (q1 : (Q k1).active = 1) (q2 : (Q k2).active = 1)
    (hrest : ∀ k, k ≠ k1 → k ≠ k2 → Q k = P k) :
    (Finset.univ.filter fun k => (Q k).active = 1).card
      = (Finset.univ.filter fun k => (P k).active = 1).card + 2 := by
  have e : (Finset.univ.filter fun k => (Q k).active = 1)
      = insert k1 (insert k2 (Finset.univ.filter fun k => (P k).active = 1)) := by
    ext k
    simp only [Finset.mem_filter, Finset.mem_univ, true_and, Finset.mem_insert]
    by_cases hk1 : k = k1
    · subst hk1; simp [q1]
    · by_cases hk2 : k = k2
      · subst hk2; simp [q2]
      · simp [hk1, hk2, hrest k hk1 hk2]
  have n2 : k2 ∉ Finset.univ.filter fun k => (P k).active = 1 := by
    simp [h2]
  have n1 : k1 ∉ insert k2 (Finset.univ.filter fun k => (P k).active = 1) := by
    simp [h1, hne]
  rw [e, Finset.card_insert_of_not_mem n1, Finset.card_insert_of_not_mem n2]

/-! ## Hit tests, edge by edge -/

/-- An edge whose ends are not strictly on opposite sides of the point's height is not
counted by `PhotonCollision`. -/
lemma photonEdge_skip (px py : K) (a : Asteroid K) (n : Int) (i k1 k2 : ℕ)
    (hk1 : i % a.nVertices = k1) (hk2 : (i + 1) % a.nVertices = k2)
    (h : ¬ ((py < a.y + (a.coords k1).y ∧ py > a.y + (a.coords k2).y)
      ∨ (py > a.y + (a.coords k1).y ∧ py < a.y + (a.coords k2).y))) :
    photonEdge px py a n i = n := by
  unfold photonEdge
  simp only [hk1, hk2]
  rw [if_neg h]

/-- The x-intercept computed by both hit tests lies between the ends of the edge. -/
lemma intercept_between (py x1 y1 x2 y2 : K)
    (h : (py ≤ y1 ∧ py ≥ y2) ∨ (py ≥ y1 ∧ py ≤ y2)) (hy : y2 - y1 ≠ 0) :
    (x1 ≤ x2 → x1 ≤ (py - y1) / (y2 - y1) * x2 + (y2 - py) / (y2 - y1) * x1
        ∧ (py - y1) / (y2 - y1) * x2 + (y2 - py) / (y2 - y1) * x1 ≤ x2)
    ∧ (x2 ≤ x1 → x2 ≤ (py - y1) / (y2 - y1) * x2 + (y2 - py) / (y2 - y1) * x1
        ∧ (py - y1) / (y2 - y1) * x2 + (y2 - py) / (y2 - y1) * x1 ≤ x1) := by
  have ht0 : 0 ≤ (py - y1) / (y2 - y1) := by
    rcases h with ⟨h1, h2⟩ | ⟨h1, h2⟩
    · exact div_nonneg_of_nonpos (by linarith) (by linarith)
    · exact div_nonneg (by linarith) (by linarith)
  have hsum : (y2 - py) / (y2 - y1) = 1 - (py - y1) / (y2 - y1) := by
    field_simp
  have ht1 : (py - y1) / (y2 - y1) ≤ 1 := by
    have : 0 ≤ (y2 - py) / (y2 - y1) := by
      rcases h with ⟨h1, h2⟩ | ⟨h1, h2⟩
      · exact div_nonneg_of_nonpos (by linarith) (by linarith)
      · exact div_nonneg (by linarith) (by linarith)
    linarith
  rw [hsum]
  constructor
  · intro hx
    constructor <;> nlinarith
  · intro hx
    constructor <;> nlinarith

/-- Strictly inside the height span of an edge, the x-intercept is strictly between the
ends of an edge that is not vertical. -/
lemma intercept_strict (py x1 y1 x2 y2 : K)
    (h : (py < y1 ∧ py > y2) ∨ (py > y1 ∧ py < y2)) :
    (x1 < x2 → x1 < (py - y1) / (y2 - y1) * x2 + (y2 - py) / (y2 - y1) * x1
        ∧ (py - y1) / (y2 - y1) * x2 + (y2 - py) / (y2 - y1) * x1 < x2)
    ∧ (x2 < x1 → x2 < (py - y1) / (y2 - y1) * x2 + (y2 - py) / (y2 - y1) * x1
        ∧ (py - y1) / (y2 - y1) * x2 + (y2 - py) / (y2 - y1) * x1 < x1) := by
  have hy : y2 - y1 ≠ 0 := by
    rcases h with ⟨h1, h2⟩ | ⟨h1, h2⟩
    · exact ne_of_lt (by linarith)
    · exact ne_of_gt (by linarith)
  have ht0 : 0 < (py - y1) / (y2 - y1) := by
    rcases h with ⟨h1, h2⟩ | ⟨h1, h2⟩
    · exact div_pos_of_neg_of_neg (by linarith) (by linarith)
    · exact div_pos (by linarith) (by linarith)
  have hsum : (y2 - py) / (y2 - y1) = 1 - (py - y1) / (y2 - y1) := by
    field_simp
  have ht1 : (py - y1) / (y2 - y1) < 1 := by
    have : 0 < (y2 - py) / (y2 - y1) := by
      rcases h with ⟨h1, h2⟩ | ⟨h1, h2⟩
      · exact div_pos_of_neg_of_neg (by linarith) (by linarith)
      · exact div_pos (by linarith) (by linarith)
    linarith
  rw [hsum]
  constructor
  · intro hx
    constructor <;> nlinarith
  · intro hx
    constructor <;> nlinarith

/-- An edge that is not vertical, with its ends strictly on opposite sides of the
point's height and both to the right of the point, is counted by `PhotonCollision`. -/
lemma photonEdge_count (px py : K) (a : Asteroid K) (n : Int) (i k1 k2 : ℕ)
    (hk1 : i % a.nVertices = k1) (hk2 : (i + 1) % a.nVertices = k2)
    (h : (py < a.y + (a.coords k1).y ∧ py > a.y + (a.coords k2).y)
      ∨ (py > a.y + (a.coords k1).y ∧ py < a.y + (a.coords k2).y))
    (hx : a.x + (a.coords k1).x ≠ a.x + (a.coords k2).x)
    (hp1 : px ≤ a.x + (a.coords k1).x) (hp2 : px ≤ a.x + (a.coords k2).x) :
    photonEdge px py a n i = n + 1 := by
  unfold photonEdge
  simp only [hk1, hk2]
  rw [if_pos h, if_pos]
  have hs := intercept_strict py (a.x + (a.coords k1).x) (a.y + (a.coords k1).y)
    (a.x + (a.coords k2).x) (a.y + (a.coords k2).y) h
  rcases lt_or_gt_of_ne hx with hlt | hgt
  · obtain ⟨h1, h2⟩ := hs.1 hlt
    exact ⟨by simp only [ge_iff_le]; linarith, Or.inr ⟨h1, h2⟩⟩
  · obtain ⟨h1, h2⟩ := hs.2 hgt
    exact ⟨by simp only [ge_iff_le]; linarith, Or.inl ⟨h2, h1⟩⟩

/-- An edge whose height span, ends included, does not contain the point's height is
not counted by `ShipCollision`. -/
lemma shipEdge_skip (px py : K) (a : Asteroid K) (n : Int) (i k1 k2 : ℕ)
    (hk1 : i % a.nVertices = k1) (hk2 : (i + 1) % a.nVertices = k2)
    (h : ¬ ((py ≤ a.y + (a.coords k1).y ∧ py ≥ a.y + (a.coords k2).y)
      ∨ (py ≥ a.y + (a.coords k1).y ∧ py ≤ a.y + (a.coords k2).y))) :
    shipEdge px py a n i = n := by
  unfold shipEdge
  simp only [hk1, hk2]
  rw [if_neg h]

/-- An edge that is not horizontal, whose height span, ends included, contains the
point's height, and whose ends are both to the right of the point, is counted by
`ShipCollision`. -/
lemma shipEdge_count (px py : K) (a : Asteroid K) (n : Int) (i k1 k2 : ℕ)
    (hk1 : i % a.nVertices = k1) (hk2 : (i + 1) % a.nVertices = k2)
    (h : (py ≤ a.y + (a.coords k1).y ∧ py ≥ a.y + (a.coords k2).y)
      ∨ (py ≥ a.y + (a.coords k1).y ∧ py ≤ a.y + (a.coords k2).y))
    (hy : a.y + (a.coords k2).y - (a.y + (a.coords k1).y) ≠ 0)
    (hp1 : px ≤ a.x + (a.coords k1).x) (hp2 : px ≤ a.x + (a.coords k2).x) :
    shipEdge px py a n i = n + 1 := by
  unfold shipEdge
  simp only [hk1, hk2]
  rw [if_pos h, if_neg hy, if_pos]
  have hs := intercept_between py (a.x + (a.coords k1).x) (a.y + (a.coords k1).y)
    (a.x + (a.coords k2).x) (a.y + (a.coords k2).y) h hy
  rcases le_total (a.x + (a.coords k1).x) (a.x + (a.coords k2).x) with hle | hge
  · obtain ⟨h1, h2⟩ := hs.1 hle
    exact ⟨by simp only [ge_iff_le]; linarith, Or.inr ⟨h1, h2⟩⟩
  · obtain ⟨h1, h2⟩ := hs.2 hge
    exact ⟨by simp only [ge_iff_le]; linarith, Or.inl ⟨h2, h1⟩⟩

/-- A loop whose every iteration leaves the counter alone returns the initial count. -/
lemma foldl_range_skip (f : Int → ℕ → Int) (n : ℕ) (h : ∀ i, i < n → ∀ c, f c i = c)
    (c0 : Int) : (List.range n).foldl f c0 = c0 := by
  induction n with
  | zero => rfl
  | succ n ih =>
    rw [List.range_succ, List.foldl_append, ih fun i hi => h i (Nat.lt_succ_of_lt hi)]
    simp only [List.foldl_cons, List.foldl_nil]
    exact h n (Nat.lt_succ_self n) c0

/-- The part of the bounding-box property that both hit tests do have: a point strictly
above every vertex, strictly below every vertex, or strictly to the right of every
vertex is reported as no hit. -/
lemma hitTests_outside_box (a : Asteroid K) (px py : K)
    (h : (∀ k, k < a.nVertices → py < a.y + (a.coords k).y)
      ∨ (∀ k, k < a.nVertices → a.y + (a.coords k).y < py)
      ∨ (∀ k, k < a.nVertices → a.x + (a.coords k).x < px))
    (p : Photon K) (hpx : p.x = px) (hpy : p.y = py)
    (ship : Ship K) (c : Coords K) (hcx : c.x + ship.x = px) (hcy : c.y + ship.y = py) :
    PhotonCollision p a = 0 ∧ ShipCollision ship c a = 0 := by
  have hk : ∀ i, i < a.nVertices → i % a.nVertices < a.nVertices
      ∧ (i + 1) % a.nVertices < a.nVertices := fun i hi =>
    ⟨Nat.mod_lt _ (by omega), Nat.mod_lt _ (by omega)⟩
  constructor
  · unfold PhotonCollision
    rw [hpx, hpy, foldl_range_skip _ _ _ 0]
    · rfl
    intro i hi n
    obtain ⟨h1, h2⟩ := hk i hi
    unfold photonEdge
    simp only []
    split_ifs with hg hcnd
    · exfalso
      rcases h with h | h | h
      · have := h _ h1; have := h _ h2
        rcases hg with ⟨_, _⟩ | ⟨_, _⟩ <;> linarith
      · have := h _ h1; have := h _ h2
        rcases hg with ⟨_, _⟩ | ⟨_, _⟩ <;> linarith
      · have hx1 := h _ h1
        have hx2 := h _ h2
        have hy : a.y + (a.coords ((i + 1) % a.nVertices)).y
            - (a.y + (a.coords (i % a.nVertices)).y) ≠ 0 := by
          rcases hg with ⟨_, _⟩ | ⟨_, _⟩
          · exact ne_of_lt (by linarith)
          · exact ne_of_gt (by linarith)
        have hb := intercept_between py (a.x + (a.coords (i % a.nVertices)).x)
          (a.y + (a.coords (i % a.nVertices)).y) (a.x + (a.coords ((i + 1) % a.nVertices)).x)
          (a.y + (a.coords ((i + 1) % a.nVertices)).y)
          (by rcases hg with ⟨u, v⟩ | ⟨u, v⟩
              · exact Or.inl ⟨le_of_lt u, le_of_lt v⟩
              · exact Or.inr ⟨le_of_lt u, le_of_lt v⟩) hy
        have hge := hcnd.1
        simp only [ge_iff_le] at hge
        rcases le_total (a.x + (a.coords (i % a.nVertices)).x)
          (a.x + (a.coords ((i + 1) % a.nVertices)).x) with hle | hle
        · linarith [(hb.1 hle).2]
        · linarith [(hb.2 hle).2]
    · rfl
    · rfl
  · unfold ShipCollision
    rw [hcx, hcy, foldl_range_skip _ _ _ 0]
    · rfl
    intro i hi n
    obtain ⟨h1, h2⟩ := hk i hi
    unfold shipEdge
    simp only []
    split_ifs with hg hy hcnd
    · rfl
    · exfalso
      rcases h with h | h | h
      · have := h _ h1; have := h _ h2
        rcases hg with ⟨_, _⟩ | ⟨_, _⟩ <;> linarith
      · have := h _ h1; have := h _ h2
        rcases hg with ⟨_, _⟩ | ⟨_, _⟩ <;> linarith
      · have hx1 := h _ h1
        have hx2 := h _ h2
        have hb := intercept_between py (a.x + (a.coords (i % a.nVertices)).x)
          (a.y + (a.coords (i % a.nVertices)).y) (a.x + (a.coords ((i + 1) % a.nVertices)).x)
          (a.y + (a.coords ((i + 1) % a.nVertices)).y) hg hy
        have hge := hcnd.1
        simp only [ge_iff_le] at hge
        rcases le_total (a.x + (a.coords (i % a.nVertices)).x)
          (a.x + (a.coords ((i + 1) % a.nVertices)).x) with hle | hle
        · linarith [(hb.1 hle).2]
        · linarith [(hb.2 hle).2]
    · rfl
    · rfl

/-- A hexagon and a point level with its vertex 1, with vertex 0 above, vertices 2, 3, 4
below and vertex 5 above that height, edge 4-5 not vertical, and the point to the left
of (or on) every vertex: `PhotonCollision` counts edge 4-5 only, `ShipCollision` counts
edges 0-1, 1-2 and 4-5; both report a hit. -/
lemma hexagon_level_with_vertex (a : Asteroid K) (px py : K) (hn : a.nVertices = 6)
    (e0 : py < a.y + (a.coords 0).y) (e1 : py = a.y + (a.coords 1).y)
    (e2 : a.y + (a.coords 2).y < py) (e3 : a.y + (a.coords 3).y < py)
    (e4 : a.y + (a.coords 4).y < py) (e5 : py < a.y + (a.coords 5).y)
    (hx : a.x + (a.coords 4).x ≠ a.x + (a.coords 5).x)
    (hp : ∀ k, k < 6 → px ≤ a.x + (a.coords k).x)
    (p : Photon K) (hpx : p.x = px) (hpy : p.y = py)
    (ship : Ship K) (c : Coords K) (hcx : c.x + ship.x = px) (hcy : c.y + ship.y = py) :
    PhotonCollision p a = 1 ∧ ShipCollision ship c a = 1 := by
  have i0 : 0 % a.nVertices = 0 := by simp [hn]
  have i1 : 1 % a.nVertices = 1 := by simp [hn]
  have i2 : 2 % a.nVertices = 2 := by simp [hn]
  have i3 : 3 % a.nVertices = 3 := by simp [hn]
  have i4 : 4 % a.nVertices = 4 := by simp [hn]
  have i5 : 5 % a.nVertices = 5 := by simp [hn]
  have i6 : (5 + 1) % a.nVertices = 0 := by simp [hn]
  have hl : List.range 6 = [0, 1, 2, 3, 4, 5] := rfl
  constructor
  · have s0 : ∀ n, photonEdge px py a n 0 = n := fun n =>
      photonEdge_skip px py a n 0 0 1 i0 i1 (by rintro (⟨_, h⟩ | ⟨h, _⟩) <;> linarith)
    have s1 : ∀ n, photonEdge px py a n 1 = n := fun n =>
      photonEdge_skip px py a n 1 1 2 i1 i2 (by rintro (⟨h, _⟩ | ⟨h, _⟩) <;> linarith)
    have s2 : ∀ n, photonEdge px py a n 2 = n := fun n =>
      photonEdge_skip px py a n 2 2 3 i2 i3 (by rintro (⟨h, _⟩ | ⟨_, h⟩) <;> linarith)
    have s3 : ∀ n, photonEdge px py a n 3 = n := fun n =>
      photonEdge_skip px py a n 3 3 4 i3 i4 (by rintro (⟨h, _⟩ | ⟨_, h⟩) <;> linarith)
    have c4 : ∀ n, photonEdge px py a n 4 = n + 1 := fun n =>
      photonEdge_count px py a n 4 4 5 i4 i5 (Or.inr ⟨e4, e5⟩) hx (hp 4 (by norm_num))
        (hp 5 (by norm_num))
    have s5 : ∀ n, photonEdge px py a n 5 = n := fun n =>
      photonEdge_skip px py a n 5 5 0 i5 i6 (by rintro (⟨_, h⟩ | ⟨h, _⟩) <;> linarith)
    unfold PhotonCollision
    rw [hn, hl, hpx, hpy]
    simp only [List.foldl_cons, List.foldl_nil, s0, s1, s2, s3, c4, s5]
    rfl
  · have c0 : ∀ n, shipEdge px py a n 0 = n + 1 := fun n =>
      shipEdge_count px py a n 0 0 1 i0 i1 (Or.inl ⟨le_of_lt e0, le_of_eq e1.symm⟩)
        (by rw [← e1]; exact ne_of_lt (by linarith)) (hp 0 (by norm_num)) (hp 1 (by norm_num))
    have c1 : ∀ n, shipEdge px py a n 1 = n + 1 := fun n =>
      shipEdge_count px py a n 1 1 2 i1 i2 (Or.inl ⟨le_of_eq e1, le_of_lt e2⟩)
        (by rw [← e1]; exact ne_of_lt (by linarith)) (hp 1 (by norm_num)) (hp 2 (by norm_num))
    have s2 : ∀ n, shipEdge px py a n 2 = n := fun n =>
      shipEdge_skip px py a n 2 2 3 i2 i3 (by rintro (⟨h, _⟩ | ⟨_, h⟩) <;> linarith)
    have s3 : ∀ n, shipEdge px py a n 3 = n := fun n =>
      shipEdge_skip px py a n 3 3 4 i3 i4 (by rintro (⟨h, _⟩ | ⟨_, h⟩) <;> linarith)
    have c4 : ∀ n, shipEdge px py a n 4 = n + 1 := fun n =>
      shipEdge_count px py a n 4 4 5 i4 i5 (Or.inr ⟨le_of_lt e4, le_of_lt e5⟩)
        (ne_of_gt (by linarith)) (hp 4 (by norm_num)) (hp 5 (by norm_num))
    have s5 : ∀ n, shipEdge px py a n 5 = n := fun n =>
      shipEdge_skip px py a n 5 5 0 i5 i6 (by rintro (⟨_, h⟩ | ⟨h, _⟩) <;> linarith)
    unfold ShipCollision
    rw [hn, hl, hcx, hcy]
    simp only [List.foldl_cons, List.foldl_nil, c0, c1, s2, s3, c4, s5]
    rfl

/-- An octagon with vertices 2 and 6 level with its centre, vertices 7, 0, 1 above and
3, 4, 5 below: for a photon at the centre `PhotonCollision` counts no edge. -/
lemma octagon_centre (a : Asteroid K) (hn : a.nVertices = 8)
    (e0 : 0 < (a.coords 0).y) (e1 : 0 < (a.coords 1).y) (e2 : (a.coords 2).y = 0)
    (e3 : (a.coords 3).y < 0) (e4 : (a.coords 4).y < 0) (e5 : (a.coords 5).y < 0)
    (e6 : (a.coords 6).y = 0) (e7 : 0 < (a.coords 7).y)
    (p : Photon K) (hpy : p.y = a.y) :
    PhotonCollision p a = 0 := by
  have i0 : 0 % a.nVertices = 0 := by simp [hn]
  have i1 : 1 % a.nVertices = 1 := by simp [hn]
  have i2 : 2 % a.nVertices = 2 := by simp [hn]
  have i3 : 3 % a.nVertices = 3 := by simp [hn]
  have i4 : 4 % a.nVertices = 4 := by simp [hn]
  have i5 : 5 % a.nVertices = 5 := by simp [hn]
  have i6 : 6 % a.nVertices = 6 := by simp [hn]
  have i7 : 7 % a.nVertices = 7 := by simp [hn]
  have i8 : (7 + 1) % a.nVertices = 0 := by simp [hn]
  have hl : List.range 8 = [0, 1, 2, 3, 4, 5, 6, 7] := rfl
  have s0 : ∀ n, photonEdge p.x a.y a n 0 = n := fun n =>
    photonEdge_skip p.x a.y a n 0 0 1 i0 i1 (by rintro (⟨_, h⟩ | ⟨h, _⟩) <;> linarith)
  have s1 : ∀ n, photonEdge p.x a.y a n 1 = n := fun n =>
    photonEdge_skip p.x a.y a n 1 1 2 i1 i2 (by rintro (⟨_, h⟩ | ⟨h, _⟩) <;> linarith)
  have s2 : ∀ n, photonEdge p.x a.y a n 2 = n := fun n =>
    photonEdge_skip p.x a.y a n 2 2 3 i2 i3 (by rintro (⟨h, _⟩ | ⟨h, _⟩) <;> linarith)
  have s3 : ∀ n, photonEdge p.x a.y a n 3 = n := fun n =>
    photonEdge_skip p.x a.y a n 3 3 4 i3 i4 (by rintro (⟨h, _⟩ | ⟨_, h⟩) <;> linarith)
  have s4 : ∀ n, photonEdge p.x a.y a n 4 = n := fun n =>
    photonEdge_skip p.x a.y a n 4 4 5 i4 i5 (by rintro (⟨h, _⟩ | ⟨_, h⟩) <;> linarith)
  have s5 : ∀ n, photonEdge p.x a.y a n 5 = n := fun n =>
    photonEdge_skip p.x a.y a n 5 5 6 i5 i6 (by rintro (⟨h, _⟩ | ⟨_, h⟩) <;> linarith)
  have s6 : ∀ n, photonEdge p.x a.y a n 6 = n := fun n =>
    photonEdge_skip p.x a.y a n 6 6 7 i6 i7 (by rintro (⟨h, _⟩ | ⟨h, _⟩) <;> linarith)
  have s7 : ∀ n, photonEdge p.x a.y a n 7 = n := fun n =>
    photonEdge_skip p.x a.y a n 7 7 0 i7 i8 (by rintro (⟨_, h⟩ | ⟨h, _⟩) <;> linarith)
  unfold PhotonCollision
  rw [hn, hl, hpy]
  simp only [List.foldl_cons, List.foldl_nil, s0, s1, s2, s3, s4, s5, s6, s7]
  rfl

/-! ## Generated asteroids under the real `sin`, `cos` and `pi` -/

/-- The vertex count, position and vertices of the asteroid that `initAsteroid` writes. -/
lemma initAsteroid_coords (m : Libm K) (a : Asteroid K) (x y size : K) (s : ℕ → ℕ) (n : ℕ)
    (hn : 6 + s 3 % 10 = n) :
    (initAsteroid m a x y size s).1.nVertices = n
    ∧ (initAsteroid m a x y size s).1.x = x ∧ (initAsteroid m a x y size s).1.y = y
    ∧ ∀ k, k < n → (initAsteroid m a x y size s).1.coords k
        = ⟨-(size * myRandomOf 2 3 (s (k + 4))) * m.sin (vertexAngle m k n),
            size * myRandomOf 2 3 (s (k + 4)) * m.cos (vertexAngle m k n)⟩ := by
  subst hn
  rw [initAsteroid_eq]
  refine ⟨rfl, rfl, rfl, fun k hk => ?_⟩
  simp only [if_pos hk]

/-- The six vertex angles of a generated hexagon. -/
lemma hexagon_angles :
    vertexAngle ⟨Real.sin, Real.cos, Real.pi⟩ 0 6 = 0
    ∧ vertexAngle ⟨Real.sin, Real.cos, Real.pi⟩ 1 6 = Real.pi / 3
    ∧ vertexAngle ⟨Real.sin, Real.cos, Real.pi⟩ 2 6 = Real.pi - Real.pi / 3
    ∧ vertexAngle ⟨Real.sin, Real.cos, Real.pi⟩ 3 6 = Real.pi
    ∧ vertexAngle ⟨Real.sin, Real.cos, Real.pi⟩ 4 6 = Real.pi / 3 + Real.pi
    ∧ vertexAngle ⟨Real.sin, Real.cos, Real.pi⟩ 5 6 = 2 * Real.pi - Real.pi / 3 := by
  unfold vertexAngle
  refine ⟨?_, ?_, ?_, ?_, ?_, ?_⟩ <;> push_cast <;> ring

/-- The eight vertex angles of a generated octagon. -/
lemma octagon_angles :
    vertexAngle ⟨Real.sin, Real.cos, Real.pi⟩ 0 8 = 0
    ∧ vertexAngle ⟨Real.sin, Real.cos, Real.pi⟩ 1 8 = Real.pi / 4
    ∧ vertexAngle ⟨Real.sin, Real.cos, Real.pi⟩ 2 8 = Real.pi / 2
    ∧ vertexAngle ⟨Real.sin, Real.cos, Real.pi⟩ 3 8 = Real.pi - Real.pi / 4
    ∧ vertexAngle ⟨Real.sin, Real.cos, Real.pi⟩ 4 8 = Real.pi
    ∧ vertexAngle ⟨Real.sin, Real.cos, Real.pi⟩ 5 8 = Real.pi / 4 + Real.pi
    ∧ vertexAngle ⟨Real.sin, Real.cos, Real.pi⟩ 6 8 = 2 * Real.pi - Real.pi / 2
    ∧ vertexAngle ⟨Real.sin, Real.cos, Real.pi⟩ 7 8 = 2 * Real.pi - Real.pi / 4 := by
  unfold vertexAngle
  refine ⟨?_, ?_, ?_, ?_, ?_, ?_, ?_, ?_⟩ <;> push_cast <;> ring

/-- A radius drawn by `initAsteroid` for a positive size is positive. -/
lemma radius_pos (size : K) (hs : 0 < size) (r : ℕ) : 0 < size * myRandomOf 2 3 r := by
  have := (myRandomOf_mem (2 : K) 3 (by norm_num) r).1
  exact mul_pos hs (by linarith)

/-- An asteroid with 8 vertices written by `initAsteroid` under the real `sin`, `cos`,
`pi`, with positive size: a photon at its position is not reported as a hit. -/
lemma generated_octagon_centre (a : Asteroid ℝ) (x y size : ℝ) (hs : 0 < size) (s : ℕ → ℕ)
    (hn : 6 + s 3 % 10 = 8) (p : Photon ℝ) (hpy : p.y = y) :
    PhotonCollision p (initAsteroid ⟨Real.sin, Real.cos, Real.pi⟩ a x y size s).1 = 0 := by
  obtain ⟨h8, _, hy, hc⟩ := initAsteroid_coords ⟨Real.sin, Real.cos, Real.pi⟩ a x y size s 8 hn
  obtain ⟨a0, a1, a2, a3, a4, a5, a6, a7⟩ := octagon_angles
  have hpi := Real.pi_pos
  have c1 : 0 < Real.cos (Real.pi / 4) :=
    Real.cos_pos_of_mem_Ioo ⟨by linarith, by linarith⟩
  refine octagon_centre _ h8 ?_ ?_ ?_ ?_ ?_ ?_ ?_ ?_ p (hpy.trans hy.symm)
  · rw [hc 0 (by norm_num)]
    simp only [a0, Real.cos_zero, mul_one]
    exact radius_pos size hs _
  · rw [hc 1 (by norm_num)]
    simp only [a1]
    exact mul_pos (radius_pos size hs _) c1
  · rw [hc 2 (by norm_num)]
    simp only [a2, Real.cos_pi_div_two, mul_zero]
  · rw [hc 3 (by norm_num)]
    simp only [a3, Real.cos_pi_sub]
    exact mul_neg_of_pos_of_neg (radius_pos size hs _) (by linarith)
  · rw [hc 4 (by norm_num)]
    simp only [a4, Real.cos_pi]
    exact mul_neg_of_pos_of_neg (radius_pos size hs _) (by norm_num)
  · rw [hc 5 (by norm_num)]
    simp only [a5, Real.cos_add_pi]
    exact mul_neg_of_pos_of_neg (radius_pos size hs _) (by linarith)
  · rw [hc 6 (by norm_num)]
    simp only [a6, Real.cos_two_pi_sub, Real.cos_pi_div_two, mul_zero]
  · rw [hc 7 (by norm_num)]
    simp only [a7, Real.cos_two_pi_sub]
    exact mul_pos (radius_pos size hs _) c1

/-- An asteroid with 6 vertices written by `initAsteroid` under the real `sin`, `cos`,
`pi`, with positive size, vertex 5 drawn with a larger radius than vertex 1 and a
different one from vertex 4: a point level with vertex 1 and at least `3 * size` to
the left of the centre, so left of every vertex, is reported as a hit by both tests. -/
lemma generated_hexagon_left (a : Asteroid ℝ) (x y size : ℝ) (hs : 0 < size) (s : ℕ → ℕ)
    (hn : 6 + s 3 % 10 = 6)
    (h15 : myRandomOf (2 : ℝ) 3 (s 5) < myRandomOf 2 3 (s 9))
    (h45 : myRandomOf (2 : ℝ) 3 (s 8) ≠ myRandomOf 2 3 (s 9))
    (px py : ℝ) (hpx : px ≤ x - 3 * size) (hpy : py = y + size * myRandomOf 2 3 (s 5) / 2)
    (p : Photon ℝ) (hp1 : p.x = px) (hp2 : p.y = py)
    (ship : Ship ℝ) (c : Coords ℝ) (hcx : c.x + ship.x = px) (hcy : c.y + ship.y = py) :
    (∀ k, k < 6 → px
        < (initAsteroid ⟨Real.sin, Real.cos, Real.pi⟩ a x y size s).1.x
          + ((initAsteroid ⟨Real.sin, Real.cos, Real.pi⟩ a x y size s).1.coords k).x)
    ∧ PhotonCollision p (initAsteroid ⟨Real.sin, Real.cos, Real.pi⟩ a x y size s).1 = 1
    ∧ ShipCollision ship c (initAsteroid ⟨Real.sin, Real.cos, Real.pi⟩ a x y size s).1 = 1 := by
  obtain ⟨h6, hx, hy, hc⟩ := initAsteroid_coords ⟨Real.sin, Real.cos, Real.pi⟩ a x y size s 6 hn
  obtain ⟨a0, a1, a2, a3, a4, a5⟩ := hexagon_angles
  have hr : ∀ r : ℕ, 2 * size ≤ size * myRandomOf 2 3 r ∧ size * myRandomOf 2 3 r < 3 * size := by
    intro r
    obtain ⟨l, u⟩ := myRandomOf_mem (2 : ℝ) 3 (by norm_num) r
    constructor <;> nlinarith
  have hsin : 0 < Real.sin (Real.pi / 3) := by
    rw [Real.sin_pi_div_three]; positivity
  have hleft : ∀ k, k < 6 → px
      < (initAsteroid ⟨Real.sin, Real.cos, Real.pi⟩ a x y size s).1.x
        + ((initAsteroid ⟨Real.sin, Real.cos, Real.pi⟩ a x y size s).1.coords k).x := by
    intro k hk
    rw [hx, hc k hk]
    simp only []
    have h1 := Real.sin_le_one (vertexAngle ⟨Real.sin, Real.cos, Real.pi⟩ k 6)
    obtain ⟨l, u⟩ := hr (s (k + 4))
    nlinarith
  refine ⟨hleft, ?_⟩
  refine hexagon_level_with_vertex _ px py h6 ?_ ?_ ?_ ?_ ?_ ?_ ?_ (fun k hk => le_of_lt (hleft k hk))
    p hp1 hp2 ship c hcx hcy
  · rw [hy, hc 0 (by norm_num), hpy]
    simp only [a0, Real.cos_zero, mul_one]
    linarith [(hr (s (0 + 4))).1, (hr (s 5)).2]
  · rw [hy, hc 1 (by norm_num), hpy]
    simp only [a1, Real.cos_pi_div_three]
    ring
  · rw [hy, hc 2 (by norm_num), hpy]
    simp only [a2, Real.cos_pi_sub, Real.cos_pi_div_three]
    linarith [(hr (s (2 + 4))).1, (hr (s 5)).1]
  · rw [hy, hc 3 (by norm_num), hpy]
    simp only [a3, Real.cos_pi]
    linarith [(hr (s (3 + 4))).1, (hr (s 5)).1]
  · rw [hy, hc 4 (by norm_num), hpy]
    simp only [a4, Real.cos_add_pi, Real.cos_pi_div_three]
    linarith [(hr (s (4 + 4))).1, (hr (s 5)).1]
  · rw [hy, hc 5 (by norm_num), hpy]
    simp only [a5, Real.cos_two_pi_sub, Real.cos_pi_div_three]
    have : size * myRandomOf 2 3 (s 5) < size * myRandomOf 2 3 (s (5 + 4)) :=
      mul_lt_mul_of_pos_left h15 hs
    linarith
  · rw [hx, hc 4 (by norm_num), hc 5 (by norm_num)]
    simp only [a4, a5, Real.sin_add_pi, Real.sin_two_pi_sub]
    intro h
    have h' : size * myRandomOf 2 3 (s (4 + 4)) * Real.sin (Real.pi / 3)
        = size * myRandomOf 2 3 (s (5 + 4)) * Real.sin (Real.pi / 3) := by linarith
    have h'' := mul_right_cancel₀ (ne_of_gt hsin) h'
    exact h45 (mul_left_cancel₀ (ne_of_gt hs) h'')

/-- Every path of `updateVelocity` leaves all of the ship but `dx`, `dy` alone, and the
inner `else if` chain is never reached: in the outer `else` the second disjunct of the
first inner test is the negation of the outer test. -/
lemma updateVelocity_eq (m : Libm K) (state : Int) (ship : Ship K) :
    updateVelocity m state ship =
      if (ship.dx - thrust state * m.sin (degToRad m ship.phi)) ^ 2
          + (ship.dy + thrust state * m.cos (degToRad m ship.phi)) ^ 2 < (2 : K) ^ 2 then
        { ship with dx := ship.dx - thrust state * m.sin (degToRad m ship.phi),
                    dy := ship.dy + thrust state * m.cos (degToRad m ship.phi) }
      else if state ≠ 0 then
        { ship with dx := 2 * m.sin (degToRad m ship.phi), dy := -2 * m.cos (degToRad m ship.phi) }
      else
        { ship with dx := -2 * m.sin (degToRad m ship.phi), dy := 2 * m.cos (degToRad m ship.phi) } := by
  unfold updateVelocity
  simp only [SHIP_VELOCITY_MAX]
  by_cases h : (ship.dx - thrust state * m.sin (degToRad m ship.phi)) ^ 2
      + (ship.dy + thrust state * m.cos (degToRad m ship.phi)) ^ 2 < (2 : K) ^ 2
  · rw [if_pos h, if_pos h]
  · rw [if_neg h, if_neg h, if_pos (Or.inr (not_lt.mp h))]

/-- Forward thrust: accept the candidate below the maximum speed, clamp otherwise. -/
lemma updateVelocity_forward (m : Libm K) (ship : Ship K) :
    updateVelocity m 0 ship =
      if (ship.dx - 1 / 10 * m.sin (degToRad m ship.phi)) ^ 2
          + (ship.dy + 1 / 10 * m.cos (degToRad m ship.phi)) ^ 2 < (2 : K) ^ 2 then
        { ship with dx := ship.dx - 1 / 10 * m.sin (degToRad m ship.phi),
                    dy := ship.dy + 1 / 10 * m.cos (degToRad m ship.phi) }
      else
        { ship with dx := -2 * m.sin (degToRad m ship.phi), dy := 2 * m.cos (degToRad m ship.phi) } := by
  rw [updateVelocity_eq]
  simp [thrust, ACCELERATION_STEP_FORWARD]

/-- At full forward speed along the heading, forward thrust changes nothing. -/
lemma updateVelocity_forward_fixed (m : Libm K) (hm : ∀ t, m.sin t ^ 2 + m.cos t ^ 2 = 1)
    (ship : Ship K) :
    updateVelocity m 0
        { ship with dx := -2 * m.sin (degToRad m ship.phi), dy := 2 * m.cos (degToRad m ship.phi) }
      = { ship with dx := -2 * m.sin (degToRad m ship.phi), dy := 2 * m.cos (degToRad m ship.phi) } := by
  have h := hm (degToRad m ship.phi)
  rw [updateVelocity_forward]
  simp only []
  rw [if_neg]
  rw [not_lt]
  nlinarith

lemma iterate_forward_fixed (m : Libm K) (hm : ∀ t, m.sin t ^ 2 + m.cos t ^ 2 = 1)
    (ship : Ship K) (n : ℕ) :
    (updateVelocity m 0)^[n]
        { ship with dx := -2 * m.sin (degToRad m ship.phi), dy := 2 * m.cos (degToRad m ship.phi) }
      = { ship with dx := -2 * m.sin (degToRad m ship.phi), dy := 2 * m.cos (degToRad m ship.phi) } :=
  Function.iterate_fixed (updateVelocity_forward_fixed m hm ship) n

/-- After `k` forward-thrust calls the ship is either clamped to full speed along the
heading, or has gained exactly `k` steps of `0.1` along the heading. -/
lemma iterate_forward_cases (m : Libm K) (hm : ∀ t, m.sin t ^ 2 + m.cos t ^ 2 = 1)
    (ship : Ship K) (k : ℕ) :
    (updateVelocity m 0)^[k] ship
        = { ship with dx := -2 * m.sin (degToRad m ship.phi), dy := 2 * m.cos (degToRad m ship.phi) }
    ∨ (updateVelocity m 0)^[k] ship
        = { ship with dx := ship.dx - (k : K) / 10 * m.sin (degToRad m ship.phi),
                      dy := ship.dy + (k : K) / 10 * m.cos (degToRad m ship.phi) } := by
  induction k with
  | zero => right; simp
  | succ k ih =>
    rw [Function.iterate_succ_apply']
    rcases ih with ih | ih
    · left; rw [ih]; exact updateVelocity_forward_fixed m hm ship
    · rw [ih, updateVelocity_forward]
      simp only []
      split_ifs with h
      · right
        congr 1 <;> push_cast <;> ring
      · left; rfl

/-- Forty forward-thrust calls from any speed of at most `2` end at full speed. -/
lemma iterate_forward_forty (m : Libm K) (hm : ∀ t, m.sin t ^ 2 + m.cos t ^ 2 = 1)
    (ship : Ship K) (hv : ship.dx ^ 2 + ship.dy ^ 2 ≤ 2 ^ 2) :
    (updateVelocity m 0)^[40] ship
      = { ship with dx := -2 * m.sin (degToRad m ship.phi), dy := 2 * m.cos (degToRad m ship.phi) } := by
  have h := hm (degToRad m ship.phi)
  rw [show (40 : ℕ) = 39 + 1 from rfl, Function.iterate_succ_apply']
  rcases iterate_forward_cases m hm ship 39 with ih | ih
  · rw [ih]; exact updateVelocity_forward_fixed m hm ship
  · rw [ih, updateVelocity_forward]
    simp only []
    rw [if_neg]
    rw [not_lt]
    set s := m.sin (degToRad m ship.phi)
    set c := m.cos (degToRad m ship.phi)
    have hq : (-(ship.dx * s) + ship.dy * c) ^ 2 ≤ ship.dx ^ 2 + ship.dy ^ 2 := by
      have e : ship.dx ^ 2 + ship.dy ^ 2
          = (ship.dx ^ 2 + ship.dy ^ 2) * (s ^ 2 + c ^ 2) := by rw [h, mul_one]
      rw [e]
      nlinarith [sq_nonneg (ship.dx * c + ship.dy * s)]
    have hp2 : -2 ≤ -(ship.dx * s) + ship.dy * c :=
      (abs_le_of_sq_le_sq' (hq.trans hv) (by norm_num)).1
    have e : (ship.dx - (39 : K) / 10 * s - 1 / 10 * s) ^ 2
          + (ship.dy + (39 : K) / 10 * c + 1 / 10 * c) ^ 2
        = ship.dx ^ 2 + ship.dy ^ 2 + 8 * (-(ship.dx * s) + ship.dy * c)
          + 16 * (s ^ 2 + c ^ 2) := by ring
    push_cast
    rw [e, h]
    nlinarith

/-- Forward thrust from rest: `k ≤ 19` calls give exactly `k` steps of `0.1`. -/
lemma iterate_forward_rest (m : Libm K) (hm : ∀ t, m.sin t ^ 2 + m.cos t ^ 2 = 1)
    (ship : Ship K) (h0 : ship.dx = 0) (h1 : ship.dy = 0) (k : ℕ) (hk : k ≤ 19) :
    (updateVelocity m 0)^[k] ship
      = { ship with dx := -((k : K) / 10) * m.sin (degToRad m ship.phi),
                    dy := (k : K) / 10 * m.cos (degToRad m ship.phi) } := by
  have h := hm (degToRad m ship.phi)
  induction k with
  | zero => cases ship; simp_all
  | succ k ih =>
    rw [Function.iterate_succ_apply', ih (by omega), updateVelocity_forward]
    simp only []
    have hk' : ((k : K) + 1) / 10 < 2 := by
      have : (k : K) ≤ 18 := by exact_mod_cast (by omega : k ≤ 18)
      linarith
    have hk0 : (0 : K) ≤ ((k : K) + 1) / 10 := by positivity
    have e : (-((k : K) / 10) * m.sin (degToRad m ship.phi) - 1 / 10 * m.sin (degToRad m ship.phi)) ^ 2
          + ((k : K) / 10 * m.cos (degToRad m ship.phi) + 1 / 10 * m.cos (degToRad m ship.phi)) ^ 2
        = (((k : K) + 1) / 10) ^ 2
          * (m.sin (degToRad m ship.phi) ^ 2 + m.cos (degToRad m ship.phi) ^ 2) := by ring
    rw [if_pos (by rw [e, h]; nlinarith)]
    congr 1 <;> push_cast <;> ring

/-- Forward thrust from rest: the twentieth call reaches the clamp. -/
lemma iterate_forward_rest_twenty (m : Libm K) (hm : ∀ t, m.sin t ^ 2 + m.cos t ^ 2 = 1)
    (ship : Ship K) (h0 : ship.dx = 0) (h1 : ship.dy = 0) :
    (updateVelocity m 0)^[20] ship
      = { ship with dx := -2 * m.sin (degToRad m ship.phi), dy := 2 * m.cos (degToRad m ship.phi) } := by
  have h := hm (degToRad m ship.phi)
  rw [show (20 : ℕ) = 19 + 1 from rfl, Function.iterate_succ_apply',
    iterate_forward_rest m hm ship h0 h1 19 le_rfl, updateVelocity_forward]
  simp only []
  have e : (-(((19 : ℕ) : K) / 10) * m.sin (degToRad m ship.phi) - 1 / 10 * m.sin (degToRad m ship.phi)) ^ 2
        + (((19 : ℕ) : K) / 10 * m.cos (degToRad m ship.phi) + 1 / 10 * m.cos (degToRad m ship.phi)) ^ 2
      = 4 * (m.sin (degToRad m ship.phi) ^ 2 + m.cos (degToRad m ship.phi) ^ 2) := by
    push_cast; ring
  rw [if_neg (by rw [e, h]; norm_num)]

/-- Once `k` calls have reached the clamp, every later count of calls stays there. -/
lemma iterate_forward_stays (m : Libm K) (hm : ∀ t, m.sin t ^ 2 + m.cos t ^ 2 = 1)
    (ship : Ship K) (k : ℕ)
    (hk : (updateVelocity m 0)^[k] ship
      = { ship with dx := -2 * m.sin (degToRad m ship.phi), dy := 2 * m.cos (degToRad m ship.phi) })
    (n : ℕ) (hn : k ≤ n) :
    (updateVelocity m 0)^[n] ship
      = { ship with dx := -2 * m.sin (degToRad m ship.phi), dy := 2 * m.cos (degToRad m ship.phi) } := by
  obtain ⟨d, rfl⟩ := Nat.exists_eq_add_of_le hn
  rw [Nat.add_comm, Function.iterate_add_apply, hk]
  exact iterate_forward_fixed m hm ship d

/-- C3: one call of `updateVelocity`, with either thrust sign, from any velocity and
heading, leaves the ship with `dx^2 + dy^2 <= SHIP_VELOCITY_MAX^2 = 4` (exact
arithmetic, `sin^2 + cos^2 = 1`). -/
theorem updateVelocity_speed_le (m : Libm K) (hm : ∀ t, m.sin t ^ 2 + m.cos t ^ 2 = 1)
    (state : Int) (ship : Ship K) :
    (updateVelocity m state ship).dx ^ 2 + (updateVelocity m state ship).dy ^ 2
      ≤ SHIP_VELOCITY_MAX ^ 2 ∧ (SHIP_VELOCITY_MAX : K) ^ 2 = 4 := by
  have h := hm (degToRad m ship.phi)
  refine ⟨?_, by norm_num [SHIP_VELOCITY_MAX]⟩
  rw [updateVelocity_eq]
  simp only [SHIP_VELOCITY_MAX]
  split_ifs with h1 h2
  · exact le_of_lt h1
  · simp only []; nlinarith
  · simp only []; nlinarith

/-- The C3 theorem applied to real `sin` and `cos`, reverse thrust, a ship moving at
velocity `(3, -7)` with heading 30 degrees. -/
theorem updateVelocity_speed_le_witness :
    (updateVelocity ⟨Real.sin, Real.cos, Real.pi⟩ 1
        ⟨0, 83, 50, 30, 3, -7, fun _ => ⟨0, 0⟩⟩).dx ^ 2
      + (updateVelocity ⟨Real.sin, Real.cos, Real.pi⟩ 1
        ⟨0, 83, 50, 30, 3, -7, fun _ => ⟨0, 0⟩⟩).dy ^ 2 ≤ SHIP_VELOCITY_MAX ^ 2 :=
  (updateVelocity_speed_le ⟨Real.sin, Real.cos, Real.pi⟩ Real.sin_sq_add_cos_sq 1
    ⟨0, 83, 50, 30, 3, -7, fun _ => ⟨0, 0⟩⟩).1

/-- C4: with the heading fixed, `n` consecutive forward-thrust calls `updateVelocity(0)`
from any velocity of speed at most 2 give exactly `(-2 sin phi, 2 cos phi)` for every
`n >= 40`; from rest the velocity is `0.1 n` along the heading (speed `0.1 n`) for
`n <= 19` and the speed is exactly 2 for every `n >= 20`. -/
theorem updateVelocity_forward_converges (m : Libm K)
    (hm : ∀ t, m.sin t ^ 2 + m.cos t ^ 2 = 1) (ship : Ship K) :
    (ship.dx ^ 2 + ship.dy ^ 2 ≤ SHIP_VELOCITY_MAX ^ 2 → ∀ n : ℕ, 40 ≤ n →
        ((updateVelocity m 0)^[n] ship).dx = -2 * m.sin (degToRad m ship.phi)
        ∧ ((updateVelocity m 0)^[n] ship).dy = 2 * m.cos (degToRad m ship.phi)
        ∧ ((updateVelocity m 0)^[n] ship).phi = ship.phi)
    ∧ (ship.dx = 0 → ship.dy = 0 →
        (∀ n : ℕ, n ≤ 19 →
          ((updateVelocity m 0)^[n] ship).dx
              = -(ACCELERATION_STEP_FORWARD * n) * m.sin (degToRad m ship.phi)
          ∧ ((updateVelocity m 0)^[n] ship).dy
              = ACCELERATION_STEP_FORWARD * n * m.cos (degToRad m ship.phi)
          ∧ ((updateVelocity m 0)^[n] ship).dx ^ 2 + ((updateVelocity m 0)^[n] ship).dy ^ 2
              = (ACCELERATION_STEP_FORWARD * n) ^ 2)
        ∧ (∀ n : ℕ, 20 ≤ n →
          ((updateVelocity m 0)^[n] ship).dx ^ 2 + ((updateVelocity m 0)^[n] ship).dy ^ 2
              = SHIP_VELOCITY_MAX ^ 2)) := by
  have h := hm (degToRad m ship.phi)
  refine ⟨fun hv n hn => ?_, fun h0 h1 => ⟨fun n hn => ?_, fun n hn => ?_⟩⟩
  · rw [iterate_forward_stays m hm ship 40
      (iterate_forward_forty m hm ship (by simpa [SHIP_VELOCITY_MAX] using hv)) n hn]
    exact ⟨rfl, rfl, rfl⟩
  · rw [iterate_forward_rest m hm ship h0 h1 n hn]
    simp only [ACCELERATION_STEP_FORWARD]
    refine ⟨by ring, by ring, ?_⟩
    have e : (-((n : K) / 10) * m.sin (degToRad m ship.phi)) ^ 2
          + ((n : K) / 10 * m.cos (degToRad m ship.phi)) ^ 2
        = ((n : K) / 10) ^ 2
          * (m.sin (degToRad m ship.phi) ^ 2 + m.cos (degToRad m ship.phi) ^ 2) := by ring
    rw [e, h]; ring
  · rw [iterate_forward_stays m hm ship 20 (iterate_forward_rest_twenty m hm ship h0 h1) n hn]
    simp only [SHIP_VELOCITY_MAX]
    nlinarith

/-- The C4 theorem applied to real `sin` and `cos` and the ship as `gameInit` leaves it,
at rest at `(83, 50)` with heading 0: forty calls reach `dx = -2 sin 0`, and twenty
calls reach squared speed 4. -/
theorem updateVelocity_forward_converges_witness :
    ((0 : ℝ) ^ 2 + 0 ^ 2 ≤ SHIP_VELOCITY_MAX ^ 2)
    ∧ ((updateVelocity ⟨Real.sin, Real.cos, Real.pi⟩ 0)^[40]
          ⟨0, 83, 50, 0, 0, 0, fun _ => ⟨0, 0⟩⟩).dx
        = -2 * Real.sin (degToRad ⟨Real.sin, Real.cos, Real.pi⟩ 0)
    ∧ ((updateVelocity ⟨Real.sin, Real.cos, Real.pi⟩ 0)^[20]
          ⟨0, 83, 50, 0, 0, 0, fun _ => ⟨0, 0⟩⟩).dx ^ 2
        + ((updateVelocity ⟨Real.sin, Real.cos, Real.pi⟩ 0)^[20]
          ⟨0, 83, 50, 0, 0, 0, fun _ => ⟨0, 0⟩⟩).dy ^ 2 = SHIP_VELOCITY_MAX ^ 2 :=
  ⟨by norm_num [SHIP_VELOCITY_MAX],
   ((updateVelocity_forward_converges ⟨Real.sin, Real.cos, Real.pi⟩ Real.sin_sq_add_cos_sq
      ⟨0, 83, 50, 0, 0, 0, fun _ => ⟨0, 0⟩⟩).1 (by norm_num [SHIP_VELOCITY_MAX]) 40 le_rfl).1,
   ((updateVelocity_forward_converges ⟨Real.sin, Real.cos, Real.pi⟩ Real.sin_sq_add_cos_sq
      ⟨0, 83, 50, 0, 0, 0, fun _ => ⟨0, 0⟩⟩).2 rfl rfl).2 20 le_rfl⟩

/-- C2: when all 8 photon slots are active, the fire key (`myKey` with key 32) leaves
the photon pool as it is: no slot's active flag, position or velocity changes, the
number of active photons stays 8, and nothing else in the game state changes. -/
theorem myKey_fire_full_pool (m : Libm K) (g : Game K)
    (h : ∀ i : Fin MAX_PHOTONS, (g.photons i).active ≠ 0) :
    (myKey m 32 g).photons = g.photons
    ∧ (∀ i : Fin MAX_PHOTONS, ((myKey m 32 g).photons i).active = (g.photons i).active
        ∧ ((myKey m 32 g).photons i).x = (g.photons i).x
        ∧ ((myKey m 32 g).photons i).y = (g.photons i).y
        ∧ ((myKey m 32 g).photons i).dx = (g.photons i).dx
        ∧ ((myKey m 32 g).photons i).dy = (g.photons i).dy)
    ∧ (Finset.univ.filter fun i : Fin MAX_PHOTONS => ((myKey m 32 g).photons i).active ≠ 0).card
        = 8
    ∧ myKey m 32 g = g := by
  have e : myKey m 32 g = g := by
    unfold myKey
    rw [if_pos rfl]
    exact firePhoton_full m _ g fun i _ => h i
  rw [e]
  refine ⟨rfl, fun i => ⟨rfl, rfl, rfl, rfl, rfl⟩, ?_, rfl⟩
  rw [Finset.filter_true_of_mem fun i _ => h i]
  rfl

/-- The C2 theorem applied to a game with all eight photons in flight. -/
theorem myKey_fire_full_pool_witness :
    (∀ i : Fin MAX_PHOTONS, (fullMagazine.photons i).active ≠ 0)
    ∧ myKey headingUp 32 fullMagazine = fullMagazine :=
  ⟨fun _ => by simp [fullMagazine],
   (myKey_fire_full_pool headingUp fullMagazine fun _ => by simp [fullMagazine]).2.2.2⟩

/-- C5 as stated fails: an asteroid whose advanced position is below 0 on both axes
gets `x = xMax` but keeps its advanced `y`; the `y` tests sit in the `else` of the `x`
tests. -/
theorem advanceAsteroids_corner_not_wrapped :
    (cornerGame.asteroids 0).active = 1
    ∧ (cornerGame.asteroids 0).x + (cornerGame.asteroids 0).dx < 0
    ∧ (cornerGame.asteroids 0).y + (cornerGame.asteroids 0).dy < 0
    ∧ ((advanceAsteroids cornerGame).asteroids 0).x = cornerGame.xMax
    ∧ ((advanceAsteroids cornerGame).asteroids 0).y = -(1 / 4)
    ∧ ((advanceAsteroids cornerGame).asteroids 0).y ≠ cornerGame.yMax
    ∧ ((menuMyTimer cornerGame).asteroids 0).y ≠ cornerGame.yMax := by
  have e : (advanceAsteroids cornerGame).asteroids 0
      = advanceAsteroid cornerGame.xMax cornerGame.yMax (cornerGame.asteroids 0) :=
    forSlots_apply _ _ _
  have e2 : (menuMyTimer cornerGame).asteroids 0 = (advanceAsteroids cornerGame).asteroids 0 := by
    simp [menuMyTimer, advanceAsteroids, cornerGame, blankGame]
  rw [e2, e]
  simp [cornerGame, blankGame, blankAsteroid, advanceAsteroid]
  norm_num

/-- C5, amended: for an active asteroid the advance loop (the same in `gameMyTimer` and
`menuMyTimer`) wraps `x` as stated; it wraps `y` as stated only when the advanced `x`
is within `[0, xMax]` and otherwise keeps the advanced `y`; `dx`, `dy` are unchanged. -/
theorem advanceAsteroids_wrap (g : Game K) (i : Fin MAX_ASTEROIDS)
    (h : (g.asteroids i).active = 1) :
    ((advanceAsteroids g).asteroids i).x
        = (if (g.asteroids i).x + (g.asteroids i).dx < 0 then g.xMax
           else if (g.asteroids i).x + (g.asteroids i).dx > g.xMax then 0
           else (g.asteroids i).x + (g.asteroids i).dx)
    ∧ ((advanceAsteroids g).asteroids i).y
        = (if (g.asteroids i).x + (g.asteroids i).dx < 0
              ∨ (g.asteroids i).x + (g.asteroids i).dx > g.xMax then
             (g.asteroids i).y + (g.asteroids i).dy
           else if (g.asteroids i).y + (g.asteroids i).dy < 0 then g.yMax
           else if (g.asteroids i).y + (g.asteroids i).dy > g.yMax then 0
           else (g.asteroids i).y + (g.asteroids i).dy)
    ∧ ((advanceAsteroids g).asteroids i).dx = (g.asteroids i).dx
    ∧ ((advanceAsteroids g).asteroids i).dy = (g.asteroids i).dy
    ∧ ((advanceAsteroids g).asteroids i).active = 1
    ∧ (menuMyTimer g).asteroids i = (advanceAsteroids g).asteroids i
    ∧ (∀ m : Libm K, gameMyTimerBody m g
        = (photonPhase m (advanceAsteroids
            { shipPhase m g with
              dust := forSlots stepDust (shipPhase m g).dust,
              photons := forSlots (advancePhoton (shipPhase m g).xMax (shipPhase m g).yMax)
                (shipPhase m g).photons })).map shipCollisionPhase) := by
  have e : (advanceAsteroids g).asteroids i
      = advanceAsteroid g.xMax g.yMax (g.asteroids i) := forSlots_apply _ _ _
  have e2 : (menuMyTimer g).asteroids i = (advanceAsteroids g).asteroids i := by
    unfold menuMyTimer
    simp only []
    split_ifs <;> rfl
  refine ⟨?_, ?_, ?_, ?_, ?_, e2, fun _ => rfl⟩
  all_goals
    rw [e]
    unfold advanceAsteroid
    rw [if_pos h]
    simp only []
    by_cases hx0 : (g.asteroids i).x + (g.asteroids i).dx < 0
    · simp [hx0, h]
    · by_cases hx1 : (g.asteroids i).x + (g.asteroids i).dx > g.xMax
      · simp [hx0, hx1, h]
      · by_cases hy0 : (g.asteroids i).y + (g.asteroids i).dy < 0
        · simp [hx0, hx1, hy0, h]
        · by_cases hy1 : (g.asteroids i).y + (g.asteroids i).dy > g.yMax
          · simp [hx0, hx1, hy0, hy1, h]
          · simp [hx0, hx1, hy0, hy1, h]

/-- The amended C5 theorem applied to the asteroid leaving through the corner. -/
theorem advanceAsteroids_wrap_witness :
    (cornerGame.asteroids 0).active = 1
    ∧ ((advanceAsteroids cornerGame).asteroids 0).dx = (cornerGame.asteroids 0).dx :=
  ⟨by simp [cornerGame], (advanceAsteroids_wrap cornerGame 0 (by simp [cornerGame])).2.2.1⟩

/-- C6 fails on the code: with `rand()` returning 0, 10, 20, ... `initAsteroid` writes
a large hexagon at `(50, 50)`; the point `(10, 53 + 75/32767)`, level with its vertex 1,
is more than 30 to the left of every vertex, yet `PhotonCollision` returns 1 for a
photon there and `ShipCollision` returns 1 for the ship's nose `(0, 3.5)` there. -/
theorem hitTests_left_of_hexagon :
    ∃ a : Asteroid ℝ,
      a = (initAsteroid ⟨Real.sin, Real.cos, Real.pi⟩
            ⟨0, 0, 0, 0, 0, 0, 0, 0, 0, fun _ => ⟨0, 0⟩⟩ 50 50 3 fun k => 10 * k).1
      ∧ a.nVertices = 6 ∧ a.active = 1 ∧ a.x = 50 ∧ a.y = 50
      ∧ (∀ k, k < a.nVertices → (10 : ℝ) < a.x + (a.coords k).x)
      ∧ PhotonCollision ⟨1, 10, 53 + 75 / 32767, 0, 5⟩ a = 1
      ∧ ShipCollision ⟨0, 10, 99 / 2 + 75 / 32767, 0, 0, 0, fun _ => ⟨0, 7 / 2⟩⟩ ⟨0, 7 / 2⟩ a
          = 1 := by
  have hn : 6 + (fun k : ℕ => 10 * k) 3 % 10 = 6 := by norm_num
  have key := generated_hexagon_left ⟨0, 0, 0, 0, 0, 0, 0, 0, 0, fun _ => ⟨0, 0⟩⟩ 50 50 3
    (by norm_num) (fun k => 10 * k) hn (by norm_num [myRandomOf]) (by norm_num [myRandomOf])
    10 (53 + 75 / 32767) (by norm_num) (by norm_num [myRandomOf])
    ⟨1, 10, 53 + 75 / 32767, 0, 5⟩ rfl rfl
    ⟨0, 10, 99 / 2 + 75 / 32767, 0, 0, 0, fun _ => ⟨0, 7 / 2⟩⟩ ⟨0, 7 / 2⟩
    (by norm_num) (by norm_num)
  obtain ⟨h6, hx, hy, _⟩ := initAsteroid_coords ⟨Real.sin, Real.cos, Real.pi⟩
    ⟨0, 0, 0, 0, 0, 0, 0, 0, 0, fun _ => ⟨0, 0⟩⟩ (50 : ℝ) 50 3 (fun k => 10 * k) 6 hn
  refine ⟨_, rfl, h6, initAsteroid_active _ _ _ _ _ _, hx, hy, ?_, key.2.1, key.2.2⟩
  intro k hk
  rw [h6] at hk
  exact key.1 k hk

/-- C7 fails on the code: with `rand()` returning 2 every time `initAsteroid` writes a
large asteroid with 8 vertices at `(50, 50)`; vertices 2 and 6 are level with the
centre, so no edge is counted for a photon at `(50, 50)` and `PhotonCollision`
returns 0. -/
theorem photon_at_octagon_centre :
    ∃ a : Asteroid ℝ,
      a = (initAsteroid ⟨Real.sin, Real.cos, Real.pi⟩
            ⟨0, 0, 0, 0, 0, 0, 0, 0, 0, fun _ => ⟨0, 0⟩⟩ 50 50 3 fun _ => 2).1
      ∧ a.nVertices = 8 ∧ a.active = 1 ∧ a.size = 3 ∧ a.x = 50 ∧ a.y = 50
      ∧ PhotonCollision ⟨1, 50, 50, 0, 5⟩ a = 0 := by
  have hn : 6 + (fun _ : ℕ => 2) 3 % 10 = 8 := by norm_num
  obtain ⟨h8, hx, hy, _⟩ := initAsteroid_coords ⟨Real.sin, Real.cos, Real.pi⟩
    ⟨0, 0, 0, 0, 0, 0, 0, 0, 0, fun _ => ⟨0, 0⟩⟩ (50 : ℝ) 50 3 (fun _ => 2) 8 hn
  exact ⟨_, rfl, h8, initAsteroid_active _ _ _ _ _ _, initAsteroid_size _ _ _ _ _ _, hx, hy,
    generated_octagon_centre _ 50 50 3 (by norm_num) _ hn _ rfl⟩

/-- C8: for whatever values `rand()` returns, `initAsteroid` sets
`nVertices = 6 + rand() % (MAX_VERTICES - 6)` (the fourth value drawn), which lies in
`6..15`, so the written indices `i < nVertices` are below `MAX_VERTICES` and no other
index is written; vertex `i` is placed at angle `2*pi*i/nVertices`; these angles start
at 0, increase strictly in equal steps of `2*pi/nVertices`, and `nVertices` steps span
exactly `2*pi`. -/
theorem initAsteroid_polygon (m : Libm K) (hpi : 0 < m.pi) (a : Asteroid K) (x y size : K)
    (s : ℕ → ℕ) :
    ∃ n : ℕ, (initAsteroid m a x y size s).1.nVertices = n
      ∧ n = 6 + s 3 % (MAX_VERTICES - 6)
      ∧ 6 ≤ n ∧ n ≤ 15 ∧ n < MAX_VERTICES
      ∧ (∀ i, i < n → ∃ r : K, r = size * myRandomOf 2 3 (s (i + 4))
          ∧ (initAsteroid m a x y size s).1.coords i
            = ⟨-r * m.sin (vertexAngle m i n), r * m.cos (vertexAngle m i n)⟩)
      ∧ (∀ i, n ≤ i → (initAsteroid m a x y size s).1.coords i = a.coords i)
      ∧ vertexAngle m 0 n = 0
      ∧ (∀ i, vertexAngle m i n < vertexAngle m (i + 1) n)
      ∧ (∀ i, vertexAngle m (i + 1) n - vertexAngle m i n = 2 * m.pi / n)
      ∧ vertexAngle m n n = 2 * m.pi
      ∧ (n : K) * (2 * m.pi / n) = 2 * m.pi := by
  have hmod : s 3 % 10 < 10 := Nat.mod_lt _ (by norm_num)
  have hn : (0 : K) < ((6 + s 3 % 10 : ℕ) : K) := by
    have : 0 < 6 + s 3 % 10 := by omega
    exact_mod_cast this
  refine ⟨6 + s 3 % 10, by rw [initAsteroid_eq], rfl, by omega, by omega,
    by simp only [MAX_VERTICES]; omega, ?_, ?_, ?_, ?_, ?_, ?_, ?_⟩
  · intro i hi
    refine ⟨_, rfl, ?_⟩
    rw [initAsteroid_eq]
    simp only [if_pos hi]
  · intro i hi
    rw [initAsteroid_eq]
    simp only [if_neg (not_lt.mpr hi)]
  · simp [vertexAngle]
  · intro i
    unfold vertexAngle
    apply div_lt_div_of_pos_right _ hn
    have : (i : K) < ((i + 1 : ℕ) : K) := by exact_mod_cast Nat.lt_succ_self i
    nlinarith
  · intro i
    unfold vertexAngle
    push_cast
    ring
  · unfold vertexAngle
    field_simp
  · field_simp

/-- The C8 theorem applied to real `pi`, with `rand()` returning 0, 1, 2, ...: the
asteroid has `6 + 3 % 10 = 9` vertices. -/
theorem initAsteroid_polygon_witness :
    (0 : ℝ) < Real.pi
    ∧ ∃ n : ℕ, (initAsteroid ⟨Real.sin, Real.cos, Real.pi⟩
          ⟨0, 0, 0, 0, 0, 0, 0, 0, 0, fun _ => ⟨0, 0⟩⟩ 50 50 3 fun k => k).1.nVertices = n
        ∧ n = 9 :=
  ⟨Real.pi_pos,
   (initAsteroid_polygon ⟨Real.sin, Real.cos, Real.pi⟩ Real.pi_pos
      ⟨0, 0, 0, 0, 0, 0, 0, 0, 0, fun _ => ⟨0, 0⟩⟩ 50 50 3 fun k => k).imp
      fun _ h => ⟨h.1, h.2.1⟩⟩

/-- C9: the end of a `gameMyTimer` tick.  With `shipExplosion.dustTimer > 50` the
explosion is ended, the level index is kept, and the next timer callback is
`gameOverMyTimer` when `lives == 0` and `levelMyTimer` otherwise; else with an
asteroid active the next callback is `gameMyTimer` and the level index is kept; else
the level index grows by exactly 1 and the next callback is `levelMyTimer`. -/
theorem gameMyTimerEnd_transition (g : Game K) :
    (g.shipExplosion.dustTimer > 50 →
        (gameMyTimerEnd g).shipExplosion.active = 0
        ∧ (gameMyTimerEnd g).shipExplosion.dustTimer = 0
        ∧ (gameMyTimerEnd g).gameState = g.gameState
        ∧ (gameMyTimerEnd g).lives = g.lives
        ∧ (g.lives = 0 → (gameMyTimerEnd g).timerFunc = TimerFunc.gameOverMyTimer
            ∧ (gameMyTimerEnd g).displayFunc = DisplayFunc.gameOverDisplay)
        ∧ (g.lives ≠ 0 → (gameMyTimerEnd g).timerFunc = TimerFunc.levelMyTimer
            ∧ (gameMyTimerEnd g).displayFunc = DisplayFunc.myLevelDisplay))
    ∧ (¬ g.shipExplosion.dustTimer > 50 → (∃ i, (g.asteroids i).active = 1) →
        gameMyTimerEnd g = { g with timerFunc := TimerFunc.gameMyTimer })
    ∧ (¬ g.shipExplosion.dustTimer > 50 → (¬ ∃ i, (g.asteroids i).active = 1) →
        gameMyTimerEnd g = { g with gameState := g.gameState + 1,
                                    displayFunc := DisplayFunc.myLevelDisplay,
                                    timerFunc := TimerFunc.levelMyTimer })
    ∧ (∀ g0 : Game K, ∀ m : Libm K, gameMyTimer m g0 = (gameMyTimerBody m g0).map gameMyTimerEnd) := by
  refine ⟨fun h => ?_, fun h ha => ?_, fun h ha => ?_, fun _ _ => rfl⟩
  · unfold gameMyTimerEnd
    rw [if_pos (by simpa [TIME_WAIT] using h)]
    by_cases hl : g.lives = 0 <;> simp [hl]
  · unfold gameMyTimerEnd
    rw [if_neg (by simpa [TIME_WAIT] using h), if_pos ((levelBeat_ne_zero_iff g).mpr ha)]
  · unfold gameMyTimerEnd
    rw [if_neg (by simpa [TIME_WAIT] using h),
      if_neg (fun hb => ha ((levelBeat_ne_zero_iff g).mp hb))]

/-- C10: from `betweenLevelTimer = 0`, each of the first 50 invocations of
`levelMyTimer` only increments the timer and keeps `levelMyTimer` registered; the 51st
resets the timer to 0 and sets all 32 asteroid slots inactive, then registers
`gameOverMyTimer` when `gameState > 8`, and otherwise runs `gameInit` and registers
`gameMyTimer`, with exactly the slots `0 .. gameState - 1` active (`gameState` of them),
all of size `LARGE_SIZE`. -/
theorem levelMyTimer_fifty_one (m : Libm K) (g : Game K) (h0 : g.betweenLevelTimer = 0) :
    (∀ k : ℕ, 1 ≤ k → k ≤ 50 →
        runTicks (levelMyTimer m) k g
          = some { g with betweenLevelTimer := k, timerFunc := TimerFunc.levelMyTimer })
    ∧ (g.gameState > 8 →
        runTicks (levelMyTimer m) 51 g
          = some { g with betweenLevelTimer := 0,
                          asteroids := fun i => { g.asteroids i with active := 0 },
                          timerFunc := TimerFunc.gameOverMyTimer,
                          displayFunc := DisplayFunc.gameOverDisplay })
    ∧ (g.gameState ≤ 8 →
        ∃ g1 g2 : Game K,
          (∀ i, (g1.asteroids i).active = 0) ∧ g1.betweenLevelTimer = 0
          ∧ gameInit m g1 = some g2
          ∧ runTicks (levelMyTimer m) 51 g = some g2
          ∧ g2.timerFunc = TimerFunc.gameMyTimer
          ∧ g2.betweenLevelTimer = 0 ∧ g2.gameState = g.gameState
          ∧ (∀ i : Fin MAX_ASTEROIDS,
              ((i.val : Int) < g.gameState →
                (g2.asteroids i).active = 1 ∧ (g2.asteroids i).size = LARGE_SIZE)
              ∧ (g.gameState ≤ (i.val : Int) → (g2.asteroids i).active = 0))
          ∧ ((Finset.univ.filter fun i : Fin MAX_ASTEROIDS => (g2.asteroids i).active = 1).card
              : Int) = max g.gameState 0) := by
  have h51 : runTicks (levelMyTimer m) 51 g
      = levelMyTimer m { g with betweenLevelTimer := 50, timerFunc := TimerFunc.levelMyTimer } := by
    rw [runTicks_levelMyTimer_wait m g h0 50 le_rfl, if_neg (lt_irrefl _)]
  refine ⟨fun k hk1 hk => ?_, fun hs => ?_, fun hs => ?_⟩
  · obtain ⟨j, rfl⟩ : ∃ j, k = j + 1 := ⟨k - 1, by omega⟩
    rw [runTicks_levelMyTimer_wait m g h0 j (by omega), if_pos (by omega)]
    simp only [Nat.cast_add, Nat.cast_one]
  · rw [h51]
    exact levelMyTimer_finished m
      { g with betweenLevelTimer := 50, timerFunc := TimerFunc.levelMyTimer } rfl hs
  · obtain ⟨g1, g2, hclear, ht, hinit, hrun, htf, _, ht2, hgs, _, hact, hrest⟩ :=
      levelMyTimer_start m
        { g with betweenLevelTimer := 50, timerFunc := TimerFunc.levelMyTimer } rfl hs
    have hiff : ∀ i : Fin MAX_ASTEROIDS, (g2.asteroids i).active = 1 ↔ i.val < g.gameState.toNat := by
      intro i
      constructor
      · intro hi
        by_contra hc
        have := hrest i (not_lt.mp hc)
        omega
      · intro hi
        exact (hact i hi).1
    refine ⟨g1, g2, hclear, ht, hinit, by rw [h51, hrun], htf, ht2, hgs, fun i => ⟨fun hi => ?_, fun hi => ?_⟩, ?_⟩
    · exact hact i (by simp only []; omega)
    · exact hrest i (by simp only []; omega)
    · have hle : g.gameState.toNat ≤ 8 := by omega
      rw [Finset.filter_congr (fun i _ => hiff i), card_slots_below _ hle]
      omega

/-- The C10 theorem applied to a game entering the level screen of level 3. -/
theorem levelMyTimer_fifty_one_witness :
    levelThree.betweenLevelTimer = 0
    ∧ runTicks (levelMyTimer headingUp) 50 levelThree
        = some { levelThree with betweenLevelTimer := 50, timerFunc := TimerFunc.levelMyTimer } :=
  ⟨rfl, (levelMyTimer_fifty_one headingUp levelThree rfl).1 50 (by norm_num) le_rfl⟩


/-- The body of the outer loop for photon `i`, active, whose first active asteroid hit in
index order is `j`, with at least two asteroid slots inactive once `j` is deactivated:
for `j` of `LARGE_SIZE` exactly two slots that were inactive now hold active asteroids of
`MEDIUM_SIZE` at `j`'s `x`, `y`, and every other slot is as after the deactivation; for
`MEDIUM_SIZE` the same with two of `SMALL_SIZE`; for `SMALL_SIZE` no asteroid is
created, `j` just becomes inactive. -/
lemma photonStep_split (m : Libm K) (g : Game K) (i : Fin MAX_PHOTONS)
    (j : Fin MAX_ASTEROIDS) (hp : (g.photons i).active = 1) (hj : (g.asteroids j).active = 1)
    (hc : PhotonCollision (g.photons i) (g.asteroids j) = 1)
    (hfirst : ∀ k, k < j → ¬ ((g.asteroids k).active = 1
      ∧ PhotonCollision (g.photons i) (g.asteroids k) ≠ 0))
    (h2 : ∃ k1 k2 : Fin MAX_ASTEROIDS, k1 ≠ k2 ∧ (deactivate g.asteroids j k1).active = 0
      ∧ (deactivate g.asteroids j k2).active = 0) :
    ∃ g' : Game K, photonStep m g i = some g' ∧ (g'.photons i).active = 0
      ∧ ((g.asteroids j).size = LARGE_SIZE →
          (∃ k1 k2 : Fin MAX_ASTEROIDS, k1 ≠ k2
            ∧ (deactivate g.asteroids j k1).active = 0 ∧ (deactivate g.asteroids j k2).active = 0
            ∧ ((g'.asteroids k1).active = 1 ∧ (g'.asteroids k1).size = MEDIUM_SIZE
              ∧ (g'.asteroids k1).x = (g.asteroids j).x ∧ (g'.asteroids k1).y = (g.asteroids j).y)
            ∧ ((g'.asteroids k2).active = 1 ∧ (g'.asteroids k2).size = MEDIUM_SIZE
              ∧ (g'.asteroids k2).x = (g.asteroids j).x ∧ (g'.asteroids k2).y = (g.asteroids j).y)
            ∧ (∀ k, k ≠ k1 → k ≠ k2 → g'.asteroids k = deactivate g.asteroids j k))
          ∧ (Finset.univ.filter fun k => (g'.asteroids k).active = 1).card
              = (Finset.univ.filter fun k => (deactivate g.asteroids j k).active = 1).card + 2)
      ∧ ((g.asteroids j).size = MEDIUM_SIZE →
          (∃ k1 k2 : Fin MAX_ASTEROIDS, k1 ≠ k2
            ∧ (deactivate g.asteroids j k1).active = 0 ∧ (deactivate g.asteroids j k2).active = 0
            ∧ ((g'.asteroids k1).active = 1 ∧ (g'.asteroids k1).size = SMALL_SIZE
              ∧ (g'.asteroids k1).x = (g.asteroids j).x ∧ (g'.asteroids k1).y = (g.asteroids j).y)
            ∧ ((g'.asteroids k2).active = 1 ∧ (g'.asteroids k2).size = SMALL_SIZE
              ∧ (g'.asteroids k2).x = (g.asteroids j).x ∧ (g'.asteroids k2).y = (g.asteroids j).y)
            ∧ (∀ k, k ≠ k1 → k ≠ k2 → g'.asteroids k = deactivate g.asteroids j k))
          ∧ (Finset.univ.filter fun k => (g'.asteroids k).active = 1).card
              = (Finset.univ.filter fun k => (deactivate g.asteroids j k).active = 1).card + 2)
      ∧ ((g.asteroids j).size = SMALL_SIZE →
          g'.asteroids = deactivate g.asteroids j
          ∧ (deactivate g.asteroids j j).active = 0
          ∧ ∀ k, k ≠ j → g'.asteroids k = g.asteroids k) := by
  have hSL : (SMALL_SIZE : K) ≠ LARGE_SIZE := by norm_num [LARGE_SIZE, SMALL_SIZE]
  have hSM : (SMALL_SIZE : K) ≠ MEDIUM_SIZE := by norm_num [MEDIUM_SIZE, SMALL_SIZE]
  obtain ⟨g', hrun, hph, hsplit, hsmall⟩ := photonHit_spec m i j g h2
  refine ⟨g', ?_, hph, fun hL => ?_, fun hM => ?_, fun hS => ?_⟩
  · unfold photonStep
    rw [if_pos hp, photonScan_finRange m i g j hj (by rw [hc]; exact one_ne_zero) hfirst]
    exact hrun
  · obtain ⟨k1, k2, hne, h1, h2', c1, c2, hrest⟩ := hsplit MEDIUM_SIZE (Or.inl ⟨hL, rfl⟩)
    exact ⟨⟨k1, k2, hne, h1, h2', c1, c2, hrest⟩,
      card_active_add_two _ _ k1 k2 hne h1 h2' c1.1 c2.1 hrest⟩
  · obtain ⟨k1, k2, hne, h1, h2', c1, c2, hrest⟩ := hsplit SMALL_SIZE (Or.inr ⟨hM, rfl⟩)
    exact ⟨⟨k1, k2, hne, h1, h2', c1, c2, hrest⟩,
      card_active_add_two _ _ k1 k2 hne h1 h2' c1.1 c2.1 hrest⟩
  · have e := hsmall (by rw [hS]; exact hSL) (by rw [hS]; exact hSM)
    refine ⟨e, by simp [deactivate], fun k hk => ?_⟩
    rw [e]
    simp [deactivate, Function.update_noteq hk]

/-! ## Menu, level label and game over -/

/-- The function `menuInit` succeeds: it sets the start box, places the stars, draws
random numbers and leaves slots 0 to 7 holding active large asteroids; the other
asteroid slots and all other globals are as before. -/
lemma menuInit_spec (m : Libm K) (g : Game K) :
    ∃ (pool : Fin MAX_ASTEROIDS → Asteroid K) (stars : Fin MAX_STARS → Stars K) (s : ℕ → ℕ),
      menuInit m g
        = some { g with startbox := startBox, stars := stars, asteroids := pool, randSeq := s }
      ∧ (∀ i : Fin MAX_ASTEROIDS, i.val < 8 → (pool i).active = 1 ∧ (pool i).size = LARGE_SIZE)
      ∧ (∀ i : Fin MAX_ASTEROIDS, 8 ≤ i.val → pool i = g.asteroids i) := by
  obtain ⟨pool, s, hf, hact, hrest⟩ := seedAsteroid_foldlM m
    { g with startbox := startBox,
             stars := ((List.finRange MAX_STARS).foldl placeStar (g.stars, g.randSeq)).1,
             randSeq := ((List.finRange MAX_STARS).foldl placeStar (g.stars, g.randSeq)).2 }
    MAX_LARGE_ASTEROIDS (by norm_num)
  exact ⟨pool, _, s, hf, hact, hrest⟩

/-- While the timer is below `TIME_WAIT`, `gameOverMyTimer` only counts. -/
lemma gameOverMyTimer_wait (m : Libm K) (g : Game K) (h : g.betweenLevelTimer < 50) :
    gameOverMyTimer m g = some { g with betweenLevelTimer := g.betweenLevelTimer + 1,
                                         timerFunc := TimerFunc.gameOverMyTimer } := by
  unfold gameOverMyTimer
  rw [if_pos (by simpa [TIME_WAIT] using h)]

/-- The first 50 invocations of `gameOverMyTimer` from a timer of 0, and the 51st. -/
lemma runTicks_gameOverMyTimer_wait (m : Libm K) (g : Game K) (h0 : g.betweenLevelTimer = 0)
    (k : ℕ) (hk : k ≤ 50) :
    runTicks (gameOverMyTimer m) (k + 1) g
      = (if k < 50 then
          some { g with betweenLevelTimer := (k : Int) + 1,
                        timerFunc := TimerFunc.gameOverMyTimer }
        else gameOverMyTimer m { g with betweenLevelTimer := 50,
                                        timerFunc := TimerFunc.gameOverMyTimer }) := by
  induction k with
  | zero =>
    simp only [runTicks, Option.some_bind]
    rw [gameOverMyTimer_wait m g (by rw [h0]; norm_num), h0]
    simp
  | succ k ih =>
    rw [runTicks, ih (by omega), if_pos (by omega)]
    simp only [Option.some_bind]
    split_ifs with h
    · rw [gameOverMyTimer_wait m _ (by simp only []; omega)]
      simp only [Nat.cast_add, Nat.cast_one]
    · have e : ((k : Int) + 1) = 50 := by omega
      rw [e]

/-- From a timer of 0: invocations 1 to 50 of `gameOverMyTimer` only count; the 51st
clears the pool, runs `menuInit` on the cleared pool, registers the menu callbacks and
sets `gameState = 0`.  It does not write `lives`. -/
lemma gameOverMyTimer_run (m : Libm K) (g : Game K) (h0 : g.betweenLevelTimer = 0) :
    (∀ k : ℕ, 1 ≤ k → k ≤ 50 →
        runTicks (gameOverMyTimer m) k g
          = some { g with betweenLevelTimer := k, timerFunc := TimerFunc.gameOverMyTimer })
    ∧ ∃ g1 g2 : Game K,
        (∀ i, (g1.asteroids i).active = 0) ∧ g1.betweenLevelTimer = 0
        ∧ menuInit m g1 = some g2
        ∧ runTicks (gameOverMyTimer m) 51 g
            = some { g2 with timerFunc := TimerFunc.menuMyTimer,
                             displayFunc := DisplayFunc.myMenuDisplay, gameState := 0 }
        ∧ g2.betweenLevelTimer = 0 ∧ g2.lives = g.lives
        ∧ (∀ i : Fin MAX_ASTEROIDS,
            (i.val < 8 → (g2.asteroids i).active = 1 ∧ (g2.asteroids i).size = LARGE_SIZE)
            ∧ (8 ≤ i.val → (g2.asteroids i).active = 0)) := by
  constructor
  · intro k hk1 hk
    obtain ⟨j, rfl⟩ : ∃ j, k = j + 1 := ⟨k - 1, by omega⟩
    rw [runTicks_gameOverMyTimer_wait m g h0 j (by omega), if_pos (by omega)]
    simp only [Nat.cast_add, Nat.cast_one]
  · obtain ⟨pool, stars, s, hinit, hact, hrest⟩ := menuInit_spec m
      { g with betweenLevelTimer := 0, timerFunc := TimerFunc.gameOverMyTimer,
               asteroids := forSlots (fun a : Asteroid K => { a with active := 0 }) g.asteroids }
    refine ⟨_, _, fun i => ?_, rfl, hinit, ?_, rfl, rfl, fun i => ⟨hact i, fun hi => ?_⟩⟩
    · simp only [forSlots_apply]
    · rw [runTicks_gameOverMyTimer_wait m g h0 50 le_rfl, if_neg (lt_irrefl _)]
      unfold gameOverMyTimer
      rw [if_neg (by simp [TIME_WAIT])]
      simp only []
      rw [hinit]
      rfl
    · simp only []
      rw [hrest i hi]
      simp only [forSlots_apply]

/-- C13: `getLevelNumber` returns "LEVEL n" when `gameState = n` with `n` in 1..8, and
"ERROR" for every other integer value of `gameState` (0, 9 and the negatives among
them). -/
theorem getLevelNumber_spec (g : Game K) :
    (∀ n : ℕ, 1 ≤ n → n ≤ 8 → g.gameState = n → getLevelNumber g = "LEVEL " ++ toString n)
    ∧ (g.gameState < 1 ∨ 8 < g.gameState → getLevelNumber g = "ERROR")
    ∧ (g.gameState = 0 ∨ g.gameState = 9 ∨ g.gameState < 0 → getLevelNumber g = "ERROR") := by
  have herr : g.gameState < 1 ∨ 8 < g.gameState → getLevelNumber g = "ERROR" := by
    intro h
    unfold getLevelNumber
    split_ifs <;> first | rfl | (exfalso; omega)
  refine ⟨fun n h1 h8 hn => ?_, herr, fun h => herr (by omega)⟩
  unfold getLevelNumber
  interval_cases n <;> simp [hn] <;> rfl

/-- C11 as stated fails: a game that enters the game-over screen with `lives = 0` is
handed over to the menu, 51 invocations later, with `gameState = 0` but still
`lives = 0`, not 3. -/
theorem gameOverMyTimer_keeps_lives :
    lostGame.betweenLevelTimer = 0 ∧ lostGame.lives = 0
    ∧ ∃ g' : Game ℚ, runTicks (gameOverMyTimer headingUp) 51 lostGame = some g'
        ∧ g'.timerFunc = TimerFunc.menuMyTimer ∧ g'.gameState = 0
        ∧ g'.lives = 0 ∧ g'.lives ≠ 3 := by
  obtain ⟨_, g1, g2, _, _, _, hrun, _, hl, _⟩ := gameOverMyTimer_run headingUp lostGame rfl
  have hl0 : g2.lives = 0 := hl
  exact ⟨rfl, rfl, _, hrun, rfl, rfl, hl0, by simp only [hl0]; norm_num⟩

/-- C11, amended: from `betweenLevelTimer = 0`, `gameOverMyTimer` keeps itself
registered for its first 50 invocations, which only count; the 51st resets the timer,
deactivates all asteroids, then runs `menuInit` (slots 0 to 7 seeded with large
asteroids) and hands over to the menu callbacks with `gameState = 0`, whatever
`gameState` was; `lives` keeps the value it had on entry. -/
theorem gameOverMyTimer_fifty_one (m : Libm K) (g : Game K) (h0 : g.betweenLevelTimer = 0) :
    (∀ k : ℕ, 1 ≤ k → k ≤ 50 →
        runTicks (gameOverMyTimer m) k g
          = some { g with betweenLevelTimer := k, timerFunc := TimerFunc.gameOverMyTimer })
    ∧ ∃ g1 g2 g' : Game K,
        (∀ i, (g1.asteroids i).active = 0) ∧ menuInit m g1 = some g2
        ∧ runTicks (gameOverMyTimer m) 51 g = some g'
        ∧ g'.timerFunc = TimerFunc.menuMyTimer ∧ g'.displayFunc = DisplayFunc.myMenuDisplay
        ∧ g'.betweenLevelTimer = 0 ∧ g'.gameState = 0 ∧ g'.lives = g.lives
        ∧ g'.asteroids = g2.asteroids
        ∧ (∀ i : Fin MAX_ASTEROIDS,
            (i.val < 8 → (g'.asteroids i).active = 1 ∧ (g'.asteroids i).size = LARGE_SIZE)
            ∧ (8 ≤ i.val → (g'.asteroids i).active = 0)) := by
  obtain ⟨hwait, g1, g2, hclear, _, hinit, hrun, ht, hl, hpool⟩ := gameOverMyTimer_run m g h0
  exact ⟨hwait, g1, g2, _, hclear, hinit, hrun, rfl, rfl, ht, rfl, hl, rfl, hpool⟩

/-- The amended C11 theorem applied to a game that lost its last life on level 3. -/
theorem gameOverMyTimer_fifty_one_witness :
    lostGame.betweenLevelTimer = 0
    ∧ runTicks (gameOverMyTimer headingUp) 50 lostGame
        = some { lostGame with betweenLevelTimer := 50,
                               timerFunc := TimerFunc.gameOverMyTimer } :=
  ⟨rfl, (gameOverMyTimer_fifty_one headingUp lostGame rfl).1 50 (by norm_num) le_rfl⟩

/-- The test of `withinBox` on the start box that `menuInit` writes. -/
lemma withinBox_startBox (x y : K) :
    withinBox x y (startBox : StartBox K) ≠ 0
      ↔ (102 ≤ x / 6 ∧ x / 6 ≤ 118 ∧ 48 ≤ y / 6 ∧ y / 6 ≤ 54) := by
  have c0 : (startBox : StartBox K).coords 0 = ⟨102, 48⟩ := rfl
  have c1 : (startBox : StartBox K).coords 1 = ⟨118, 48⟩ := rfl
  have c2 : (startBox : StartBox K).coords 2 = ⟨118, 54⟩ := rfl
  unfold withinBox
  simp only [c0, c1, c2, ge_iff_le]
  by_cases h : 102 ≤ x / 6 ∧ x / 6 ≤ 118 ∧ 48 ≤ y / 6 ∧ y / 6 ≤ 54
  · rw [if_pos h]
    exact ⟨fun _ => h, fun _ => one_ne_zero⟩
  · rw [if_neg h]
    exact ⟨fun hc => absurd rfl hc, fun hc => absurd hc h⟩

/-- C12: with the start box as `menuInit` sets it, in the menu (`gameState == 0`) a
button-down click at pixel `(x, y)` sets `gameState` to 1 if and only if
`102 <= x/6 <= 118` and `48 <= y/6 <= 54`, and the next `menuMyTimer` tick then sets
`lives = 3` and registers the level callbacks with level index 1; a click outside the
region, an event whose state is not `GLUT_DOWN`, or any click when `gameState != 0`
leaves the whole state, `gameState` and `lives` included, unchanged. -/
theorem mouseClick_start (GLUT_DOWN : Int) (g : Game K) (hbox : g.startbox = startBox)
    (button state x y : Int) :
    (g.gameState = 0 → state = GLUT_DOWN →
        ((mouseClick GLUT_DOWN button state x y g).gameState = 1
          ↔ (102 ≤ (x : K) / 6 ∧ (x : K) / 6 ≤ 118 ∧ 48 ≤ (y : K) / 6 ∧ (y : K) / 6 ≤ 54)))
    ∧ (g.gameState = 0 → state = GLUT_DOWN →
        (102 ≤ (x : K) / 6 ∧ (x : K) / 6 ≤ 118 ∧ 48 ≤ (y : K) / 6 ∧ (y : K) / 6 ≤ 54) →
        mouseClick GLUT_DOWN button state x y g = { g with gameState := 1 }
        ∧ (menuMyTimer (mouseClick GLUT_DOWN button state x y g)).lives = 3
        ∧ (menuMyTimer (mouseClick GLUT_DOWN button state x y g)).gameState = 1
        ∧ (menuMyTimer (mouseClick GLUT_DOWN button state x y g)).timerFunc
            = TimerFunc.levelMyTimer
        ∧ (menuMyTimer (mouseClick GLUT_DOWN button state x y g)).displayFunc
            = DisplayFunc.myLevelDisplay)
    ∧ (¬ (102 ≤ (x : K) / 6 ∧ (x : K) / 6 ≤ 118 ∧ 48 ≤ (y : K) / 6 ∧ (y : K) / 6 ≤ 54)
          ∨ state ≠ GLUT_DOWN ∨ g.gameState ≠ 0 →
        mouseClick GLUT_DOWN button state x y g = g
        ∧ (mouseClick GLUT_DOWN button state x y g).gameState = g.gameState
        ∧ (mouseClick GLUT_DOWN button state x y g).lives = g.lives) := by
  have hw := withinBox_startBox (x : K) (y : K)
  have hin : g.gameState = 0 → state = GLUT_DOWN →
      (102 ≤ (x : K) / 6 ∧ (x : K) / 6 ≤ 118 ∧ 48 ≤ (y : K) / 6 ∧ (y : K) / 6 ≤ 54) →
      mouseClick GLUT_DOWN button state x y g = { g with gameState := 1 } := by
    intro hg hs hr
    unfold mouseClick
    rw [if_pos hs, if_pos hg, hbox, if_pos (hw.mpr hr)]
  have hout : ¬ (102 ≤ (x : K) / 6 ∧ (x : K) / 6 ≤ 118 ∧ 48 ≤ (y : K) / 6 ∧ (y : K) / 6 ≤ 54)
      ∨ state ≠ GLUT_DOWN ∨ g.gameState ≠ 0 → mouseClick GLUT_DOWN button state x y g = g := by
    intro h
    unfold mouseClick
    by_cases hs : state = GLUT_DOWN
    · rw [if_pos hs]
      by_cases hg : g.gameState = 0
      · rw [if_pos hg, hbox]
        rcases h with h | h | h
        · rw [if_neg (fun hc => h (hw.mp hc))]
        · exact absurd hs h
        · exact absurd hg h
      · rw [if_neg hg]
    · rw [if_neg hs]
  refine ⟨fun hg hs => ⟨fun h1 => ?_, fun hr => by rw [hin hg hs hr]⟩, fun hg hs hr => ?_,
    fun h => by rw [hout h]; exact ⟨rfl, rfl, rfl⟩⟩
  · by_contra hr
    rw [hout (Or.inl hr), hg] at h1
    exact zero_ne_one h1
  · rw [hin hg hs hr]
    refine ⟨rfl, ?_, ?_, ?_, ?_⟩ <;> simp [menuMyTimer, advanceAsteroids]

/-- The C12 theorem applied to the menu in a 1000 by 600 window and a click at pixel
`(660, 300)`, inside the start box. -/
theorem mouseClick_start_witness :
    menuGame.startbox = startBox
    ∧ ((mouseClick 0 0 0 660 300 menuGame).gameState = 1
        ↔ (102 ≤ ((660 : Int) : ℚ) / 6 ∧ ((660 : Int) : ℚ) / 6 ≤ 118
            ∧ 48 ≤ ((300 : Int) : ℚ) / 6 ∧ ((300 : Int) : ℚ) / 6 ≤ 54)) :=
  ⟨rfl, (mouseClick_start 0 menuGame rfl 0 0 660 300).1 rfl rfl⟩

/-! ## Clamp branches, heading, division, full pool -/

/-- C15 fails on the code: a ship moving at `(2, 0)` with heading 0 under reverse thrust
has candidate `(2, -0.1)` of squared speed 4.01; the candidate does not lower `dx` and
lowers `dy`, the case the source labels `decreasing only in the y direction`, yet the
result is `dy = -2`, not the candidate `dy = -0.1`. -/
theorem updateVelocity_no_axis_clamp :
    (2 - thrust 1 * Real.sin (degToRad ⟨Real.sin, Real.cos, Real.pi⟩ 0)) ^ 2
        + (0 + thrust 1 * Real.cos (degToRad ⟨Real.sin, Real.cos, Real.pi⟩ 0)) ^ 2 ≥ (4 : ℝ)
    ∧ 2 - thrust 1 * Real.sin (degToRad ⟨Real.sin, Real.cos, Real.pi⟩ 0) ≥ (2 : ℝ)
    ∧ 0 + thrust 1 * Real.cos (degToRad ⟨Real.sin, Real.cos, Real.pi⟩ 0) < (0 : ℝ)
    ∧ (updateVelocity ⟨Real.sin, Real.cos, Real.pi⟩ 1
        ⟨1, 83, 50, 0, 2, 0, fun _ => ⟨0, 0⟩⟩).dy = -2
    ∧ (updateVelocity ⟨Real.sin, Real.cos, Real.pi⟩ 1
        ⟨1, 83, 50, 0, 2, 0, fun _ => ⟨0, 0⟩⟩).dy
      ≠ 0 + thrust 1 * Real.cos (degToRad ⟨Real.sin, Real.cos, Real.pi⟩ 0) := by
  have h0 : degToRad ⟨Real.sin, Real.cos, Real.pi⟩ (0 : ℝ) = 0 := by simp [degToRad]
  have ht : (thrust 1 : ℝ) = -(1 / 10) := by simp [thrust, ACCELERATION_STEP_BACK]
  have hdy : (updateVelocity ⟨Real.sin, Real.cos, Real.pi⟩ 1
      ⟨1, 83, 50, 0, 2, 0, fun _ => ⟨0, 0⟩⟩).dy = -2 := by
    rw [updateVelocity_eq]
    simp only [h0, ht, Real.sin_zero, Real.cos_zero]
    norm_num
  rw [hdy, h0, ht, Real.sin_zero, Real.cos_zero]
  norm_num

/-- What the code does with a candidate velocity of squared speed at least 4: the first
inner test always holds, so both axes are set to the maximum in the commanded direction,
`(-2 sin, 2 cos)` for forward thrust, `(2 sin, -2 cos)` for reverse thrust, and the three
branches below it are never entered. -/
lemma updateVelocity_clamp (m : Libm K) (state : Int) (ship : Ship K)
    (h : (ship.dx - thrust state * m.sin (degToRad m ship.phi)) ^ 2
        + (ship.dy + thrust state * m.cos (degToRad m ship.phi)) ^ 2 ≥ SHIP_VELOCITY_MAX ^ 2) :
    updateVelocity m state ship
      = { ship with
          dx := if state ≠ 0 then SHIP_VELOCITY_MAX * m.sin (degToRad m ship.phi)
                else -SHIP_VELOCITY_MAX * m.sin (degToRad m ship.phi),
          dy := if state ≠ 0 then -SHIP_VELOCITY_MAX * m.cos (degToRad m ship.phi)
                else SHIP_VELOCITY_MAX * m.cos (degToRad m ship.phi) } := by
  rw [updateVelocity_eq, if_neg (not_lt.mpr (by simpa [SHIP_VELOCITY_MAX] using h))]
  by_cases hs : state ≠ 0
  · simp only [if_pos hs, SHIP_VELOCITY_MAX]
  · simp only [if_neg hs, SHIP_VELOCITY_MAX]

/-- The ship-vs-asteroid scan commutes with a change of the ship's heading. -/
lemma shipScan_phi (phi : K) (l : List (Fin SHIP_VERTICES × Fin MAX_ASTEROIDS)) (g : Game K) :
    shipScan l { g with ship := { g.ship with phi := phi } }
      = { shipScan l g with ship := { (shipScan l g).ship with phi := phi } } := by
  induction l with
  | nil => rfl
  | cons p l ih =>
    obtain ⟨j, i⟩ := p
    simp only [shipScan]
    by_cases h1 : (g.asteroids i).active = 1 ∧ g.shipExplosion.active = 0
    · rw [if_pos h1, if_pos h1]
      by_cases h2 : ShipCollision g.ship (g.ship.coords j) (g.asteroids i) ≠ 0
      · have h2' : ShipCollision { g.ship with phi := phi } (g.ship.coords j) (g.asteroids i) ≠ 0 :=
          h2
        rw [if_pos h2, if_pos h2']
        rfl
      · have h2' : ¬ ShipCollision { g.ship with phi := phi } (g.ship.coords j) (g.asteroids i)
            ≠ 0 := h2
        rw [if_neg h2, if_neg h2']
        exact ih
    · rw [if_neg h1, if_neg h1]
      exact ih

/-- C18: the ship-vs-asteroid hit test does not depend on the ship's heading.  For two
game states that differ only in `ship.phi`, `ShipCollision` returns the same value for
every hull vertex and asteroid, the collision phase ends in states that again differ
only in `ship.phi`, and it decrements `lives` in one iff it does in the other. -/
theorem shipCollision_heading_independent (g : Game K) (phi : K) :
    (∀ (j : Fin SHIP_VERTICES) (i : Fin MAX_ASTEROIDS),
        ShipCollision { g.ship with phi := phi } (g.ship.coords j) (g.asteroids i)
          = ShipCollision g.ship (g.ship.coords j) (g.asteroids i))
    ∧ shipCollisionPhase { g with ship := { g.ship with phi := phi } }
        = { shipCollisionPhase g with
            ship := { (shipCollisionPhase g).ship with phi := phi } }
    ∧ ((shipCollisionPhase { g with ship := { g.ship with phi := phi } }).lives = g.lives - 1
        ↔ (shipCollisionPhase g).lives = g.lives - 1)
    ∧ (shipCollisionPhase { g with ship := { g.ship with phi := phi } }).lives
        = (shipCollisionPhase g).lives := by
  have e := shipScan_phi phi ((List.finRange SHIP_VERTICES).flatMap fun j =>
    (List.finRange MAX_ASTEROIDS).map fun i => (j, i)) g
  refine ⟨fun _ _ => rfl, e, ?_, ?_⟩
  · unfold shipCollisionPhase
    rw [e]
  · unfold shipCollisionPhase
    rw [e]


/-- The edge step of `PhotonCollision` reaches its division only under `photonSpan`. -/
lemma photonEdge_not_span (px1 py1 : K) (a : Asteroid K) (n : Int) (i : ℕ)
    (h : ¬ photonSpan py1 a i) : photonEdge px1 py1 a n i = n := by
  unfold photonSpan at h
  unfold photonEdge
  simp only []
  rw [if_neg h]

/-- The edge step of `ShipCollision` reaches its division only under `shipSpan`. -/
lemma shipEdge_not_span (px1 py1 : K) (a : Asteroid K) (n : Int) (i : ℕ)
    (h : ¬ shipSpan py1 a i) : shipEdge px1 py1 a n i = n := by
  unfold shipSpan at h
  unfold shipEdge
  simp only []
  rw [if_neg h]

/-- The edge step of `ShipCollision` divides exactly when its span test holds; with a
zero divisor there the quotient is `0.0/0.0` and the edge is not counted. -/
lemma shipEdge_zero_divisor (px1 py1 : K) (a : Asteroid K) (n : Int) (i : ℕ)
    (hs : shipSpan py1 a i) (hd : edgeDivisor a i = 0) : shipEdge px1 py1 a n i = n := by
  unfold shipSpan at hs
  unfold edgeDivisor at hd
  unfold shipEdge
  simp only []
  rw [if_pos hs, if_pos hd]

/-- The span test of `PhotonCollision` is strict at both ends: where it holds the
divisor is not zero. -/
lemma photonSpan_divisor_ne_zero (py1 : K) (a : Asteroid K) (i : ℕ)
    (h : photonSpan py1 a i) : edgeDivisor a i ≠ 0 := by
  unfold edgeDivisor
  rcases h with ⟨h1, h2⟩ | ⟨h1, h2⟩
  · exact ne_of_lt (by linarith)
  · exact ne_of_gt (by linarith)

/-- An asteroid with 7 vertices written by `initAsteroid` under the real `sin`, `cos`,
`pi` with the same radius drawn for vertices 3 and 4 has its edge 3-4 horizontal: for a
test point at that height `ShipCollision`'s span test holds and the divisor is 0. -/
lemma generated_heptagon_flat_edge (a : Asteroid ℝ) (x y size : ℝ) (s : ℕ → ℕ)
    (hn : 6 + s 3 % 10 = 7) (h34 : myRandomOf (2 : ℝ) 3 (s 7) = myRandomOf 2 3 (s 8)) :
    shipSpan ((initAsteroid ⟨Real.sin, Real.cos, Real.pi⟩ a x y size s).1.y
        + ((initAsteroid ⟨Real.sin, Real.cos, Real.pi⟩ a x y size s).1.coords 3).y)
      (initAsteroid ⟨Real.sin, Real.cos, Real.pi⟩ a x y size s).1 3
    ∧ edgeDivisor (initAsteroid ⟨Real.sin, Real.cos, Real.pi⟩ a x y size s).1 3 = 0 := by
  obtain ⟨h7, _, _, hc⟩ := initAsteroid_coords ⟨Real.sin, Real.cos, Real.pi⟩ a x y size s 7 hn
  have hang : vertexAngle ⟨Real.sin, Real.cos, Real.pi⟩ 4 7
      = 2 * Real.pi - vertexAngle ⟨Real.sin, Real.cos, Real.pi⟩ 3 7 := by
    unfold vertexAngle
    push_cast
    ring
  have hy : ((initAsteroid ⟨Real.sin, Real.cos, Real.pi⟩ a x y size s).1.coords 4).y
      = ((initAsteroid ⟨Real.sin, Real.cos, Real.pi⟩ a x y size s).1.coords 3).y := by
    rw [hc 4 (by norm_num), hc 3 (by norm_num)]
    simp only [hang, Real.cos_two_pi_sub]
    rw [show s (4 + 4) = s 8 from rfl, show s (3 + 4) = s 7 from rfl, h34]
  have i3 : 3 % (initAsteroid ⟨Real.sin, Real.cos, Real.pi⟩ a x y size s).1.nVertices = 3 := by
    rw [h7]
  have i4 : (3 + 1) % (initAsteroid ⟨Real.sin, Real.cos, Real.pi⟩ a x y size s).1.nVertices
      = 4 := by rw [h7]
  constructor
  · unfold shipSpan
    rw [i3, i4, hy]
    exact Or.inl ⟨le_refl _, le_refl _⟩
  · unfold edgeDivisor
    rw [i3, i4, hy]
    ring

/-- C19 fails on the code for `ShipCollision`: with `rand()` returning 1 every time
`initAsteroid` writes a large asteroid with 7 vertices at `(50, 50)` whose edge 3-4 is
horizontal; for the ship's nose `(0, 3.5)` at the height of that edge the inclusive span
test holds on edge 3 and the divisor `ay2 - ay1` is 0.  For `PhotonCollision` the
divisor is non-zero wherever its span test holds. -/
theorem shipCollision_divides_by_zero :
    ∃ (a : Asteroid ℝ) (ship : Ship ℝ) (c : Coords ℝ),
      a = (initAsteroid ⟨Real.sin, Real.cos, Real.pi⟩
            ⟨0, 0, 0, 0, 0, 0, 0, 0, 0, fun _ => ⟨0, 0⟩⟩ 50 50 3 fun _ => 1).1
      ∧ a.nVertices = 7 ∧ a.active = 1
      ∧ ship = ⟨0, 50, a.y + (a.coords 3).y - 7 / 2, 0, 0, 0, fun _ => ⟨0, 7 / 2⟩⟩
      ∧ c = ⟨0, 7 / 2⟩
      ∧ shipSpan (c.y + ship.y) a 3
      ∧ edgeDivisor a 3 = 0
      ∧ (∀ (n : Int) (px1 : ℝ), shipEdge px1 (c.y + ship.y) a n 3 = n)
      ∧ (∀ (py1 : ℝ) (b : Asteroid ℝ) (i : ℕ), photonSpan py1 b i → edgeDivisor b i ≠ 0) := by
  have hn : 6 + (fun _ : ℕ => 1) 3 % 10 = 7 := by norm_num
  obtain ⟨hs, hd⟩ := generated_heptagon_flat_edge ⟨0, 0, 0, 0, 0, 0, 0, 0, 0, fun _ => ⟨0, 0⟩⟩
    50 50 3 (fun _ => 1) hn rfl
  obtain ⟨h7, _, _, _⟩ := initAsteroid_coords ⟨Real.sin, Real.cos, Real.pi⟩
    ⟨0, 0, 0, 0, 0, 0, 0, 0, 0, fun _ => ⟨0, 0⟩⟩ (50 : ℝ) 50 3 (fun _ => 1) 7 hn
  have e : ∀ t : ℝ, (7 / 2 : ℝ) + (t - 7 / 2) = t := fun t => by ring
  refine ⟨_, _, _, rfl, h7, initAsteroid_active _ _ _ _ _ _, rfl, rfl, ?_, hd, ?_,
    fun py1 b i h => photonSpan_divisor_ne_zero py1 b i h⟩
  · simp only [e]
    exact hs
  · intro n px1
    simp only [e]
    exact shipEdge_zero_divisor px1 _ _ n 3 hs hd

/-- Replacing one slot changes the pool weight by the difference of the slot weights. -/
lemma poolWeight_update (pool : Fin MAX_ASTEROIDS → Asteroid K) (k : Fin MAX_ASTEROIDS)
    (a : Asteroid K) :
    poolWeight (Function.update pool k a) + slotWeight (pool k) = poolWeight pool + slotWeight a := by
  unfold poolWeight
  rw [← Finset.add_sum_erase Finset.univ (fun i => slotWeight (Function.update pool k a i))
      (Finset.mem_univ k),
    ← Finset.add_sum_erase Finset.univ (fun i => slotWeight (pool i)) (Finset.mem_univ k)]
  have e : ∑ i in Finset.univ.erase k, slotWeight (Function.update pool k a i)
      = ∑ i in Finset.univ.erase k, slotWeight (pool i) := by
    apply Finset.sum_congr rfl
    intro i hi
    rw [Function.update_noteq (Finset.ne_of_mem_erase hi)]
  simp only [Function.update_same, e]
  omega

/-- An inactive slot weighs nothing. -/
lemma slotWeight_inactive (a : Asteroid K) (h : a.active = 0) : slotWeight a = 0 := by
  unfold slotWeight
  rw [if_neg (by rw [h]; exact zero_ne_one)]

/-- The weight of an active asteroid of a given size. -/
lemma slotWeight_active (a : Asteroid K) (h : a.active = 1) :
    (a.size = LARGE_SIZE → slotWeight a = 4) ∧ (a.size = MEDIUM_SIZE → slotWeight a = 2)
    ∧ (a.size = SMALL_SIZE → slotWeight a = 1) := by
  have hML : (MEDIUM_SIZE : K) ≠ LARGE_SIZE := by norm_num [LARGE_SIZE, MEDIUM_SIZE]
  have hSL : (SMALL_SIZE : K) ≠ LARGE_SIZE := by norm_num [LARGE_SIZE, SMALL_SIZE]
  have hSM : (SMALL_SIZE : K) ≠ MEDIUM_SIZE := by norm_num [MEDIUM_SIZE, SMALL_SIZE]
  unfold slotWeight
  rw [if_pos h]
  refine ⟨fun hs => by rw [if_pos hs], fun hs => ?_, fun hs => ?_⟩
  · rw [if_neg (by rw [hs]; exact hML), if_pos hs]
  · rw [if_neg (by rw [hs]; exact hSL), if_neg (by rw [hs]; exact hSM), if_pos hs]

/-- A slot of positive weight holds an active asteroid of one of the three sizes. -/
lemma slotWeight_pos (a : Asteroid K) (h : 1 ≤ slotWeight a) :
    a.active = 1 ∧ ((a.size = LARGE_SIZE ∧ slotWeight a = 4)
      ∨ (a.size = MEDIUM_SIZE ∧ slotWeight a = 2) ∨ (a.size = SMALL_SIZE ∧ slotWeight a = 1)) := by
  by_cases ha : a.active = 1
  · obtain ⟨hL, hM, hS⟩ := slotWeight_active a ha
    refine ⟨ha, ?_⟩
    by_cases h1 : a.size = LARGE_SIZE
    · exact Or.inl ⟨h1, hL h1⟩
    · by_cases h2 : a.size = MEDIUM_SIZE
      · exact Or.inr (Or.inl ⟨h2, hM h2⟩)
      · by_cases h3 : a.size = SMALL_SIZE
        · exact Or.inr (Or.inr ⟨h3, hS h3⟩)
        · exfalso
          unfold slotWeight at h
          rw [if_pos ha, if_neg h1, if_neg h2, if_neg h3] at h
          omega
  · exfalso
    unfold slotWeight at h
    rw [if_neg ha] at h
    omega

/-- Deactivating a slot removes its weight. -/
lemma poolWeight_deactivate (pool : Fin MAX_ASTEROIDS → Asteroid K) (j : Fin MAX_ASTEROIDS) :
    poolWeight (deactivate pool j) + slotWeight (pool j) = poolWeight pool := by
  have h := poolWeight_update pool j { pool j with active := 0 }
  have h0 : slotWeight ({ pool j with active := 0 } : Asteroid K) = 0 :=
    slotWeight_inactive _ rfl
  rw [h0] at h
  unfold deactivate
  omega

/-- Deactivating a slot keeps the pool well sized. -/
lemma wellSized_deactivate (pool : Fin MAX_ASTEROIDS → Asteroid K) (j : Fin MAX_ASTEROIDS)
    (h : wellSized pool) : wellSized (deactivate pool j) := by
  intro i hi
  by_cases hij : i = j
  · subst hij
    simp [deactivate] at hi
  · have e : deactivate pool j i = pool i := by simp [deactivate, Function.update_noteq hij]
    rw [e] at hi ⊢
    exact h i hi

/-- A well-sized pool of weight at most 30 with slot `j` inactive has a second inactive
slot. -/
lemma wellSized_room (pool : Fin MAX_ASTEROIDS → Asteroid K) (j : Fin MAX_ASTEROIDS)
    (h : wellSized pool) (hw : poolWeight pool ≤ 30) :
    ∃ k, k ≠ j ∧ (pool k).active = 0 := by
  by_contra hc
  have hall : ∀ i ∈ Finset.univ.erase j, 1 ≤ slotWeight (pool i) := by
    intro i hi
    apply h i
    intro h0
    exact hc ⟨i, Finset.ne_of_mem_erase hi, h0⟩
  have h1 : (Finset.univ.erase j).card ≤ ∑ i in Finset.univ.erase j, slotWeight (pool i) := by
    have := Finset.card_nsmul_le_sum (Finset.univ.erase j) (fun i => slotWeight (pool i)) 1 hall
    simpa using this
  have h2 : (Finset.univ.erase j : Finset (Fin MAX_ASTEROIDS)).card = 31 := by
    rw [Finset.card_erase_of_mem (Finset.mem_univ j), Finset.card_univ, Fintype.card_fin]
    rfl
  have h3 : ∑ i in Finset.univ.erase j, slotWeight (pool i) ≤ poolWeight pool := by
    unfold poolWeight
    exact Finset.sum_le_sum_of_subset (Finset.erase_subset j Finset.univ)
  omega

/-- Two inactive slots filled, the rest of the pool unchanged: the weight grows by the
weights of the two new asteroids. -/
lemma poolWeight_two_children (P Q : Fin MAX_ASTEROIDS → Asteroid K)
    (k1 k2 : Fin MAX_ASTEROIDS) (hne : k1 ≠ k2) (h1 : (P k1).active = 0)
    (h2 : (P k2).active = 0) (hrest : ∀ k, k ≠ k1 → k ≠ k2 → Q k = P k) :
    poolWeight Q = poolWeight P + slotWeight (Q k1) + slotWeight (Q k2) := by
  have e : Q = Function.update (Function.update P k1 (Q k1)) k2 (Q k2) := by
    funext k
    by_cases hk2 : k = k2
    · subst hk2; rw [Function.update_same]
    · rw [Function.update_noteq hk2]
      by_cases hk1 : k = k1
      · subst hk1; rw [Function.update_same]
      · rw [Function.update_noteq hk1]; exact hrest k hk1 hk2
  have u1 := poolWeight_update P k1 (Q k1)
  have u2 := poolWeight_update (Function.update P k1 (Q k1)) k2 (Q k2)
  rw [← e, Function.update_noteq hne.symm, slotWeight_inactive _ h2] at u2
  rw [slotWeight_inactive _ h1] at u1
  omega

/-- The pool weight is `4 * large + 2 * medium + small`. -/
lemma poolWeight_eq_counts (pool : Fin MAX_ASTEROIDS → Asteroid K) :
    poolWeight pool = 4 * countSize pool LARGE_SIZE + 2 * countSize pool MEDIUM_SIZE
      + countSize pool SMALL_SIZE := by
  have hML : (MEDIUM_SIZE : K) ≠ LARGE_SIZE := by norm_num [LARGE_SIZE, MEDIUM_SIZE]
  have hSL : (SMALL_SIZE : K) ≠ LARGE_SIZE := by norm_num [LARGE_SIZE, SMALL_SIZE]
  have hSM : (SMALL_SIZE : K) ≠ MEDIUM_SIZE := by norm_num [MEDIUM_SIZE, SMALL_SIZE]
  have hpt : ∀ a : Asteroid K, slotWeight a
      = 4 * (if a.active = 1 ∧ a.size = LARGE_SIZE then 1 else 0)
        + 2 * (if a.active = 1 ∧ a.size = MEDIUM_SIZE then 1 else 0)
        + (if a.active = 1 ∧ a.size = SMALL_SIZE then 1 else 0) := by
    intro a
    unfold slotWeight
    by_cases ha : a.active = 1
    · by_cases h1 : a.size = LARGE_SIZE
      · simp [ha, h1, hML.symm, hSL.symm]
      · by_cases h2 : a.size = MEDIUM_SIZE
        · simp [ha, h2, hML, hSM.symm]
        · by_cases h3 : a.size = SMALL_SIZE
          · simp [ha, h3, hSL, hSM]
          · simp [ha, h1, h2, h3]
    · simp [ha]
  unfold poolWeight countSize
  simp only [hpt, Finset.sum_add_distrib, ← Finset.mul_sum, Finset.sum_boole, Nat.cast_id]

/-! ## What the photon-vs-asteroid phase leaves alone -/

lemma SameScore.refl (g : Game K) : SameScore g g := ⟨rfl, rfl, rfl, rfl, rfl, rfl⟩

lemma SameScore.trans {g1 g2 g3 : Game K} (h12 : SameScore g1 g2) (h23 : SameScore g2 g3) :
    SameScore g1 g3 := by
  obtain ⟨a1, a2, a3, a4, a5, a6⟩ := h12
  obtain ⟨b1, b2, b3, b4, b5, b6⟩ := h23
  exact ⟨b1.trans a1, b2.trans a2, b3.trans a3, b4.trans a4, b5.trans a5, b6.trans a6⟩

/-- A successful `initAsteroid` call on a pool slot writes the pool and the random
stream only. -/
lemma initAsteroidAt_sameScore (m : Libm K) (idx : Int) (x y size : K) (g g' : Game K)
    (h : initAsteroidAt m idx x y size g = some g') : SameScore g g' := by
  unfold initAsteroidAt at h
  split_ifs at h
  simp only [Option.some.injEq] at h
  subst h
  exact ⟨rfl, rfl, rfl, rfl, rfl, rfl⟩

lemma activateDust_sameScore (x y : K) (g : Game K) : SameScore g (activateDust x y g) := by
  unfold activateDust
  split <;> exact ⟨rfl, rfl, rfl, rfl, rfl, rfl⟩

/-- The two `initAsteroid` calls of a split, when both succeed. -/
lemma spawn_sameScore (m : Libm K) (j : Fin MAX_ASTEROIDS) (sz : K) (g3 g' : Game K)
    (h : (initAsteroidAt m (findInactiveAsteroid g3.asteroids)
          (g3.asteroids j).x (g3.asteroids j).y sz g3).bind (fun g4 =>
        initAsteroidAt m (findInactiveAsteroid g4.asteroids)
          (g4.asteroids j).x (g4.asteroids j).y sz g4) = some g') : SameScore g3 g' := by
  obtain ⟨g4, h4, h5⟩ := Option.bind_eq_some.mp h
  exact (initAsteroidAt_sameScore m _ _ _ _ g3 g4 h4).trans
    (initAsteroidAt_sameScore m _ _ _ _ g4 g' h5)

/-- The hit statements write the dust, photon and asteroid pools and the random stream
only. -/
lemma photonHit_sameScore (m : Libm K) (i : Fin MAX_PHOTONS) (j : Fin MAX_ASTEROIDS)
    (g g' : Game K) (h : photonHit m i j g = some g') : SameScore g g' := by
  have h3 : SameScore g
      { activateDust (g.asteroids j).x (g.asteroids j).y g with
        photons := Function.update (activateDust (g.asteroids j).x (g.asteroids j).y g).photons i
          { (activateDust (g.asteroids j).x (g.asteroids j).y g).photons i with active := 0 },
        asteroids := deactivate (activateDust (g.asteroids j).x (g.asteroids j).y g).asteroids j } :=
    activateDust_sameScore (g.asteroids j).x (g.asteroids j).y g
  unfold photonHit at h
  simp only [] at h
  split_ifs at h
  · exact h3.trans (spawn_sameScore m j _ _ g' h)
  · exact h3.trans (spawn_sameScore m j _ _ g' h)
  · simp only [Option.some.injEq] at h
    rw [← h]
    exact h3

lemma photonScan_sameScore (m : Libm K) (i : Fin MAX_PHOTONS) (l : List (Fin MAX_ASTEROIDS))
    (g g' : Game K) (h : photonScan m i l g = some g') : SameScore g g' := by
  induction l with
  | nil =>
    simp only [photonScan, Option.some.injEq] at h
    rw [← h]
    exact SameScore.refl g
  | cons j l ih =>
    rw [photonScan] at h
    split_ifs at h
    · exact photonHit_sameScore m i j g g' h
    · exact ih h
    · exact ih h

lemma photonStep_sameScore (m : Libm K) (g g' : Game K) (i : Fin MAX_PHOTONS)
    (h : photonStep m g i = some g') : SameScore g g' := by
  unfold photonStep at h
  split_ifs at h
  · exact photonScan_sameScore m i _ g g' h
  · simp only [Option.some.injEq] at h
    rw [← h]
    exact SameScore.refl g

lemma photonSteps_sameScore (m : Libm K) (l : List (Fin MAX_PHOTONS)) (g g' : Game K)
    (h : l.foldlM (photonStep m) g = some g') : SameScore g g' := by
  induction l generalizing g with
  | nil =>
    simp only [List.foldlM_nil, Option.pure_def, Option.some.injEq] at h
    rw [← h]
    exact SameScore.refl g
  | cons i l ih =>
    simp only [List.foldlM_cons, Option.bind_eq_bind] at h
    obtain ⟨g1, h1, h2⟩ := Option.bind_eq_some.mp h
    exact (photonStep_sameScore m g g1 i h1).trans (ih g1 h2)

/-- The photon-vs-asteroid phase leaves `lives`, the ship explosion, the level index,
the callbacks and the ship alone. -/
lemma photonPhase_sameScore (m : Libm K) (g g' : Game K) (h : photonPhase m g = some g') :
    SameScore g g' :=
  photonSteps_sameScore m _ g g' h

/-! ## The photon-vs-asteroid phase never runs out of slots -/

/-- Hitting an asteroid that is neither large nor medium only deactivates it. -/
lemma photonHit_no_split (m : Libm K) (i : Fin MAX_PHOTONS) (j : Fin MAX_ASTEROIDS)
    (g : Game K) (hL : (g.asteroids j).size ≠ LARGE_SIZE)
    (hM : (g.asteroids j).size ≠ MEDIUM_SIZE) :
    ∃ g' : Game K, photonHit m i j g = some g' ∧ g'.asteroids = deactivate g.asteroids j := by
  have hsz : (deactivate g.asteroids j j).size = (g.asteroids j).size := by
    simp [deactivate]
  have had := (activateDust_asteroids (g.asteroids j).x (g.asteroids j).y g).1
  unfold photonHit
  simp only [had, hsz]
  rw [if_neg hL, if_neg hM]
  exact ⟨_, rfl, rfl⟩

/-- In a well-sized pool of weight at most 32 the hit statements succeed on every active
asteroid, and leave the pool well sized and no heavier. -/
lemma photonHit_inv (m : Libm K) (i : Fin MAX_PHOTONS) (j : Fin MAX_ASTEROIDS) (g : Game K)
    (hwf : wellSized g.asteroids) (hw : poolWeight g.asteroids ≤ 32)
    (hj : (g.asteroids j).active = 1) :
    ∃ g' : Game K, photonHit m i j g = some g' ∧ wellSized g'.asteroids
      ∧ poolWeight g'.asteroids ≤ poolWeight g.asteroids := by
  have hPw := poolWeight_deactivate g.asteroids j
  have hPwf := wellSized_deactivate g.asteroids j hwf
  have hPj : (deactivate g.asteroids j j).active = 0 := by simp [deactivate]
  obtain ⟨_, hcase⟩ := slotWeight_pos (g.asteroids j)
    (hwf j (by rw [hj]; exact one_ne_zero))
  have split : ∀ sz child : K, (g.asteroids j).size = sz → 2 ≤ slotWeight (g.asteroids j) →
      (((g.asteroids j).size = LARGE_SIZE ∧ child = MEDIUM_SIZE)
        ∨ ((g.asteroids j).size = MEDIUM_SIZE ∧ child = SMALL_SIZE)) →
      (∀ a : Asteroid K, a.active = 1 → a.size = child →
        2 * slotWeight a = slotWeight (g.asteroids j)) →
      ∃ g' : Game K, photonHit m i j g = some g' ∧ wellSized g'.asteroids
        ∧ poolWeight g'.asteroids ≤ poolWeight g.asteroids := by
    intro sz child _ h2w hkind hchild
    obtain ⟨k, hkj, hk⟩ := wellSized_room (deactivate g.asteroids j) j hPwf (by omega)
    obtain ⟨g', hrun, _, hsplit, _⟩ := photonHit_spec m i j g ⟨j, k, hkj.symm, hPj, hk⟩
    obtain ⟨k1, k2, hne, h1, h2, c1, c2, hrest⟩ := hsplit child hkind
    have w1 := hchild _ c1.1 c1.2.1
    have w2 := hchild _ c2.1 c2.2.1
    have hW := poolWeight_two_children (deactivate g.asteroids j) g'.asteroids k1 k2 hne h1 h2
      hrest
    refine ⟨g', hrun, ?_, by omega⟩
    intro t ht
    by_cases ht1 : t = k1
    · rw [ht1]; omega
    · by_cases ht2 : t = k2
      · rw [ht2]; omega
      · rw [hrest t ht1 ht2] at ht ⊢
        exact hPwf t ht
  rcases hcase with ⟨hL, hw4⟩ | ⟨hM, hw2⟩ | ⟨hS, hw1⟩
  · refine split LARGE_SIZE MEDIUM_SIZE hL (by omega) (Or.inl ⟨hL, rfl⟩) fun a ha hs => ?_
    rw [(slotWeight_active a ha).2.1 hs, hw4]
  · refine split MEDIUM_SIZE SMALL_SIZE hM (by omega) (Or.inr ⟨hM, rfl⟩) fun a ha hs => ?_
    rw [(slotWeight_active a ha).2.2 hs, hw2]
  · have hSL : (SMALL_SIZE : K) ≠ LARGE_SIZE := by norm_num [LARGE_SIZE, SMALL_SIZE]
    have hSM : (SMALL_SIZE : K) ≠ MEDIUM_SIZE := by norm_num [MEDIUM_SIZE, SMALL_SIZE]
    obtain ⟨g', hrun, hpool⟩ := photonHit_no_split m i j g (by rw [hS]; exact hSL)
      (by rw [hS]; exact hSM)
    refine ⟨g', hrun, by rw [hpool]; exact hPwf, by rw [hpool]; omega⟩

lemma photonScan_inv (m : Libm K) (i : Fin MAX_PHOTONS) (l : List (Fin MAX_ASTEROIDS))
    (g : Game K) (hwf : wellSized g.asteroids) (hw : poolWeight g.asteroids ≤ 32) :
    ∃ g' : Game K, photonScan m i l g = some g' ∧ wellSized g'.asteroids
      ∧ poolWeight g'.asteroids ≤ poolWeight g.asteroids := by
  induction l with
  | nil => exact ⟨g, rfl, hwf, le_refl _⟩
  | cons j l ih =>
    rw [photonScan]
    split_ifs with hj hc
    · exact photonHit_inv m i j g hwf hw hj
    · exact ih
    · exact ih

lemma photonStep_inv (m : Libm K) (g : Game K) (i : Fin MAX_PHOTONS)
    (hwf : wellSized g.asteroids) (hw : poolWeight g.asteroids ≤ 32) :
    ∃ g' : Game K, photonStep m g i = some g' ∧ wellSized g'.asteroids
      ∧ poolWeight g'.asteroids ≤ poolWeight g.asteroids := by
  unfold photonStep
  split_ifs
  · exact photonScan_inv m i _ g hwf hw
  · exact ⟨g, rfl, hwf, le_refl _⟩

lemma photonSteps_inv (m : Libm K) (l : List (Fin MAX_PHOTONS)) (g : Game K)
    (hwf : wellSized g.asteroids) (hw : poolWeight g.asteroids ≤ 32) :
    ∃ g' : Game K, l.foldlM (photonStep m) g = some g' ∧ wellSized g'.asteroids
      ∧ poolWeight g'.asteroids ≤ poolWeight g.asteroids := by
  induction l generalizing g with
  | nil => exact ⟨g, rfl, hwf, le_refl _⟩
  | cons i l ih =>
    obtain ⟨g1, h1, hwf1, hw1⟩ := photonStep_inv m g i hwf hw
    obtain ⟨g2, h2, hwf2, hw2⟩ := ih g1 hwf1 (by omega)
    refine ⟨g2, ?_, hwf2, by omega⟩
    simp only [List.foldlM_cons, Option.bind_eq_bind, h1, Option.some_bind]
    exact h2

/-- In a well-sized pool of weight at most 32 the whole photon-vs-asteroid phase
succeeds: no `initAsteroid` call is made on `asteroids[-1]`. -/
lemma photonPhase_inv (m : Libm K) (g : Game K)
    (hwf : wellSized g.asteroids) (hw : poolWeight g.asteroids ≤ 32) :
    ∃ g' : Game K, photonPhase m g = some g' ∧ wellSized g'.asteroids
      ∧ poolWeight g'.asteroids ≤ poolWeight g.asteroids :=
  photonSteps_inv m _ g hwf hw

/-! ## The ship-vs-asteroid phase -/

lemma scatterParticle_foldl (x y : K) (l : List (Fin DUST_PARTICLES)) (acc : Dust K × (ℕ → ℕ)) :
    (l.foldl (scatterParticle x y) acc).1.active = acc.1.active
    ∧ (l.foldl (scatterParticle x y) acc).1.dustTimer = acc.1.dustTimer
    ∧ (l.foldl (scatterParticle x y) acc).1.drawThisFrame = acc.1.drawThisFrame := by
  induction l generalizing acc with
  | nil => exact ⟨rfl, rfl, rfl⟩
  | cons j l ih =>
    rw [List.foldl_cons]
    exact ih (scatterParticle x y acc j)

/-- A burst that has just been switched on is active with a timer of 0. -/
lemma activateBurst_spec (x y : K) (d : Dust K) (s : ℕ → ℕ) :
    (activateBurst x y d s).1.active = 1 ∧ (activateBurst x y d s).1.dustTimer = 0
    ∧ (activateBurst x y d s).1.drawThisFrame = 1 := by
  obtain ⟨h1, _, h3⟩ := scatterParticle_foldl x y (List.finRange DUST_PARTICLES)
    ({ d with active := 1, drawThisFrame := 1 }, s)
  exact ⟨h1, rfl, h3⟩

/-- With the explosion already switched on the scan changes nothing. -/
lemma shipScan_exploding (l : List (Fin SHIP_VERTICES × Fin MAX_ASTEROIDS)) (g : Game K)
    (h : g.shipExplosion.active ≠ 0) : shipScan l g = g := by
  induction l with
  | nil => rfl
  | cons p l ih =>
    obtain ⟨j, i⟩ := p
    rw [shipScan, if_neg (fun hc => h hc.2)]
    exact ih

/-- With no pair of hull vertex and active asteroid reported as a hit the scan changes
nothing. -/
lemma shipScan_no_hit (l : List (Fin SHIP_VERTICES × Fin MAX_ASTEROIDS)) (g : Game K)
    (h : ∀ p ∈ l, ¬ ((g.asteroids p.2).active = 1
      ∧ ShipCollision g.ship (g.ship.coords p.1) (g.asteroids p.2) ≠ 0)) :
    shipScan l g = g := by
  induction l with
  | nil => rfl
  | cons p l ih =>
    obtain ⟨j, i⟩ := p
    have hp := h (j, i) (List.mem_cons_self _ _)
    have ih' := ih fun q hq => h q (List.mem_cons_of_mem _ hq)
    rw [shipScan]
    by_cases h1 : (g.asteroids i).active = 1 ∧ g.shipExplosion.active = 0
    · rw [if_pos h1, if_neg (fun hc => hp ⟨h1.1, hc⟩)]
      exact ih'
    · rw [if_neg h1]
      exact ih'

/-- With the explosion off and some pair reported as a hit, the scan switches the
explosion on and takes one life, once. -/
lemma shipScan_hit (l : List (Fin SHIP_VERTICES × Fin MAX_ASTEROIDS)) (g : Game K)
    (h0 : g.shipExplosion.active = 0)
    (h : ∃ p ∈ l, (g.asteroids p.2).active = 1
      ∧ ShipCollision g.ship (g.ship.coords p.1) (g.asteroids p.2) ≠ 0) :
    shipScan l g = { activateExplosion 0 0 g with lives := g.lives - 1 } := by
  induction l with
  | nil =>
    obtain ⟨p, hp, _⟩ := h
    exact absurd hp (List.not_mem_nil p)
  | cons q l ih =>
    obtain ⟨j, i⟩ := q
    rw [shipScan]
    by_cases h1 : (g.asteroids i).active = 1 ∧ g.shipExplosion.active = 0
    · rw [if_pos h1]
      by_cases h2 : ShipCollision g.ship (g.ship.coords j) (g.asteroids i) ≠ 0
      · rw [if_pos h2]
      · rw [if_neg h2]
        apply ih
        obtain ⟨p, hp, hp1, hp2⟩ := h
        rcases List.mem_cons.mp hp with rfl | hp'
        · exact absurd hp2 h2
        · exact ⟨p, hp', hp1, hp2⟩
    · rw [if_neg h1]
      apply ih
      obtain ⟨p, hp, hp1, hp2⟩ := h
      rcases List.mem_cons.mp hp with rfl | hp'
      · exact absurd ⟨hp1, h0⟩ h1
      · exact ⟨p, hp', hp1, hp2⟩

/-- Every pair of hull vertex and asteroid slot is visited by the two loops. -/
lemma mem_shipPairs (j : Fin SHIP_VERTICES) (i : Fin MAX_ASTEROIDS) :
    (j, i) ∈ (List.finRange SHIP_VERTICES).flatMap fun j =>
      (List.finRange MAX_ASTEROIDS).map fun i => (j, i) := by
  rw [List.mem_flatMap]
  exact ⟨j, List.mem_finRange j, List.mem_map.mpr ⟨i, List.mem_finRange i, rfl⟩⟩

/-- The ship-vs-asteroid phase either changes nothing, or finds the explosion off,
switches it on with a timer of 0 and takes exactly one life; the asteroids, level index
and timer callback are untouched. -/
lemma shipCollisionPhase_cases (g : Game K) :
    (shipCollisionPhase g = g
      ∨ (g.shipExplosion.active = 0
        ∧ (shipCollisionPhase g).lives = g.lives - 1
        ∧ (shipCollisionPhase g).shipExplosion.active = 1
        ∧ (shipCollisionPhase g).shipExplosion.dustTimer = 0))
    ∧ (shipCollisionPhase g).asteroids = g.asteroids
    ∧ (shipCollisionPhase g).gameState = g.gameState
    ∧ (shipCollisionPhase g).timerFunc = g.timerFunc := by
  by_cases h0 : g.shipExplosion.active = 0
  · by_cases h : ∃ p ∈ ((List.finRange SHIP_VERTICES).flatMap fun j =>
        (List.finRange MAX_ASTEROIDS).map fun i => (j, i)),
        (g.asteroids p.2).active = 1
        ∧ ShipCollision g.ship (g.ship.coords p.1) (g.asteroids p.2) ≠ 0
    · have e := shipScan_hit _ g h0 h
      unfold shipCollisionPhase
      rw [e]
      obtain ⟨a1, a2, _⟩ := activateBurst_spec (0 : K) 0 g.shipExplosion g.randSeq
      exact ⟨Or.inr ⟨h0, rfl, a1, a2⟩, rfl, rfl, rfl⟩
    · have e := shipScan_no_hit _ g fun p hp hc => h ⟨p, hp, hc⟩
      unfold shipCollisionPhase
      rw [e]
      exact ⟨Or.inl rfl, rfl, rfl, rfl⟩
  · have e := shipScan_exploding ((List.finRange SHIP_VERTICES).flatMap fun j =>
      (List.finRange MAX_ASTEROIDS).map fun i => (j, i)) g h0
    unfold shipCollisionPhase
    rw [e]
    exact ⟨Or.inl rfl, rfl, rfl, rfl⟩

/-! ## The phases of a tick before and after the collisions -/

/-- The first block of `gameMyTimer` writes the ship and the explosion timer only. -/
lemma shipPhase_frame (m : Libm K) (g : Game K) :
    (shipPhase m g).lives = g.lives ∧ (shipPhase m g).gameState = g.gameState
    ∧ (shipPhase m g).timerFunc = g.timerFunc ∧ (shipPhase m g).asteroids = g.asteroids
    ∧ (shipPhase m g).shipExplosion.active = g.shipExplosion.active
    ∧ (shipPhase m g).xMax = g.xMax ∧ (shipPhase m g).yMax = g.yMax := by
  unfold shipPhase
  by_cases h : g.shipExplosion.active = 1
  · rw [if_pos h]
    exact ⟨rfl, rfl, rfl, rfl, rfl, rfl, rfl⟩
  · rw [if_neg h]
    exact ⟨rfl, rfl, rfl, rfl, rfl, rfl, rfl⟩

/-- Advancing an asteroid changes neither its active flag nor its size. -/
lemma advanceAsteroid_weight (xMax yMax : K) (a : Asteroid K) :
    (advanceAsteroid xMax yMax a).active = a.active
    ∧ slotWeight (advanceAsteroid xMax yMax a) = slotWeight a := by
  unfold advanceAsteroid
  simp only []
  split_ifs <;> exact ⟨rfl, rfl⟩

/-- When a tick reaches the collision tests, `lives`, the level index and the timer
callback are as at its start, the explosion is on iff it was, and every asteroid slot
has the active flag and weight it had. -/
lemma beforeCollisions_frame (m : Libm K) (g : Game K) :
    (beforeCollisions m g).lives = g.lives ∧ (beforeCollisions m g).gameState = g.gameState
    ∧ (beforeCollisions m g).timerFunc = g.timerFunc
    ∧ (beforeCollisions m g).shipExplosion.active = g.shipExplosion.active
    ∧ (∀ i, ((beforeCollisions m g).asteroids i).active = (g.asteroids i).active)
    ∧ (∀ i, slotWeight ((beforeCollisions m g).asteroids i) = slotWeight (g.asteroids i)) := by
  obtain ⟨h1, h2, h3, h4, h5, _, _⟩ := shipPhase_frame m g
  have hpool : ∀ i, (beforeCollisions m g).asteroids i
      = advanceAsteroid (shipPhase m g).xMax (shipPhase m g).yMax (g.asteroids i) := by
    intro i
    unfold beforeCollisions advanceAsteroids
    simp only [forSlots_apply, h4]
  refine ⟨h1, h2, h3, h5, fun i => ?_, fun i => ?_⟩
  · rw [hpool i]; exact (advanceAsteroid_weight _ _ _).1
  · rw [hpool i]; exact (advanceAsteroid_weight _ _ _).2

lemma gameMyTimerBody_eq (m : Libm K) (g : Game K) :
    gameMyTimerBody m g = (photonPhase m (beforeCollisions m g)).map shipCollisionPhase := rfl

/-- The end of a tick writes the explosion, the level index and the callbacks only. -/
lemma gameMyTimerEnd_frame (g : Game K) :
    (gameMyTimerEnd g).lives = g.lives ∧ (gameMyTimerEnd g).asteroids = g.asteroids := by
  unfold gameMyTimerEnd
  simp only []
  split_ifs <;> exact ⟨rfl, rfl⟩

/-- One `gameMyTimer` tick, taken apart: the photon phase on the advanced state, the
ship phase on its result, then the end of the tick. -/
lemma gameMyTimer_some (m : Libm K) (g g' : Game K) (h : gameMyTimer m g = some g') :
    ∃ g5 : Game K, photonPhase m (beforeCollisions m g) = some g5
      ∧ g' = gameMyTimerEnd (shipCollisionPhase g5) := by
  unfold gameMyTimer at h
  rw [gameMyTimerBody_eq] at h
  cases hp : photonPhase m (beforeCollisions m g) with
  | none => rw [hp] at h; simp at h
  | some g5 =>
    rw [hp] at h
    simp only [Option.map_some', Option.some.injEq] at h
    exact ⟨g5, rfl, h.symm⟩

/-- One tick of `gameMyTimer` keeps `lives` or takes exactly one life. -/
lemma gameMyTimer_lives (m : Libm K) (g g' : Game K) (h : gameMyTimer m g = some g') :
    g'.lives = g.lives ∨ g'.lives = g.lives - 1 := by
  obtain ⟨g5, hp, rfl⟩ := gameMyTimer_some m g g' h
  obtain ⟨hl5, _⟩ := photonPhase_sameScore m _ g5 hp
  obtain ⟨hl0, _⟩ := beforeCollisions_frame m g
  rw [(gameMyTimerEnd_frame _).1]
  rcases (shipCollisionPhase_cases g5).1 with e | ⟨_, hl, _⟩
  · left; rw [e, hl5, hl0]
  · right; rw [hl, hl5, hl0]

/-! ## What every callback preserves -/

/-- A callback that writes none of `lives`, the explosion, the level index, the timer
callback and the asteroid pool preserves the invariant. -/
lemma Inv.of_frame {g g' : Game K} (hi : Inv g) (hl : g'.lives = g.lives)
    (he : g'.shipExplosion = g.shipExplosion) (hs : g'.gameState = g.gameState)
    (ht : g'.timerFunc = g.timerFunc) (ha : g'.asteroids = g.asteroids) : Inv g' := by
  constructor
  · rw [hl]; exact hi.lives_nonneg
  · rw [hl]; exact hi.lives_le
  · rw [hl, he, ht]; exact hi.exploding
  · rw [hs]; exact hi.level_nonneg
  · rw [hs, ht, ha]; exact hi.playing

/-- On the menu and on the game-over screen the invariant is the bounds on `lives` and
on the level index. -/
lemma Inv.of_idle {g : Game K} (h0 : 0 ≤ g.lives) (h3 : g.lives ≤ 3) (hs : 0 ≤ g.gameState)
    (ht : g.timerFunc = TimerFunc.menuMyTimer ∨ g.timerFunc = TimerFunc.gameOverMyTimer) :
    Inv g := by
  refine ⟨h0, h3, ?_, hs, ?_⟩
  · intro h
    rcases ht with ht | ht <;> rcases h with h | h <;> rw [ht] at h <;> cases h
  · intro h
    rcases ht with ht | ht <;> rw [ht] at h <;> cases h

/-- On the level screen the invariant is the bounds and the explosion running when no
life is left. -/
lemma Inv.of_level {g : Game K} (h0 : 0 ≤ g.lives) (h3 : g.lives ≤ 3) (hs : 0 ≤ g.gameState)
    (ht : g.timerFunc = TimerFunc.levelMyTimer)
    (hx : g.lives = 0 → g.shipExplosion.active = 1) : Inv g := by
  refine ⟨h0, h3, fun _ => hx, hs, ?_⟩
  intro h
  rw [ht] at h
  cases h

/-- The end of a `gameMyTimer` tick establishes the invariant for the next callback. -/
lemma gameMyTimerEnd_inv (g : Game K) (h0 : 0 ≤ g.lives) (h3 : g.lives ≤ 3)
    (hx : g.lives = 0 → g.shipExplosion.active = 1) (hs : 0 ≤ g.gameState)
    (hp : g.gameState ≤ 8 ∧ wellSized g.asteroids
      ∧ (poolWeight g.asteroids : Int) ≤ 4 * g.gameState) :
    Inv (gameMyTimerEnd g) := by
  unfold gameMyTimerEnd
  simp only []
  split_ifs with c1 c2 c3
  · exact Inv.of_idle h0 h3 hs (Or.inr rfl)
  · exact Inv.of_level h0 h3 hs rfl fun hl => absurd hl c2
  · exact ⟨h0, h3, fun _ => hx, hs, fun _ => hp⟩
  · exact Inv.of_level h0 h3 (show 0 ≤ g.gameState + 1 by omega) rfl hx

/-- A `gameMyTimer` tick in a state that satisfies the invariant writes inside the
pools and re-establishes the invariant. -/
lemma gameMyTimer_inv (m : Libm K) (g : Game K) (ht : g.timerFunc = TimerFunc.gameMyTimer)
    (hi : Inv g) : ∃ g' : Game K, gameMyTimer m g = some g' ∧ Inv g' := by
  obtain ⟨h8, hwf, hw⟩ := hi.playing ht
  obtain ⟨fl, fs, ft, fe, fa, fw⟩ := beforeCollisions_frame m g
  have hwf0 : wellSized (beforeCollisions m g).asteroids := fun i hact => by
    rw [fw i]; exact hwf i (by rwa [fa i] at hact)
  have hw0 : poolWeight (beforeCollisions m g).asteroids = poolWeight g.asteroids :=
    Finset.sum_congr rfl fun i _ => fw i
  have hw32 : poolWeight (beforeCollisions m g).asteroids ≤ 32 := by rw [hw0]; omega
  obtain ⟨g5, hp, hwf5, hw5⟩ := photonPhase_inv m _ hwf0 hw32
  obtain ⟨sl, se, ss, st, _, _⟩ := photonPhase_sameScore m _ g5 hp
  obtain ⟨hc, ba, bs, bt⟩ := shipCollisionPhase_cases g5
  have e : gameMyTimer m g = some (gameMyTimerEnd (shipCollisionPhase g5)) := by
    unfold gameMyTimer
    rw [gameMyTimerBody_eq, hp]
    rfl
  have hl5 : g5.lives = g.lives := by rw [sl, fl]
  have he5 : g5.shipExplosion.active = g.shipExplosion.active := by rw [se, fe]
  have hs5 : g5.gameState = g.gameState := by rw [ss, fs]
  have hn := hi.lives_nonneg
  have h3 := hi.lives_le
  have hx := hi.exploding (Or.inl ht)
  refine ⟨_, e, gameMyTimerEnd_inv _ ?_ ?_ ?_ ?_ ⟨?_, ?_, ?_⟩⟩
  · rcases hc with c | ⟨c0, cl, _, _⟩
    · rw [c, hl5]; exact hn
    · rw [cl, hl5]
      have : g.lives ≠ 0 := fun hz => by
        have := hx hz
        rw [← he5, c0] at this
        exact absurd this (by decide)
      omega
  · rcases hc with c | ⟨c0, cl, _, _⟩
    · rw [c, hl5]; exact h3
    · rw [cl, hl5]; omega
  · rcases hc with c | ⟨c0, cl, ca, _⟩
    · rw [c, hl5, he5]; exact hx
    · exact fun _ => ca
  · rw [bs, hs5]; exact hi.level_nonneg
  · rw [bs, hs5]; exact h8
  · rw [ba]; exact hwf5
  · rw [ba, bs, hs5]; omega

/-- A pool whose first `n` slots hold active large asteroids, the others being off,
weighs `4 * n`. -/
lemma poolWeight_seeded (pool : Fin MAX_ASTEROIDS → Asteroid K) (n : ℕ) (hn : n ≤ 8)
    (hact : ∀ i : Fin MAX_ASTEROIDS, i.val < n → (pool i).active = 1 ∧ (pool i).size = LARGE_SIZE)
    (hrest : ∀ i : Fin MAX_ASTEROIDS, n ≤ i.val → (pool i).active = 0) :
    wellSized pool ∧ poolWeight pool = 4 * n := by
  have hsw : ∀ i : Fin MAX_ASTEROIDS, slotWeight (pool i) = if i.val < n then 4 else 0 := by
    intro i
    by_cases h : i.val < n
    · rw [if_pos h]
      exact (slotWeight_active _ (hact i h).1).1 (hact i h).2
    · rw [if_neg h]
      exact slotWeight_inactive _ (hrest i (by omega))
  constructor
  · intro i hne
    rw [hsw i]
    by_cases h : i.val < n
    · rw [if_pos h]; omega
    · exact absurd (hrest i (by omega)) hne
  · unfold poolWeight
    simp_rw [hsw]
    rw [Finset.sum_ite, Finset.sum_const, Finset.sum_const_zero, card_slots_below n hn]
    simp only [smul_eq_mul, add_zero]
    omega

/-- The function `gameInit` on a cleared pool, for a level index from 0 to 8: it
succeeds, writes the ship, the photons and the pool, and leaves a pool of weight
`4 * gameState`. -/
lemma gameInit_spec (m : Libm K) (g : Game K) (h0 : 0 ≤ g.gameState) (h8 : g.gameState ≤ 8)
    (hclear : ∀ i, (g.asteroids i).active = 0) :
    ∃ g' : Game K, gameInit m g = some g' ∧ g'.lives = g.lives
      ∧ g'.shipExplosion = g.shipExplosion ∧ g'.gameState = g.gameState
      ∧ g'.timerFunc = g.timerFunc ∧ wellSized g'.asteroids
      ∧ (poolWeight g'.asteroids : Int) = 4 * g.gameState := by
  have hn : g.gameState.toNat ≤ MAX_ASTEROIDS := by simp only [MAX_ASTEROIDS]; omega
  obtain ⟨pool, s, hf, hact, hrest⟩ := seedAsteroid_foldlM m
    { g with
      ship :=
        { engine := 0, x := 83, y := 50, phi := 0, dx := 0, dy := 0,
          coords := fun k =>
            if k.val = 0 then ⟨m.cos (m.pi / 180 * 90), m.sin (m.pi / 180 * 90) * (7 / 2)⟩
            else if k.val = 1 then
              ⟨m.cos (m.pi / 180 * 225) * 2, m.sin (m.pi / 180 * 225) * (7 / 2)⟩
            else ⟨m.cos (m.pi / 180 * 315) * 2, m.sin (m.pi / 180 * 315) * (7 / 2)⟩ },
      photons := forSlots (fun p : Photon K => { p with dx := 2, dy := 2 }) g.photons }
    g.gameState.toNat hn
  obtain ⟨hwf, hw⟩ := poolWeight_seeded pool g.gameState.toNat (by omega) hact
    fun i hi => by rw [hrest i hi]; exact hclear i
  refine ⟨_, hf, rfl, rfl, rfl, rfl, hwf, ?_⟩
  show (poolWeight pool : Int) = 4 * g.gameState
  rw [hw]
  omega

/-- Any invocation of `levelMyTimer` in a state that satisfies the invariant succeeds and
re-establishes it. -/
lemma levelMyTimer_inv (m : Libm K) (g : Game K) (ht : g.timerFunc = TimerFunc.levelMyTimer)
    (hi : Inv g) : ∃ g' : Game K, levelMyTimer m g = some g' ∧ Inv g' := by
  have hx := hi.exploding (Or.inr ht)
  unfold levelMyTimer
  by_cases hb : g.betweenLevelTimer < TIME_WAIT
  · rw [if_pos hb]
    exact ⟨_, rfl, Inv.of_level hi.lives_nonneg hi.lives_le hi.level_nonneg rfl hx⟩
  · rw [if_neg hb]
    simp only []
    by_cases hs : g.gameState > 8
    · rw [if_pos hs]
      exact ⟨_, rfl, Inv.of_idle hi.lives_nonneg hi.lives_le hi.level_nonneg (Or.inr rfl)⟩
    · rw [if_neg hs]
      obtain ⟨g', hg, hl, he, hst, htf, hwf, hw⟩ := gameInit_spec m
        { g with betweenLevelTimer := 0,
                 asteroids := forSlots (fun a : Asteroid K => { a with active := 0 }) g.asteroids,
                 timerFunc := TimerFunc.gameMyTimer,
                 displayFunc := DisplayFunc.myGameDisplay }
        hi.level_nonneg (by show g.gameState ≤ 8; omega)
        (fun i => by simp only [forSlots_apply])
      refine ⟨g', hg, ?_, ?_, ?_, ?_, ?_⟩
      · rw [hl]; exact hi.lives_nonneg
      · rw [hl]; exact hi.lives_le
      · rw [hl, he]; exact fun _ => hx
      · rw [hst]; exact hi.level_nonneg
      · intro _
        rw [hst, hw]
        exact ⟨by show g.gameState ≤ 8; omega, hwf, le_refl _⟩

/-- Any invocation of `menuMyTimer` re-establishes the invariant: it leaves for
`levelMyTimer` with `lives = 3`. -/
lemma menuMyTimer_inv (g : Game K) (hi : Inv g) : Inv (menuMyTimer g) := by
  have key : ∀ g2 : Game K, g2.lives = g.lives → g2.gameState = g.gameState →
      Inv (if g2.gameState = 0 then { g2 with timerFunc := TimerFunc.menuMyTimer }
        else { g2 with lives := 3, displayFunc := DisplayFunc.myLevelDisplay,
                       timerFunc := TimerFunc.levelMyTimer }) := by
    intro g2 hl hs
    have h0 := hi.lives_nonneg
    have h3 := hi.lives_le
    have hn := hi.level_nonneg
    rw [← hl] at h0 h3
    rw [← hs] at hn
    split_ifs with c
    · exact Inv.of_idle h0 h3 hn (Or.inl rfl)
    · exact Inv.of_level (show (0 : Int) ≤ 3 by omega) (le_refl _) hn rfl
        fun hz => absurd (show (3 : Int) = 0 from hz) (by omega)
  exact key _ rfl rfl

/-- Any invocation of `gameOverMyTimer` succeeds and re-establishes the invariant. -/
lemma gameOverMyTimer_inv (m : Libm K) (g : Game K) (hi : Inv g) :
    ∃ g' : Game K, gameOverMyTimer m g = some g' ∧ Inv g' := by
  unfold gameOverMyTimer
  by_cases hb : g.betweenLevelTimer < TIME_WAIT
  · rw [if_pos hb]
    exact ⟨_, rfl, Inv.of_idle hi.lives_nonneg hi.lives_le hi.level_nonneg (Or.inr rfl)⟩
  · rw [if_neg hb]
    simp only []
    obtain ⟨pool, stars, s, hm, _, _⟩ := menuInit_spec m
      { g with betweenLevelTimer := 0,
               asteroids := forSlots (fun a : Asteroid K => { a with active := 0 }) g.asteroids }
    rw [hm]
    exact ⟨_, rfl, Inv.of_idle hi.lives_nonneg hi.lives_le (le_refl _) (Or.inl rfl)⟩

/-- The timer callback that is registered succeeds and re-establishes the invariant. -/
lemma timerCallback_inv (m : Libm K) (g : Game K) (hi : Inv g) :
    ∃ g' : Game K, timerCallback m g = some g' ∧ Inv g' := by
  unfold timerCallback
  cases ht : g.timerFunc with
  | menuMyTimer => exact ⟨_, rfl, menuMyTimer_inv g hi⟩
  | levelMyTimer => exact levelMyTimer_inv m g ht hi
  | gameMyTimer => exact gameMyTimer_inv m g ht hi
  | gameOverMyTimer => exact gameOverMyTimer_inv m g hi

lemma firePhoton_frame (m : Libm K) (l : List (Fin MAX_PHOTONS)) (g : Game K) :
    (firePhoton m l g).lives = g.lives ∧ (firePhoton m l g).shipExplosion = g.shipExplosion
    ∧ (firePhoton m l g).gameState = g.gameState ∧ (firePhoton m l g).timerFunc = g.timerFunc
    ∧ (firePhoton m l g).asteroids = g.asteroids := by
  induction l with
  | nil => exact ⟨rfl, rfl, rfl, rfl, rfl⟩
  | cons i l ih =>
    rw [firePhoton]
    split_ifs
    · exact ⟨rfl, rfl, rfl, rfl, rfl⟩
    · exact ih

/-- Every event is handled without a write outside a pool, and the invariant holds
again afterwards. -/
lemma handle_inv (m : Libm K) (GLUT_DOWN : Int) (g : Game K) (ev : Event) (hi : Inv g) :
    ∃ g' : Game K, handle m GLUT_DOWN g ev = some g' ∧ Inv g' := by
  cases ev with
  | timer => exact timerCallback_inv m g hi
  | display =>
    refine ⟨_, rfl, ?_⟩
    unfold displayCallback
    cases g.displayFunc
    · exact hi
    · exact hi
    · exact hi.of_frame rfl rfl rfl rfl rfl
    · exact hi
  | keyboard key =>
    refine ⟨_, rfl, ?_⟩
    unfold myKey
    split_ifs
    · obtain ⟨h1, h2, h3, h4, h5⟩ := firePhoton_frame m (List.finRange MAX_PHOTONS) g
      exact hi.of_frame h1 h2 h3 h4 h5
    · exact hi
  | special key =>
    refine ⟨_, rfl, ?_⟩
    unfold keyPress
    split_ifs <;> first | exact hi | exact hi.of_frame rfl rfl rfl rfl rfl
  | specialUp key =>
    refine ⟨_, rfl, ?_⟩
    unfold keyRelease
    split_ifs <;> first | exact hi | exact hi.of_frame rfl rfl rfl rfl rfl
  | mouse button state x y =>
    refine ⟨_, rfl, ?_⟩
    unfold mouseClick
    split_ifs with c1 c2 c3
    · refine ⟨hi.lives_nonneg, hi.lives_le, hi.exploding, by show (0 : Int) ≤ 1; omega, ?_⟩
      intro ht
      obtain ⟨_, hwf, hw⟩ := hi.playing ht
      exact ⟨show (1 : Int) ≤ 8 by omega, hwf,
        show (poolWeight g.asteroids : Int) ≤ 4 * 1 by omega⟩
    · exact hi
    · exact hi
    · exact hi
  | reshape w h => exact ⟨_, rfl, hi.of_frame rfl rfl rfl rfl rfl⟩

/-- The invariant holds of the globals when `main` enters the main loop. -/
lemma menuInit_start (m : Libm K) (s : ℕ → ℕ) :
    ∃ g : Game K, menuInit m (startGame s) = some g ∧ Inv g := by
  obtain ⟨pool, stars, s2, hm, _, _⟩ := menuInit_spec m (startGame s : Game K)
  exact ⟨_, hm, Inv.of_idle (show (0 : Int) ≤ 3 by omega) (le_refl _) (le_refl _) (Or.inl rfl)⟩

/-- Events handled one after the other from a state that satisfies the invariant. -/
lemma foldlM_handle_inv (m : Libm K) (GLUT_DOWN : Int) (events : List Event) (g : Game K)
    (hi : Inv g) : ∃ g' : Game K, events.foldlM (handle m GLUT_DOWN) g = some g' ∧ Inv g' := by
  induction events generalizing g with
  | nil => exact ⟨g, rfl, hi⟩
  | cons ev rest ih =>
    obtain ⟨g1, h1, hi1⟩ := handle_inv m GLUT_DOWN g ev hi
    obtain ⟨g2, h2, hi2⟩ := ih g1 hi1
    refine ⟨g2, ?_, hi2⟩
    rw [List.foldlM_cons, h1]
    exact h2

/-- Every run of the program reaches a state, and that state satisfies the invariant. -/
lemma program_inv (m : Libm K) (GLUT_DOWN : Int) (s : ℕ → ℕ) (events : List Event) :
    ∃ g : Game K, program m GLUT_DOWN s events = some g ∧ Inv g := by
  obtain ⟨g0, h0, hi0⟩ := menuInit_start m s
  obtain ⟨g, hg, hi⟩ := foldlM_handle_inv m GLUT_DOWN events g0 hi0
  refine ⟨g, ?_, hi⟩
  unfold program
  rw [h0]
  exact hg

/-! ## A run that reaches level 1 -/

/-- Timer events on the level screen while the timer stays at or below `TIME_WAIT`. -/
lemma level_wait_events (m : Libm K) (GLUT_DOWN : Int) (n : ℕ) (g : Game K)
    (ht : g.timerFunc = TimerFunc.levelMyTimer) (hb : g.betweenLevelTimer + n ≤ 50) :
    ∃ g' : Game K, (List.replicate n Event.timer).foldlM (handle m GLUT_DOWN) g = some g'
      ∧ g'.timerFunc = TimerFunc.levelMyTimer
      ∧ g'.betweenLevelTimer = g.betweenLevelTimer + n ∧ g'.gameState = g.gameState := by
  induction n generalizing g with
  | zero => exact ⟨g, rfl, ht, by simp, rfl⟩
  | succ n ih =>
    have h1 : handle m GLUT_DOWN g Event.timer
        = some { g with betweenLevelTimer := g.betweenLevelTimer + 1,
                        timerFunc := TimerFunc.levelMyTimer } := by
      show timerCallback m g = _
      unfold timerCallback
      rw [ht]
      exact levelMyTimer_wait m g (by push_cast at hb; omega)
    obtain ⟨g', hg, ht', hb', hs'⟩ := ih
      { g with betweenLevelTimer := g.betweenLevelTimer + 1,
               timerFunc := TimerFunc.levelMyTimer } rfl
      (by show g.betweenLevelTimer + 1 + (n : Int) ≤ 50; push_cast at hb; omega)
    refine ⟨g', ?_, ht', ?_, hs'⟩
    · rw [List.replicate_succ, List.foldlM_cons, h1]
      exact hg
    · rw [hb']
      show g.betweenLevelTimer + 1 + (n : Int) = g.betweenLevelTimer + ((n + 1 : ℕ) : Int)
      push_cast
      omega

lemma handle_timer_menu (m : Libm K) (GLUT_DOWN : Int) (g : Game K)
    (ht : g.timerFunc = TimerFunc.menuMyTimer) :
    handle m GLUT_DOWN g Event.timer = some (menuMyTimer g) := by
  show timerCallback m g = _
  unfold timerCallback
  rw [ht]

lemma handle_timer_level (m : Libm K) (GLUT_DOWN : Int) (g : Game K)
    (ht : g.timerFunc = TimerFunc.levelMyTimer) :
    handle m GLUT_DOWN g Event.timer = levelMyTimer m g := by
  show timerCallback m g = _
  unfold timerCallback
  rw [ht]

/-- On the menu a click at pixel `(660, 306)` sets the level index to 1. -/
lemma mouseClick_in_box (GLUT_DOWN button : Int) (g : Game K) (h0 : g.gameState = 0)
    (hb : g.startbox = startBox) :
    mouseClick GLUT_DOWN button GLUT_DOWN 660 306 g = { g with gameState := 1 } := by
  have hbox : withinBox (((660 : Int) : K)) (((306 : Int) : K)) g.startbox ≠ 0 := by
    rw [hb, withinBox_startBox]
    norm_num
  unfold mouseClick
  rw [if_pos rfl, if_pos h0, if_pos hbox]

/-- With a level index other than 0, `menuMyTimer` hands over to `levelMyTimer`. -/
lemma menuMyTimer_leaves (g : Game K) (h : g.gameState ≠ 0) :
    (menuMyTimer g).timerFunc = TimerFunc.levelMyTimer
    ∧ (menuMyTimer g).gameState = g.gameState
    ∧ (menuMyTimer g).betweenLevelTimer = g.betweenLevelTimer := by
  have key : ∀ g2 : Game K, g2.gameState = g.gameState →
      g2.betweenLevelTimer = g.betweenLevelTimer →
      (if g2.gameState = 0 then { g2 with timerFunc := TimerFunc.menuMyTimer }
        else { g2 with lives := 3, displayFunc := DisplayFunc.myLevelDisplay,
                       timerFunc := TimerFunc.levelMyTimer }).timerFunc
          = TimerFunc.levelMyTimer
      ∧ (if g2.gameState = 0 then { g2 with timerFunc := TimerFunc.menuMyTimer }
        else { g2 with lives := 3, displayFunc := DisplayFunc.myLevelDisplay,
                       timerFunc := TimerFunc.levelMyTimer }).gameState = g.gameState
      ∧ (if g2.gameState = 0 then { g2 with timerFunc := TimerFunc.menuMyTimer }
        else { g2 with lives := 3, displayFunc := DisplayFunc.myLevelDisplay,
                       timerFunc := TimerFunc.levelMyTimer }).betweenLevelTimer
          = g.betweenLevelTimer := by
    intro g2 hs hb
    rw [if_neg (by rw [hs]; exact h)]
    exact ⟨rfl, hs, hb⟩
  exact key _ rfl rfl

/-- When `main` enters the main loop the menu is showing, with `lives = 3`, level index
0 and the level timer at 0. -/
lemma menuInit_startGame (m : Libm K) (s : ℕ → ℕ) :
    ∃ g : Game K, menuInit m (startGame s) = some g ∧ g.gameState = 0
      ∧ g.startbox = startBox ∧ g.timerFunc = TimerFunc.menuMyTimer
      ∧ g.betweenLevelTimer = 0 ∧ g.lives = 3 ∧ g.shipExplosion.active = 0 := by
  obtain ⟨pool, stars, s2, hm, _, _⟩ := menuInit_spec m (startGame s : Game K)
  exact ⟨_, hm, rfl, rfl, rfl, rfl, rfl, rfl⟩

/-- The run `playEvents` ends in the first tick of level 1, with a large asteroid in
slot 0. -/
lemma program_playEvents_pool (m : Libm K) (GLUT_DOWN : Int) (s : ℕ → ℕ) :
    ∃ g : Game K, program m GLUT_DOWN s (playEvents GLUT_DOWN) = some g
      ∧ g.timerFunc = TimerFunc.gameMyTimer ∧ g.gameState = 1
      ∧ (g.asteroids 0).active = 1 ∧ (g.asteroids 0).size = LARGE_SIZE := by
  obtain ⟨g0, hm, hs0, hb0, ht0, hl0, _, _⟩ := @menuInit_startGame K _ m s
  have e1 : handle m GLUT_DOWN g0 (Event.mouse 0 GLUT_DOWN 660 306)
      = some { g0 with gameState := 1 } :=
    congrArg some (mouseClick_in_box GLUT_DOWN 0 g0 hs0 hb0)
  have e2 := handle_timer_menu m GLUT_DOWN { g0 with gameState := 1 } ht0
  obtain ⟨ht2, hs2, hl2⟩ := menuMyTimer_leaves { g0 with gameState := 1 }
    (show (1 : Int) ≠ 0 by omega)
  obtain ⟨g3, hg3, ht3, hb3, hs3⟩ := level_wait_events m GLUT_DOWN 50
    (menuMyTimer { g0 with gameState := 1 }) ht2
    (by rw [hl2]; show g0.betweenLevelTimer + (50 : ℕ) ≤ 50; rw [hl0]; norm_num)
  have hb3' : g3.betweenLevelTimer = 50 := by
    rw [hb3, hl2]
    show g0.betweenLevelTimer + (50 : ℕ) = 50
    rw [hl0]
    norm_num
  have hs3' : g3.gameState = 1 := by rw [hs3, hs2]
  obtain ⟨_, g4, _, _, _, hg4, ht4, _, _, hs4, _, hseed, _⟩ :=
    levelMyTimer_start m g3 hb3' (by rw [hs3']; norm_num)
  have e4 : handle m GLUT_DOWN g3 Event.timer = some g4 := by
    rw [handle_timer_level m GLUT_DOWN g3 ht3]
    exact hg4
  have hzero := hseed 0 (by rw [hs3']; decide)
  refine ⟨g4, ?_, ht4, by rw [hs4, hs3'], hzero.1, hzero.2⟩
  unfold program playEvents
  rw [hm, Option.some_bind, List.foldlM_cons, e1]
  show List.foldlM (handle m GLUT_DOWN) { g0 with gameState := 1 } _ = _
  rw [List.foldlM_cons, e2]
  show List.foldlM (handle m GLUT_DOWN) (menuMyTimer { g0 with gameState := 1 }) _ = _
  rw [List.foldlM_append, hg3]
  show List.foldlM (handle m GLUT_DOWN) g3 [Event.timer] = _
  rw [List.foldlM_cons, e4]
  rfl

/-- The run `playEvents` ends in the first tick of level 1. -/
lemma program_playEvents (m : Libm K) (GLUT_DOWN : Int) (s : ℕ → ℕ) :
    ∃ g : Game K, program m GLUT_DOWN s (playEvents GLUT_DOWN) = some g
      ∧ g.timerFunc = TimerFunc.gameMyTimer ∧ g.gameState = 1 := by
  obtain ⟨g, hg, ht, hs, _⟩ := program_playEvents_pool m GLUT_DOWN s
  exact ⟨g, hg, ht, hs⟩

/-- The example `rammedGame` satisfies the invariant: one large asteroid on level 1. -/
lemma rammedGame_inv : Inv rammedGame := by
  obtain ⟨hwf, hw⟩ := poolWeight_seeded rammedGame.asteroids 1 (by omega)
    (fun i hi => by
      have e : rammedGame.asteroids i = diamond 3 := by
        show (if i.val = 0 then diamond 3 else blankAsteroid) = _
        rw [if_pos (by omega)]
      rw [e]
      exact ⟨rfl, by simp [diamond, LARGE_SIZE]⟩)
    (fun i hi => by
      have e : rammedGame.asteroids i = blankAsteroid := by
        show (if i.val = 0 then diamond 3 else blankAsteroid) = _
        rw [if_neg (by omega)]
      rw [e]
      rfl)
  refine ⟨by decide, by decide, fun _ h => absurd h (by decide), by decide, fun _ => ⟨by decide, hwf, ?_⟩⟩
  rw [hw]
  decide

/-! ## C16: a ship collision costs exactly one life -/

/-- C16: in the ship-vs-asteroid phase of a `gameMyTimer` tick, if the ship explosion is
inactive and `ShipCollision` returns 1 for some pair of hull vertex and active asteroid,
then `lives` decreases by exactly 1 and the explosion becomes active with
`dustTimer = 0`; if the explosion is already active or no pair hits, the phase changes
nothing (so `lives` and the explosion are as before).  Hence a whole tick leaves `lives`
as it was or takes exactly one life. -/
theorem shipCollisionPhase_lives (m : Libm K) (g : Game K) :
    (g.shipExplosion.active = 0 →
      (∃ j i, (g.asteroids i).active = 1
        ∧ ShipCollision g.ship (g.ship.coords j) (g.asteroids i) = 1) →
      (shipCollisionPhase g).lives = g.lives - 1
      ∧ (shipCollisionPhase g).shipExplosion.active = 1
      ∧ (shipCollisionPhase g).shipExplosion.dustTimer = 0)
    ∧ (g.shipExplosion.active ≠ 0
        ∨ (∀ j i, (g.asteroids i).active = 1 →
            ShipCollision g.ship (g.ship.coords j) (g.asteroids i) = 0) →
      shipCollisionPhase g = g)
    ∧ ∀ g' : Game K, gameMyTimer m g = some g' →
        g'.lives = g.lives ∨ g'.lives = g.lives - 1 := by
  refine ⟨?_, ?_, fun g' h => gameMyTimer_lives m g g' h⟩
  · rintro h0 ⟨j, i, hact, hc⟩
    have e := shipScan_hit _ g h0
      ⟨(j, i), mem_shipPairs j i, hact, by rw [hc]; decide⟩
    unfold shipCollisionPhase
    rw [e]
    obtain ⟨a1, a2, _⟩ := activateBurst_spec (0 : K) 0 g.shipExplosion g.randSeq
    exact ⟨rfl, a1, a2⟩
  · intro h
    unfold shipCollisionPhase
    rcases h with h | h
    · exact shipScan_exploding _ g h
    · exact shipScan_no_hit _ g fun p _ hc => hc.2 (h p.1 p.2 hc.1)

/-- In `rammedGame` the nose of the ship, at `(10, 21/2)`, is inside the asteroid of slot
0: the phase takes `lives` from 3 to 2 and starts the explosion, and the whole tick
returns with `lives` at 3 or 2. -/
theorem shipCollisionPhase_lives_witness :
    rammedGame.shipExplosion.active = 0
    ∧ (rammedGame.asteroids 0).active = 1
    ∧ ShipCollision rammedGame.ship (rammedGame.ship.coords 0) (rammedGame.asteroids 0) = 1
    ∧ ((shipCollisionPhase rammedGame).lives = 3 - 1
      ∧ (shipCollisionPhase rammedGame).shipExplosion.active = 1
      ∧ (shipCollisionPhase rammedGame).shipExplosion.dustTimer = 0)
    ∧ ∃ g' : Game ℚ, gameMyTimer headingUp rammedGame = some g'
        ∧ (g'.lives = 3 ∨ g'.lives = 3 - 1) :=
  have hc : ShipCollision rammedGame.ship (rammedGame.ship.coords 0) (rammedGame.asteroids 0)
      = 1 := by
    simp [ShipCollision, shipEdge, rammedGame, diamond, blankGame, List.range_succ]
    norm_num
  ⟨rfl, rfl, hc,
   (shipCollisionPhase_lives headingUp rammedGame).1 rfl ⟨0, 0, rfl, hc⟩,
   (gameMyTimer_inv headingUp rammedGame rfl rammedGame_inv).imp fun g' h =>
     ⟨h.1, (shipCollisionPhase_lives headingUp rammedGame).2.2 g' h.1⟩⟩

/-! ## C17: the pool never overflows during play -/

/-- C17: every run of the program (any events, any random stream, any `math.h` table)
ends in a state, so that no callback has written `asteroids[-1]`; and whenever that
state is in Playing (`gameMyTimer` registered), 4 times the number of active large
asteroids plus 2 times the number of active medium ones plus the number of active small
ones is at most `4 * gameState`, which is at most 32, handling a photon hit on any active
asteroid finds a free slot for both children, and the next tick returns. -/
theorem playing_weight_bound (m : Libm K) (GLUT_DOWN : Int) (s : ℕ → ℕ)
    (events : List Event) :
    ∃ g : Game K, program m GLUT_DOWN s events = some g
      ∧ (g.timerFunc = TimerFunc.gameMyTimer →
          ((4 * countSize g.asteroids LARGE_SIZE + 2 * countSize g.asteroids MEDIUM_SIZE
              + countSize g.asteroids SMALL_SIZE : ℕ) : Int) ≤ 4 * g.gameState
          ∧ 4 * g.gameState ≤ 32
          ∧ (∀ i j, (g.asteroids j).active = 1 → ∃ g' : Game K, photonHit m i j g = some g')
          ∧ ∃ g' : Game K, gameMyTimer m g = some g') := by
  obtain ⟨g, hg, hi⟩ := program_inv m GLUT_DOWN s events
  refine ⟨g, hg, fun ht => ?_⟩
  obtain ⟨h8, hwf, hw⟩ := hi.playing ht
  refine ⟨?_, by omega, ?_, ?_⟩
  · rw [← poolWeight_eq_counts]
    exact hw
  · intro i j hj
    obtain ⟨g', h, _⟩ := photonHit_inv m i j g hwf (by omega) hj
    exact ⟨g', h⟩
  · obtain ⟨g', h, _⟩ := gameMyTimer_inv m g ht hi
    exact ⟨g', h⟩

/-- The run `playEvents` (a click on the start box and 52 timer ticks) reaches Playing on
level 1, where the weighted count is at most 4. -/
theorem playing_weight_bound_witness :
    ∃ g : Game ℚ, program headingUp 0 (fun n => n) (playEvents 0) = some g
      ∧ g.timerFunc = TimerFunc.gameMyTimer ∧ g.gameState = 1
      ∧ ((4 * countSize g.asteroids LARGE_SIZE + 2 * countSize g.asteroids MEDIUM_SIZE
            + countSize g.asteroids SMALL_SIZE : ℕ) : Int) ≤ 4 * 1
      ∧ ∃ g' : Game ℚ, gameMyTimer headingUp g = some g' := by
  obtain ⟨g, hg, h⟩ := playing_weight_bound headingUp 0 (fun n => n) (playEvents 0)
  obtain ⟨g2, hg2, ht, hs⟩ := program_playEvents headingUp 0 (fun n => n)
  have e : g2 = g := Option.some.inj (hg2.symm.trans hg)
  rw [e] at ht hs
  obtain ⟨h1, _, _, h4⟩ := h ht
  rw [hs] at h1
  exact ⟨g, hg, ht, hs, h1, h4⟩

/-! ## C20: the number of lives stays between 0 and 3 -/

/-- C20: the initial globals have `lives = 3`, `gameState = 0` and the ship explosion
inactive, and every run of the program from them, through any sequence of timer ticks of
the four screens, redisplays and input events, with any random stream and any `math.h`
table, ends in a state with `0 <= lives <= 3`. -/
theorem program_lives_bounds (m : Libm K) (GLUT_DOWN : Int) (s : ℕ → ℕ)
    (events : List Event) :
    (startGame s : Game K).lives = 3 ∧ (startGame s : Game K).gameState = 0
    ∧ (startGame s : Game K).shipExplosion.active = 0
    ∧ ∃ g : Game K, program m GLUT_DOWN s events = some g ∧ 0 ≤ g.lives ∧ g.lives ≤ 3 := by
  obtain ⟨g, hg, hi⟩ := program_inv m GLUT_DOWN s events
  exact ⟨rfl, rfl, rfl, g, hg, hi.lives_nonneg, hi.lives_le⟩

/-! ## The photon phase inside a tick, photon by photon -/

/-- The photon-vs-asteroid phase is the loop over the photons before `i`, the loop body
for photon `i`, and the loop over the photons after `i`. -/
lemma photonPhase_at (m : Libm K) (g : Game K) (i : Fin MAX_PHOTONS) :
    photonPhase m g
      = (photonsBefore m g i).bind fun gi =>
          (photonStep m gi i).bind fun g' => photonsAfter m g' i := by
  have hlen : i.val < (List.finRange MAX_PHOTONS).length := by
    rw [List.length_finRange]; exact i.isLt
  have hget : (List.finRange MAX_PHOTONS)[i.val] = i := by
    rw [List.getElem_finRange]; rfl
  have hsplit : List.finRange MAX_PHOTONS
      = (List.finRange MAX_PHOTONS).take i.val
        ++ i :: (List.finRange MAX_PHOTONS).drop (i.val + 1) := by
    conv_lhs => rw [← List.take_append_drop i.val (List.finRange MAX_PHOTONS)]
    rw [List.drop_eq_getElem_cons hlen, hget]
  unfold photonPhase photonsBefore photonsAfter
  conv_lhs => rw [hsplit]
  rw [List.foldlM_append]
  simp only [List.foldlM_cons, Option.bind_eq_bind]

/-- A `gameMyTimer` tick is the photon-vs-asteroid phase on the advanced state, then the
ship-vs-asteroid phase and the choice of callbacks. -/
lemma gameMyTimer_eq (m : Libm K) (g : Game K) :
    gameMyTimer m g
      = (photonPhase m (beforeCollisions m g)).map fun b =>
          gameMyTimerEnd (shipCollisionPhase b) := by
  unfold gameMyTimer
  rw [gameMyTimerBody_eq, Option.map_map]
  rfl

/-- The loop body does nothing for a photon that is not active. -/
lemma photonSteps_inactive (m : Libm K) (l : List (Fin MAX_PHOTONS)) (g : Game K)
    (h : ∀ k ∈ l, (g.photons k).active ≠ 1) : l.foldlM (photonStep m) g = some g := by
  induction l with
  | nil => rfl
  | cons k l ih =>
    have hk : photonStep m g k = some g := by
      unfold photonStep
      rw [if_neg (h k (List.mem_cons_self k l))]
    rw [List.foldlM_cons, hk]
    exact ih fun k' hk' => h k' (List.mem_cons_of_mem k hk')

lemma initAsteroidAt_photons (m : Libm K) (idx : Int) (x y size : K) (g g' : Game K)
    (h : initAsteroidAt m idx x y size g = some g') : g'.photons = g.photons := by
  unfold initAsteroidAt at h
  split_ifs at h
  simp only [Option.some.injEq] at h
  subst h
  rfl

/-- The hit statements for photon `i` leave every other photon as it was. -/
lemma photonHit_photons (m : Libm K) (i : Fin MAX_PHOTONS) (j : Fin MAX_ASTEROIDS)
    (g g' : Game K) (h : photonHit m i j g = some g') (k : Fin MAX_PHOTONS) (hk : k ≠ i) :
    g'.photons k = g.photons k := by
  have hd := (activateDust_asteroids (g.asteroids j).x (g.asteroids j).y g).2
  have spawn : ∀ (sz : K) (g3 : Game K),
      (initAsteroidAt m (findInactiveAsteroid g3.asteroids)
          (g3.asteroids j).x (g3.asteroids j).y sz g3).bind (fun g4 =>
        initAsteroidAt m (findInactiveAsteroid g4.asteroids)
          (g4.asteroids j).x (g4.asteroids j).y sz g4) = some g' →
      g'.photons = g3.photons := by
    intro sz g3 hs
    obtain ⟨g4, h4, h5⟩ := Option.bind_eq_some.mp hs
    rw [initAsteroidAt_photons m _ _ _ _ g4 g' h5, initAsteroidAt_photons m _ _ _ _ g3 g4 h4]
  have h3 : ({ activateDust (g.asteroids j).x (g.asteroids j).y g with
        photons := Function.update (activateDust (g.asteroids j).x (g.asteroids j).y g).photons i
          { (activateDust (g.asteroids j).x (g.asteroids j).y g).photons i with active := 0 },
        asteroids := deactivate (activateDust (g.asteroids j).x (g.asteroids j).y g).asteroids j }
        : Game K).photons k = g.photons k :=
    (Function.update_noteq hk _ _).trans (congrFun hd k)
  unfold photonHit at h
  simp only [] at h
  split_ifs at h
  · exact (h3.symm.trans (congrFun (spawn _ _ h) k).symm).symm
  · exact (h3.symm.trans (congrFun (spawn _ _ h) k).symm).symm
  · simp only [Option.some.injEq] at h
    rw [← h]
    exact h3

/-- The first block of `gameMyTimer` leaves the photon pool alone. -/
lemma shipPhase_photons (m : Libm K) (g : Game K) : (shipPhase m g).photons = g.photons := by
  unfold shipPhase
  split_ifs <;> rfl

/-- When a tick reaches the collision tests each photon and each asteroid has been
advanced once. -/
lemma beforeCollisions_pools (m : Libm K) (g : Game K) :
    (∀ k, (beforeCollisions m g).photons k = advancePhoton g.xMax g.yMax (g.photons k))
    ∧ (∀ k, (beforeCollisions m g).asteroids k
        = advanceAsteroid g.xMax g.yMax (g.asteroids k)) := by
  obtain ⟨_, _, _, h4, _, hx, hy⟩ := shipPhase_frame m g
  have hp := shipPhase_photons m g
  constructor
  · intro k
    unfold beforeCollisions advanceAsteroids
    simp only [forSlots_apply, hp, hx, hy]
  · intro k
    unfold beforeCollisions advanceAsteroids
    simp only [forSlots_apply, h4, hx, hy]

lemma photonScan_photons (m : Libm K) (i : Fin MAX_PHOTONS) (l : List (Fin MAX_ASTEROIDS))
    (g g' : Game K) (h : photonScan m i l g = some g') (k : Fin MAX_PHOTONS) (hk : k ≠ i) :
    g'.photons k = g.photons k := by
  induction l with
  | nil =>
    simp only [photonScan, Option.some.injEq] at h
    rw [← h]
  | cons j l ih =>
    rw [photonScan] at h
    split_ifs at h
    · exact photonHit_photons m i j g g' h k hk
    · exact ih h
    · exact ih h

/-- The loop body for photon `i` leaves every other photon as it was. -/
lemma photonStep_photons (m : Libm K) (g g' : Game K) (i : Fin MAX_PHOTONS)
    (h : photonStep m g i = some g') (k : Fin MAX_PHOTONS) (hk : k ≠ i) :
    g'.photons k = g.photons k := by
  unfold photonStep at h
  split_ifs at h
  · exact photonScan_photons m i _ g g' h k hk
  · simp only [Option.some.injEq] at h
    rw [← h]

/-! ## Two overlapping asteroids and one photon -/

/-- The pools of `overlapAdvanced`: photon 0 is at `(10, 21/2)`, the other photons are
off, and the asteroids are where they were (they do not move). -/
lemma overlapAdvanced_pools :
    overlapAdvanced.photons 0 = { active := 1, x := 10, y := 21 / 2, dx := 0, dy := 5 }
    ∧ (∀ k : Fin MAX_PHOTONS, k ≠ 0 → (overlapAdvanced.photons k).active = 0)
    ∧ overlapAdvanced.asteroids 0 = diamond 3
    ∧ overlapAdvanced.asteroids 1 = { diamond 3 with y := 11 }
    ∧ (∀ k : Fin MAX_ASTEROIDS, 2 ≤ k.val → overlapAdvanced.asteroids k = blankAsteroid) := by
  obtain ⟨hp, ha⟩ := beforeCollisions_pools headingUp overlapGame
  refine ⟨?_, ?_, ?_, ?_, ?_⟩
  · show (beforeCollisions headingUp overlapGame).photons 0 = _
    rw [hp]
    simp [advancePhoton, overlapGame, blankGame]
    norm_num
  · intro k hk
    show ((beforeCollisions headingUp overlapGame).photons k).active = 0
    rw [hp]
    have hv : k.val ≠ 0 := fun h => hk (Fin.ext h)
    simp [advancePhoton, overlapGame, hv]
  · show (beforeCollisions headingUp overlapGame).asteroids 0 = _
    rw [ha]
    simp [advanceAsteroid, overlapGame, blankGame, diamond]
    norm_num
  · show (beforeCollisions headingUp overlapGame).asteroids 1 = _
    rw [ha]
    simp [advanceAsteroid, overlapGame, blankGame, diamond]
    norm_num
  · intro k hk
    show (beforeCollisions headingUp overlapGame).asteroids k = _
    rw [ha]
    have h0 : k.val ≠ 0 := by omega
    have h1 : k.val ≠ 1 := by omega
    simp [advanceAsteroid, overlapGame, blankAsteroid, h0, h1]

/-- In `overlapAdvanced` photon 0 is inside the asteroid of slot 0 and inside the one of
slot 1. -/
lemma overlapAdvanced_hits :
    PhotonCollision (overlapAdvanced.photons 0) (overlapAdvanced.asteroids 0) = 1
    ∧ PhotonCollision (overlapAdvanced.photons 0) (overlapAdvanced.asteroids 1) = 1 := by
  obtain ⟨hp, _, h0, h1, _⟩ := overlapAdvanced_pools
  rw [hp, h0, h1]
  constructor
  · simp [PhotonCollision, photonEdge, diamond, List.range_succ]
    norm_num
  · simp [PhotonCollision, photonEdge, diamond, List.range_succ]
    norm_num

/-- The photon phase on `overlapAdvanced`: photon 0 splits the asteroid of slot 0, the
first it hits, into two medium ones at `(10, 10)`; every other slot, slot 1 among them,
is as it was. -/
lemma overlapAdvanced_phase :
    ∃ (g' : Game ℚ) (k1 k2 : Fin MAX_ASTEROIDS),
      photonStep headingUp overlapAdvanced 0 = some g'
      ∧ photonPhase headingUp overlapAdvanced = some g'
      ∧ (g'.photons 0).active = 0
      ∧ k1 ≠ k2
      ∧ (deactivate overlapAdvanced.asteroids 0 k1).active = 0
      ∧ (deactivate overlapAdvanced.asteroids 0 k2).active = 0
      ∧ ((g'.asteroids k1).active = 1 ∧ (g'.asteroids k1).size = MEDIUM_SIZE
        ∧ (g'.asteroids k1).x = 10 ∧ (g'.asteroids k1).y = 10)
      ∧ ((g'.asteroids k2).active = 1 ∧ (g'.asteroids k2).size = MEDIUM_SIZE
        ∧ (g'.asteroids k2).x = 10 ∧ (g'.asteroids k2).y = 10)
      ∧ (∀ k, k ≠ k1 → k ≠ k2 → g'.asteroids k = deactivate overlapAdvanced.asteroids 0 k) := by
  obtain ⟨hp, hoff, h0, h1, hrest⟩ := overlapAdvanced_pools
  obtain ⟨hc0, _⟩ := overlapAdvanced_hits
  have hpa : (overlapAdvanced.photons 0).active = 1 := by rw [hp]
  have hja : (overlapAdvanced.asteroids 0).active = 1 := by rw [h0]; rfl
  have hL : (overlapAdvanced.asteroids 0).size = LARGE_SIZE := by
    rw [h0]; simp [diamond, LARGE_SIZE]
  have hx : (overlapAdvanced.asteroids 0).x = 10 := by rw [h0]; rfl
  have hy : (overlapAdvanced.asteroids 0).y = 10 := by rw [h0]; rfl
  have h2 : (deactivate overlapAdvanced.asteroids 0 2).active = 0 := by
    unfold deactivate
    rw [Function.update_noteq (by decide), hrest 2 (by decide)]
    rfl
  have h3 : (deactivate overlapAdvanced.asteroids 0 3).active = 0 := by
    unfold deactivate
    rw [Function.update_noteq (by decide), hrest 3 (by decide)]
    rfl
  obtain ⟨g', hstep, hph, hlarge, _, _⟩ := photonStep_split headingUp overlapAdvanced 0 0
    hpa hja hc0 (fun k hk => absurd hk (Fin.not_lt_zero k)) ⟨2, 3, by decide, h2, h3⟩
  obtain ⟨⟨k1, k2, hne, d1, d2, c1, c2, hkeep⟩, _⟩ := hlarge hL
  have hafter : photonsAfter headingUp g' 0 = some g' := by
    refine photonSteps_inactive headingUp _ g' fun k hk => ?_
    have hk0 : k ≠ 0 := by
      rintro rfl
      revert hk
      decide
    rw [photonStep_photons headingUp overlapAdvanced g' 0 hstep k hk0, hoff k hk0]
    decide
  refine ⟨g', k1, k2, hstep, ?_, hph, hne, d1, d2, ?_, ?_, hkeep⟩
  · rw [photonPhase_at headingUp overlapAdvanced 0]
    have hb : photonsBefore headingUp overlapAdvanced 0 = some overlapAdvanced := rfl
    rw [hb, Option.some_bind, hstep, Option.some_bind]
    exact hafter
  · exact ⟨c1.1, c1.2.1, c1.2.2.1.trans hx, c1.2.2.2.trans hy⟩
  · exact ⟨c2.1, c2.2.1, c2.2.2.1.trans hx, c2.2.2.2.trans hy⟩

/-! ## C1: a photon splits the first asteroid it hits -/

/-- C1, amended: in the photon-vs-asteroid phase of a `gameMyTimer` tick the photons are
handled in slot order; let `gi` be the state when the turn of photon `i` comes, photon
`i` be active in it, and `j` be the first active asteroid in slot order that it hits
(`PhotonCollision` returns 1), with at least two asteroid slots inactive once `j` is
deactivated.  Then the loop body for photon `i` returns a state from which the phase and
the tick continue, photon `i` is off, and: for `j` of `LARGE_SIZE` exactly two slots that
were inactive now hold active asteroids of `MEDIUM_SIZE` at `j`'s `x`, `y`; for
`MEDIUM_SIZE` the same with two of `SMALL_SIZE`; for `SMALL_SIZE` no asteroid is
created and `j` just becomes inactive.  Every other slot is as it was: asteroids in
later slots that the photon also overlaps are not touched by it. -/
theorem photonPhase_split (m : Libm K) (g0 gi : Game K) (i : Fin MAX_PHOTONS)
    (j : Fin MAX_ASTEROIDS)
    (hbefore : photonsBefore m (beforeCollisions m g0) i = some gi)
    (hp : (gi.photons i).active = 1) (hj : (gi.asteroids j).active = 1)
    (hc : PhotonCollision (gi.photons i) (gi.asteroids j) = 1)
    (hfirst : ∀ k, k < j → ¬ ((gi.asteroids k).active = 1
      ∧ PhotonCollision (gi.photons i) (gi.asteroids k) ≠ 0))
    (h2 : ∃ k1 k2 : Fin MAX_ASTEROIDS, k1 ≠ k2 ∧ (deactivate gi.asteroids j k1).active = 0
      ∧ (deactivate gi.asteroids j k2).active = 0) :
    ∃ g' : Game K, photonStep m gi i = some g'
      ∧ photonPhase m (beforeCollisions m g0) = photonsAfter m g' i
      ∧ gameMyTimer m g0
          = (photonsAfter m g' i).map (fun b => gameMyTimerEnd (shipCollisionPhase b))
      ∧ (g'.photons i).active = 0
      ∧ ((gi.asteroids j).size = LARGE_SIZE →
          (∃ k1 k2 : Fin MAX_ASTEROIDS, k1 ≠ k2
            ∧ (deactivate gi.asteroids j k1).active = 0
            ∧ (deactivate gi.asteroids j k2).active = 0
            ∧ ((g'.asteroids k1).active = 1 ∧ (g'.asteroids k1).size = MEDIUM_SIZE
              ∧ (g'.asteroids k1).x = (gi.asteroids j).x
              ∧ (g'.asteroids k1).y = (gi.asteroids j).y)
            ∧ ((g'.asteroids k2).active = 1 ∧ (g'.asteroids k2).size = MEDIUM_SIZE
              ∧ (g'.asteroids k2).x = (gi.asteroids j).x
              ∧ (g'.asteroids k2).y = (gi.asteroids j).y)
            ∧ (∀ k, k ≠ k1 → k ≠ k2 → g'.asteroids k = deactivate gi.asteroids j k))
          ∧ (Finset.univ.filter fun k => (g'.asteroids k).active = 1).card
              = (Finset.univ.filter fun k => (deactivate gi.asteroids j k).active = 1).card + 2)
      ∧ ((gi.asteroids j).size = MEDIUM_SIZE →
          (∃ k1 k2 : Fin MAX_ASTEROIDS, k1 ≠ k2
            ∧ (deactivate gi.asteroids j k1).active = 0
            ∧ (deactivate gi.asteroids j k2).active = 0
            ∧ ((g'.asteroids k1).active = 1 ∧ (g'.asteroids k1).size = SMALL_SIZE
              ∧ (g'.asteroids k1).x = (gi.asteroids j).x
              ∧ (g'.asteroids k1).y = (gi.asteroids j).y)
            ∧ ((g'.asteroids k2).active = 1 ∧ (g'.asteroids k2).size = SMALL_SIZE
              ∧ (g'.asteroids k2).x = (gi.asteroids j).x
              ∧ (g'.asteroids k2).y = (gi.asteroids j).y)
            ∧ (∀ k, k ≠ k1 → k ≠ k2 → g'.asteroids k = deactivate gi.asteroids j k))
          ∧ (Finset.univ.filter fun k => (g'.asteroids k).active = 1).card
              = (Finset.univ.filter fun k => (deactivate gi.asteroids j k).active = 1).card + 2)
      ∧ ((gi.asteroids j).size = SMALL_SIZE →
          g'.asteroids = deactivate gi.asteroids j
          ∧ (deactivate gi.asteroids j j).active = 0
          ∧ ∀ k, k ≠ j → g'.asteroids k = gi.asteroids k) := by
  obtain ⟨g', hstep, hph, hL, hM, hS⟩ := photonStep_split m gi i j hp hj hc hfirst h2
  have hphase : photonPhase m (beforeCollisions m g0) = photonsAfter m g' i := by
    rw [photonPhase_at m _ i, hbefore, Option.some_bind, hstep, Option.some_bind]
  refine ⟨g', hstep, hphase, ?_, hph, hL, hM, hS⟩
  rw [gameMyTimer_eq, hphase]

/-- The amended C1 theorem applied to the tick from `overlapGame`, photon 0 and the
asteroid of slot 0, the first one it hits: two medium asteroids appear at `(10, 10)`. -/
theorem photonPhase_split_witness :
    photonsBefore headingUp (beforeCollisions headingUp overlapGame) 0 = some overlapAdvanced
    ∧ (overlapAdvanced.photons 0).active = 1 ∧ (overlapAdvanced.asteroids 0).active = 1
    ∧ PhotonCollision (overlapAdvanced.photons 0) (overlapAdvanced.asteroids 0) = 1
    ∧ (overlapAdvanced.asteroids 0).size = LARGE_SIZE
    ∧ ∃ g' : Game ℚ, photonStep headingUp overlapAdvanced 0 = some g'
        ∧ photonPhase headingUp (beforeCollisions headingUp overlapGame)
            = photonsAfter headingUp g' 0
        ∧ (g'.photons 0).active = 0
        ∧ ∃ k1 k2 : Fin MAX_ASTEROIDS, k1 ≠ k2
            ∧ ((g'.asteroids k1).active = 1 ∧ (g'.asteroids k1).size = MEDIUM_SIZE
              ∧ (g'.asteroids k1).x = (overlapAdvanced.asteroids 0).x
              ∧ (g'.asteroids k1).y = (overlapAdvanced.asteroids 0).y)
            ∧ ((g'.asteroids k2).active = 1 ∧ (g'.asteroids k2).size = MEDIUM_SIZE
              ∧ (g'.asteroids k2).x = (overlapAdvanced.asteroids 0).x
              ∧ (g'.asteroids k2).y = (overlapAdvanced.asteroids 0).y) := by
  obtain ⟨hp, _, h0, _, hrest⟩ := overlapAdvanced_pools
  obtain ⟨hc0, _⟩ := overlapAdvanced_hits
  have hpa : (overlapAdvanced.photons 0).active = 1 := by rw [hp]
  have hja : (overlapAdvanced.asteroids 0).active = 1 := by rw [h0]; rfl
  have hL : (overlapAdvanced.asteroids 0).size = LARGE_SIZE := by
    rw [h0]; simp [diamond, LARGE_SIZE]
  have h2 : (deactivate overlapAdvanced.asteroids 0 2).active = 0 := by
    unfold deactivate
    rw [Function.update_noteq (by decide), hrest 2 (by decide)]
    rfl
  have h3 : (deactivate overlapAdvanced.asteroids 0 3).active = 0 := by
    unfold deactivate
    rw [Function.update_noteq (by decide), hrest 3 (by decide)]
    rfl
  obtain ⟨g', hstep, hphase, _, hph, hlarge, _, _⟩ :=
    photonPhase_split headingUp overlapGame overlapAdvanced 0 0 rfl hpa hja hc0
      (fun k hk => absurd hk (Fin.not_lt_zero k)) ⟨2, 3, by decide, h2, h3⟩
  obtain ⟨⟨k1, k2, hne, _, _, c1, c2, _⟩, _⟩ := hlarge hL
  exact ⟨rfl, hpa, hja, hc0, hL, g', hstep, hphase, hph, k1, k2, hne, c1, c2⟩

/-- C1 as stated fails: in the tick from `overlapGame` photon 0, active, is inside the
active large asteroid of slot 1 (`PhotonCollision` returns 1) and 30 slots are inactive
once slot 1 is deactivated; but the photon is also inside the asteroid of slot 0, the
inner loop breaks after that first hit, and at the end of the photon phase slot 1 is
unchanged and no active medium asteroid sits at its position `(10, 11)`. -/
theorem photonPhase_overlap_keeps_second :
    (overlapAdvanced.photons 0).active = 1
    ∧ (overlapAdvanced.asteroids 1).active = 1
    ∧ PhotonCollision (overlapAdvanced.photons 0) (overlapAdvanced.asteroids 1) = 1
    ∧ (overlapAdvanced.asteroids 1).size = LARGE_SIZE
    ∧ (overlapAdvanced.asteroids 1).x = 10 ∧ (overlapAdvanced.asteroids 1).y = 11
    ∧ (∀ k : Fin MAX_ASTEROIDS, 2 ≤ k.val →
        (deactivate overlapAdvanced.asteroids 1 k).active = 0)
    ∧ ∃ g' : Game ℚ, photonPhase headingUp (beforeCollisions headingUp overlapGame) = some g'
        ∧ gameMyTimer headingUp overlapGame = some (gameMyTimerEnd (shipCollisionPhase g'))
        ∧ g'.asteroids 1 = overlapAdvanced.asteroids 1
        ∧ (g'.asteroids 1).active = 1
        ∧ ∀ k, ¬ ((g'.asteroids k).active = 1 ∧ (g'.asteroids k).size = MEDIUM_SIZE
            ∧ (g'.asteroids k).x = (overlapAdvanced.asteroids 1).x
            ∧ (g'.asteroids k).y = (overlapAdvanced.asteroids 1).y) := by
  obtain ⟨hp, _, h0, h1, hrest⟩ := overlapAdvanced_pools
  obtain ⟨_, hc1⟩ := overlapAdvanced_hits
  obtain ⟨g', k1, k2, _, hphase, _, _, d1, d2, c1, c2, hkeep⟩ := overlapAdvanced_phase
  have hact1 : (overlapAdvanced.asteroids 1).active = 1 := by rw [h1]; rfl
  have hsz1 : (overlapAdvanced.asteroids 1).size = LARGE_SIZE := by
    rw [h1]; simp [diamond, LARGE_SIZE]
  have hx1 : (overlapAdvanced.asteroids 1).x = 10 := by rw [h1]; rfl
  have hy1 : (overlapAdvanced.asteroids 1).y = 11 := by rw [h1]
  have hd1 : deactivate overlapAdvanced.asteroids 0 1 = overlapAdvanced.asteroids 1 := by
    unfold deactivate
    rw [Function.update_noteq (by decide)]
  have hk1 : (1 : Fin MAX_ASTEROIDS) ≠ k1 := fun h => by
    rw [← h, hd1, hact1] at d1
    exact absurd d1 (by decide)
  have hk2 : (1 : Fin MAX_ASTEROIDS) ≠ k2 := fun h => by
    rw [← h, hd1, hact1] at d2
    exact absurd d2 (by decide)
  have hkept : g'.asteroids 1 = overlapAdvanced.asteroids 1 := by
    rw [hkeep 1 hk1 hk2, hd1]
  have hML : (MEDIUM_SIZE : ℚ) ≠ LARGE_SIZE := by norm_num [LARGE_SIZE, MEDIUM_SIZE]
  refine ⟨by rw [hp], hact1, hc1, hsz1, hx1, hy1, fun k hk => ?_, g', hphase, ?_, hkept,
    by rw [hkept]; exact hact1, fun k hk => ?_⟩
  · unfold deactivate
    rw [Function.update_noteq (fun h => by rw [h] at hk; revert hk; decide), hrest k hk]
    rfl
  · rw [gameMyTimer_eq]
    show Option.map _ (photonPhase headingUp overlapAdvanced) = _
    rw [hphase]
    rfl
  · obtain ⟨ka, ks, _, ky⟩ := hk
    rw [hy1] at ky
    by_cases e1 : k = k1
    · rw [e1, c1.2.2.2] at ky
      norm_num at ky
    · by_cases e2 : k = k2
      · rw [e2, c2.2.2.2] at ky
        norm_num at ky
      · rw [hkeep k e1 e2] at ka ks
        by_cases e0 : k = 0
        · rw [e0] at ka
          simp [deactivate] at ka
        · have hd : deactivate overlapAdvanced.asteroids 0 k = overlapAdvanced.asteroids k := by
            unfold deactivate
            rw [Function.update_noteq e0]
          rw [hd] at ka ks
          by_cases e : k = 1
          · rw [e, hsz1] at ks
            exact hML ks.symm
          · have hk2 : 2 ≤ k.val := by
              have a0 : k.val ≠ 0 := fun h => e0 (Fin.ext h)
              have a1 : k.val ≠ 1 := fun h => e (Fin.ext h)
              omega
            rw [hrest k hk2] at ka
            exact absurd ka (by decide)

/-! ## C14: a split always finds its two slots -/

end Theorems

end Asteroids
